import Mathlib

/-! ZeroCost scraper service: scrape orchestration.

A shallow embedding of the Go scraper service (`backend/go-scraper`):

* `internal/models/event.go`      : `Event`, `ScraperResult`
* `internal/config/config.go`     : `Config`, `getEnv`, `getEnvAsInt`
* `internal/ingestion/client.go`  : `Client.IngestEvents`, `Client.IngestEvent`
* `internal/scrapers/manager.go`  : `NewManager`, `runScraper`, `RunAllScrapers`
* `internal/scrapers/*.go`        : the `Scrape` methods of the four sources,
  `mapCategory`, `categorizePost`

`RunAllScrapers` is concurrent.  It is embedded as a transition system whose
state holds the program counter of every goroutine together with the shared
objects (`ctx`, the `results` channel, the `semaphore` channel, the
`sync.WaitGroup`) and the locals of the collection loop.  A schedule is a list
of actions; an action that is not enabled (a goroutine that is blocked) leaves
the state unchanged.
-/

namespace ZeroCost

set_option maxRecDepth 100000

/-! ## `internal/models/event.go` -/

/-- Event is `models.Event`.  Coordinates are kept as fixed-point integers
(units of 1e-4 degree), times as Unix nanoseconds, and `RawData` as an
association list. -/
structure Event where
  Title : String
  Description : String
  Latitude : Int
  Longitude : Int
  Address : String
  StartTime : Int
  EndTime : Option Int
  Category : String
  Source : String
  SourceURL : String
  ImageURL : String
  Organizer : String
  Capacity : Int
  RawData : List (String × String)
deriving DecidableEq, Repr

/-- The Go builtin `len` on a `[]models.Event`; `none` is the nil slice and
`some []` an empty non-nil slice. -/
def len : Option (List Event) → Nat
  | none => 0
  | some xs => xs.length

/-- ScraperResult is `models.ScraperResult`. -/
structure ScraperResult where
  Source : String
  Events : Option (List Event)
  ErrorCount : Int
  Duration : Int
deriving DecidableEq, Repr

/-! ## `context.Context` -/

/-- The status of a `context.Context` as seen through `Done()` and `Err()`. -/
inductive Ctx
  | active
  | canceled
  | deadlineExceeded
deriving DecidableEq, Repr

/-- The value of `ctx.Err()`: nil while the context is active. -/
def Ctx.Err : Ctx → Option String
  | .active => none
  | .canceled => some "context canceled"
  | .deadlineExceeded => some "context deadline exceeded"

/-- Whether the channel `ctx.Done()` is closed. -/
def Ctx.Done (c : Ctx) : Bool := c.Err.isSome

/-! ## `internal/config/config.go` -/

/-- Config is `config.Config`. -/
structure Config where
  Port : String
  JavaAPIURL : String
  ScraperIntervalMinutes : Int
  UserAgent : String
  RedditClientID : String
  RedditClientSecret : String
  EventbriteAPIKey : String
  MeetupAPIKey : String
  MaxConcurrentScrapers : Int
  RequestDelayMS : Int
deriving DecidableEq, Repr

/-- The digits of a decimal numeral, most significant first; `none` if some
character is not an ASCII digit. -/
def digitsValue : List Char → Nat → Option Nat
  | [], acc => some acc
  | c :: cs, acc => if c.isDigit then digitsValue cs (acc * 10 + (c.toNat - 48)) else none

/-- The function `strconv.Atoi`: an optional sign followed by one or more
decimal digits, within the range of a 64-bit `int`. -/
def Atoi (s : String) : Option Int :=
  let (neg, ds) :=
    match s.data with
    | '-' :: ds => (true, ds)
    | '+' :: ds => (false, ds)
    | ds => (false, ds)
  if ds.isEmpty then none
  else
    match digitsValue ds 0 with
    | none => none
    | some n =>
      let v : Int := if neg then -(n : Int) else (n : Int)
      if -(2 ^ 63 : Int) ≤ v ∧ v < (2 ^ 63 : Int) then some v else none

/-- The function `getEnv`; `environ` is `os.Getenv`. -/
def getEnv (environ : String → String) (key defaultValue : String) : String :=
  let value := environ key
  if value = "" then defaultValue else value

/-- The function `getEnvAsInt`; `environ` is `os.Getenv`. -/
def getEnvAsInt (environ : String → String) (key : String) (defaultValue : Int) : Int :=
  let valueStr := environ key
  if valueStr = "" then defaultValue
  else
    match Atoi valueStr with
    | none => defaultValue
    | some value => value

/-- The function `LoadConfig`. -/
def LoadConfig (environ : String → String) : Config :=
  { Port := getEnv environ "PORT" "8081"
    JavaAPIURL := getEnv environ "JAVA_API_URL" "http://localhost:8080"
    ScraperIntervalMinutes := getEnvAsInt environ "SCRAPER_INTERVAL_MINUTES" 30
    UserAgent := getEnv environ "SCRAPER_USER_AGENT" "ZeroCostBot/1.0"
    RedditClientID := getEnv environ "REDDIT_CLIENT_ID" ""
    RedditClientSecret := getEnv environ "REDDIT_CLIENT_SECRET" ""
    EventbriteAPIKey := getEnv environ "EVENTBRITE_API_KEY" ""
    MeetupAPIKey := getEnv environ "MEETUP_API_KEY" ""
    MaxConcurrentScrapers := getEnvAsInt environ "MAX_CONCURRENT_SCRAPERS" 4
    RequestDelayMS := getEnvAsInt environ "REQUEST_DELAY_MS" 1000 }

/-! ## `internal/ingestion/client.go` -/

/-- An outgoing `http.Request`, as far as `IngestEvents` builds it. -/
structure Request where
  Method : String
  URL : String
  Header : List (String × String)
  Body : String
deriving DecidableEq, Repr

/-- The method `req.Header.Set`: the value of `key` is replaced. -/
def Request.Set (req : Request) (key value : String) : Request :=
  { req with Header := req.Header.filter (fun kv => kv.1 ≠ key) ++ [(key, value)] }

/-- An `http.Response`, as far as `IngestEvents` reads it. -/
structure Response where
  StatusCode : Int
  Body : String
deriving DecidableEq, Repr

/-- The two library constructors `IngestEvents` relies on: `json.Marshal`
applied to the payload `map["events"] = events`, and
`http.NewRequest(method, url, body)`.  Both may fail. -/
structure Lib where
  Marshal : Option (List Event) → Except String String
  NewRequest : String → String → String → Except String Request

/-- Client is `ingestion.Client`.  The field `httpClient` is `httpClient.Do`:
given the number of `IngestEvents` calls made earlier in the run and the
request, it yields the response of the Java API or a transport error. -/
structure Client where
  apiURL : String
  httpClient : Nat → Request → Except String Response

/-- The method `Client.IngestEvents`.  The first component is the returned
`error` (`none` is nil), the second the requests handed to `httpClient.Do`. -/
def Client.IngestEvents (lib : Lib) (c : Client) (n : Nat) (events : Option (List Event)) :
    Option String × List Request :=
  if len events = 0 then (none, [])
  else
    let url := c.apiURL ++ "/api/v1/events/ingest"
    match lib.Marshal events with
    | .error err => (some ("failed to marshal events: " ++ err), [])
    | .ok jsonData =>
      match lib.NewRequest "POST" url jsonData with
      | .error err => (some ("failed to create request: " ++ err), [])
      | .ok req0 =>
        let req := (req0.Set "Content-Type" "application/json").Set "User-Agent" "ZeroCost-Scraper/1.0"
        match c.httpClient n req with
        | .error err => (some ("failed to send request: " ++ err), [req])
        | .ok resp =>
          if resp.StatusCode ≠ 200 ∧ resp.StatusCode ≠ 201 then
            (some ("ingestion failed with status " ++ toString resp.StatusCode ++ ": " ++ resp.Body), [req])
          else (none, [req])

/-- The method `Client.IngestEvent`. -/
def Client.IngestEvent (lib : Lib) (c : Client) (n : Nat) (event : Event) :
    Option String × List Request :=
  c.IngestEvents lib n (some [event])

/-! ## The rate limiter (`golang.org/x/time/rate`) and `time.Duration` -/

/-- The value an `int64` holds after an arithmetic result `x`: Go wraps around. -/
def wrapInt64 (x : Int) : Int := (x + 2 ^ 63) % 2 ^ 64 - 2 ^ 63

/-- The constant `time.Millisecond`, in nanoseconds. -/
def Millisecond : Int := 1000000

/-- The expression `time.Duration(ms) * time.Millisecond`: a `time.Duration`
is an `int64` count of nanoseconds, and the product wraps around. -/
def durationOfMillis (ms : Int) : Int := wrapInt64 (ms * Millisecond)

/-- The type `rate.Limit`: the refill rate of a limiter, either infinite or
one token per `nanos` nanoseconds (kept as the interval so that the
arithmetic stays exact). -/
inductive Limit
  | Inf
  | every (nanos : Int)
deriving DecidableEq, Repr

/-- Modelled from the spec: `rate.Every` belongs to the library
`golang.org/x/time/rate`, whose source is not part of the repository.  It
"converts a minimum time interval between events to a Limit", the "fixed rate
(tokens per unit time)" of section 4.1; the library maps an interval that is
not positive to `Inf`. -/
def Every (interval : Int) : Limit :=
  if interval ≤ 0 then .Inf else .every interval

/-- Modelled from the spec: the RateLimiter state of section 3, "a token
bucket: capacity, refill rate, current token count, last-refill timestamp".
The token count is kept as `tokens`, the number of tokens multiplied by the
refill interval (the nanoseconds it takes to refill them); a negative count is
a debt to callers that are still waiting.  Instants are nanoseconds. -/
structure Limiter where
  limit : Limit
  burst : Int
  tokens : Int
  last : Int
deriving DecidableEq, Repr

/-- Modelled from the spec: `rate.NewLimiter(r, b)`; the bucket starts full. -/
def NewLimiter (r : Limit) (b : Int) : Limiter :=
  match r with
  | .Inf => { limit := r, burst := b, tokens := 0, last := 0 }
  | .every d => { limit := r, burst := b, tokens := b * d, last := 0 }

/-- Modelled from the spec: `rate.Limiter.Wait(ctx)`, the `Acquire` of
section 4.1, called at the instant `now` with a `ctx` that is cancelled or
expires at the instant `doneAt` (`none`: never).  "Blocks until either a
token is available or `ctx` is cancelled/expired, in which case it returns a
cancellation signal and performs no side effect.  Token replenishment is
continuous at a fixed rate up to a fixed burst capacity."  The result is the
returned `error`, the instant at which the call returns, and the limiter
afterwards. -/
def Limiter.Wait (lim : Limiter) (now : Int) (doneAt : Option Int) :
    Option String × Int × Limiter :=
  match lim.limit with
  | .Inf =>
    match doneAt with
    | some t => if t ≤ now then (some "context canceled", now, lim) else (none, now, lim)
    | none => (none, now, lim)
  | .every d =>
    -- replenish up to the burst capacity, then take one token
    let filled := min (lim.burst * d) (lim.tokens + (now - lim.last))
    let ready := now + max 0 (d - filled)
    let granted : Option String × Int × Limiter :=
      (none, ready, { lim with tokens := filled - d, last := now })
    match doneAt with
    | some t =>
      if t ≤ now then (some "context canceled", now, lim)
      else if t < ready then (some "context canceled", t, lim)
      else granted
    | none => granted

/-- The instant at which the last of `k` back-to-back `Wait` calls returns,
and the limiter afterwards: the first call is made at `now`, each further one
at the instant the previous one returned; the context is never cancelled. -/
def Limiter.backToBack (lim : Limiter) (now : Int) : Nat → Int × Limiter
  | 0 => (now, lim)
  | k + 1 => ((lim.Wait now none).2.2).backToBack (lim.Wait now none).2.1 k

/-! ## `internal/scrapers/manager.go` -/

/-- How a call ends: it returns a value, it panics, or it has not returned
(the callee is still blocked). -/
inductive Call (α : Type)
  | returned (a : α)
  | panicked
  | pending
deriving DecidableEq, Repr

/-- The interface `Scraper`.  `Scrape c` is how the call `Scrape(ctx)` ends
when `c` is the status of `ctx` at that moment; a returned triple is the
record slice, the `error`, and the time the call took (which `runScraper`
measures around it with `time.Now` and `time.Since`). -/
structure Scraper where
  Name : String
  Scrape : Ctx → Call (Option (List Event) × Option String × Int)

/-- Manager is `scrapers.Manager`. -/
structure Manager where
  scrapers : List Scraper
  ingestionClient : Client
  rateLimiter : Limiter
  config : Config

/-- The method `Manager.runScraper`. -/
def runScraper (ctx : Ctx) (scraper : Scraper) : Call ScraperResult :=
  match scraper.Scrape ctx with
  | .returned (events, err, duration) =>
    let result : ScraperResult :=
      { Source := scraper.Name, Events := events, Duration := duration, ErrorCount := 0 }
    if err.isSome then .returned { result with ErrorCount := 1 } else .returned result
  | .panicked => .panicked
  | .pending => .pending

/-- Program counter of one goroutine `go func(s Scraper) ...` spawned by
`RunAllScrapers`. -/
inductive Task
  /-- At `semaphore <- struct{}{}`. -/
  | acquiring
  /-- Holding a slot, inside `m.runScraper(ctx, s)`. -/
  | running
  /-- At `results <- result`. -/
  | publishing (result : ScraperResult)
  /-- At the deferred `<-semaphore`; the flag says whether the goroutine is panicking. -/
  | releasing (panicking : Bool)
  /-- At the deferred `wg.Done()`. -/
  | finishing (panicking : Bool)
  /-- The deferred calls of a panicking goroutine have run; the runtime is
  about to terminate the process. -/
  | dying
  /-- The goroutine is gone. -/
  | exited
deriving DecidableEq, Repr

/-- Program counter of the goroutine that called `RunAllScrapers`. -/
inductive MainPc
  /-- Before the two `make(chan ...)`. -/
  | entry
  /-- In `for _, scraper := range m.scrapers`, about to handle index `i`. -/
  | spawning (i : Nat)
  /-- In `for result := range results`. -/
  | collecting
  /-- After the final `log.Printf`. -/
  | returned
deriving DecidableEq, Repr

/-- Program counter of `go func() { wg.Wait(); close(results) }()`. -/
inductive WaiterPc
  | idle
  | waiting
  | closing
  | finished
deriving DecidableEq, Repr

/-- The state of one call of `RunAllScrapers`. -/
structure State where
  /-- Status of the caller's `ctx`. -/
  ctx : Ctx
  mainPc : MainPc
  tasks : List Task
  waiter : WaiterPc
  /-- Counter of `wg`. -/
  wg : Nat
  /-- Number of elements buffered in `semaphore`. -/
  semaphore : Nat
  /-- Buffer of the channel `results`. -/
  results : List ScraperResult
  /-- Whether `results` has been closed. -/
  closed : Bool
  totalEvents : Int
  totalErrors : Int
  /-- The process died of an unrecovered panic. -/
  crashed : Bool
  /-- Observation: the `Scrape` calls made so far, as (index of the scraper, status of `ctx`). -/
  scrapeLog : List (Nat × Ctx)
  /-- Observation: the results received by the collection loop so far. -/
  received : List ScraperResult
  /-- Observation: the `IngestEvents` calls made so far, as (argument, returned error). -/
  ingestLog : List (Option (List Event) × Option String)
  /-- Observation: the HTTP requests issued so far. -/
  requests : List Request
  /-- Observation: the totals printed by the final `log.Printf`, as (events, errors). -/
  summary : Option (Int × Int)
deriving DecidableEq, Repr

/-- The state in which `RunAllScrapers(ctx)` is entered. -/
def State.init (ctx : Ctx) : State :=
  { ctx := ctx, mainPc := .entry, tasks := [], waiter := .idle, wg := 0, semaphore := 0,
    results := [], closed := false, totalEvents := 0, totalErrors := 0, crashed := false,
    scrapeLog := [], received := [], ingestLog := [], requests := [], summary := none }

/-- One step of a schedule. -/
inductive Action
  /-- The goroutine that called `RunAllScrapers` moves. -/
  | main
  /-- The goroutine spawned for `m.scrapers[i]` moves. -/
  | task (i : Nat)
  /-- The goroutine that waits on `wg` and closes `results` moves. -/
  | waiter
  /-- The caller cancels `ctx`. -/
  | cancel
  /-- The deadline of `ctx` passes. -/
  | expire
deriving DecidableEq, Repr

/-- The body of `for result := range results` for one received `result`. -/
def collect (lib : Lib) (m : Manager) (s : State) (result : ScraperResult) : State :=
  let s1 := { s with received := s.received ++ [result] }
  if len result.Events > 0 then
    let r := m.ingestionClient.IngestEvents lib s1.ingestLog.length result.Events
    let s2 := { s1 with ingestLog := s1.ingestLog ++ [(result.Events, r.1)],
                        requests := s1.requests ++ r.2 }
    match r.1 with
    | some _ => { s2 with totalErrors := s2.totalErrors + 1 }
    | none => { s2 with totalEvents := s2.totalEvents + len result.Events }
  else s1

/-- A move of the goroutine that called `RunAllScrapers`. -/
def stepMain (lib : Lib) (m : Manager) (s : State) : Option State :=
  match s.mainPc with
  | .entry =>
    -- make(chan struct{}, n) panics for n < 0
    if m.config.MaxConcurrentScrapers < 0 then some { s with crashed := true }
    else some { s with mainPc := .spawning 0 }
  | .spawning i =>
    if i < m.scrapers.length then
      some { s with wg := s.wg + 1, tasks := s.tasks ++ [.acquiring], mainPc := .spawning (i + 1) }
    else some { s with waiter := .waiting, mainPc := .collecting }
  | .collecting =>
    match s.results with
    | result :: rest => some (collect lib m { s with results := rest } result)
    | [] =>
      if s.closed then
        some { s with mainPc := .returned, summary := some (s.totalEvents, s.totalErrors) }
      else none
  | .returned => none

/-- A move of the goroutine spawned for `m.scrapers[i]`. -/
def stepTask (m : Manager) (s : State) (i : Nat) : Option State :=
  match s.tasks[i]?, m.scrapers[i]? with
  | some t, some scraper =>
    match t with
    | .acquiring =>
      -- a send on a channel of capacity n proceeds only while fewer than n elements are buffered
      if s.semaphore < m.config.MaxConcurrentScrapers.toNat then
        some { s with semaphore := s.semaphore + 1, tasks := s.tasks.set i .running }
      else none
    | .running =>
      match runScraper s.ctx scraper with
      | .returned result =>
        some { s with scrapeLog := s.scrapeLog ++ [(i, s.ctx)],
                      tasks := s.tasks.set i (.publishing result) }
      | .panicked =>
        some { s with scrapeLog := s.scrapeLog ++ [(i, s.ctx)],
                      tasks := s.tasks.set i (.releasing true) }
      | .pending => none
    | .publishing result =>
      -- a send on a closed channel panics
      if s.closed then some { s with tasks := s.tasks.set i (.releasing true) }
      else if s.results.length < m.scrapers.length then
        some { s with results := s.results ++ [result], tasks := s.tasks.set i (.releasing false) }
      else none
    | .releasing p =>
      if s.semaphore = 0 then none
      else some { s with semaphore := s.semaphore - 1, tasks := s.tasks.set i (.finishing p) }
    | .finishing p =>
      -- a goroutine that is not panicking returns; a panicking one goes on unwinding
      some { s with wg := s.wg - 1, tasks := s.tasks.set i (if p then .dying else .exited) }
    | .dying =>
      -- no frame recovered: the unrecovered panic terminates the process
      some { s with crashed := true }
    | .exited => none
  | _, _ => none

/-- A move of `go func() { wg.Wait(); close(results) }()`. -/
def stepWaiter (s : State) : Option State :=
  match s.waiter with
  | .idle => none
  | .waiting => if s.wg = 0 then some { s with waiter := .closing } else none
  | .closing => some { s with closed := true, waiter := .finished }
  | .finished => none

/-- The transition function: `none` when the action is not enabled. -/
def step (lib : Lib) (m : Manager) (s : State) (a : Action) : Option State :=
  if s.crashed then none
  else
    match a with
    | .main => stepMain lib m s
    | .task i => stepTask m s i
    | .waiter => stepWaiter s
    | .cancel => if s.ctx = .active then some { s with ctx := .canceled } else none
    | .expire => if s.ctx = .active then some { s with ctx := .deadlineExceeded } else none

/-- The state after a schedule; an action that is not enabled is skipped. -/
def run (lib : Lib) (m : Manager) (s : State) (schedule : List Action) : State :=
  schedule.foldl (fun st a => (step lib m st a).getD st) s

/-- The method `Manager.RunAllScrapers`, called with a context of status
`ctx` and executed under `schedule`. -/
def RunAllScrapers (lib : Lib) (m : Manager) (ctx : Ctx) (schedule : List Action) : State :=
  run lib m (State.init ctx) schedule

/-! ## Observers used to state the properties -/

/-- The number of goroutines in `ts` that `f` counts. -/
def tally (f : Task → Nat) (ts : List Task) : Nat := (ts.map f).sum

/-- Counts a goroutine that holds a slot of `semaphore`: it has completed
`semaphore <- struct{}{}` and not yet the deferred `<-semaphore`. -/
def holding : Task → Nat
  | .running => 1
  | .publishing _ => 1
  | .releasing _ => 1
  | _ => 0

/-- Counts a goroutine that is inside `m.runScraper`, executing `Scrape`. -/
def scraping : Task → Nat
  | .running => 1
  | _ => 0

/-- Counts a goroutine that has not yet called `wg.Done()`. -/
def live : Task → Nat
  | .dying => 0
  | .exited => 0
  | _ => 1

/-- Counts a goroutine that is unwinding from a panic, up to the moment the
runtime terminates the process. -/
def panicking : Task → Nat
  | .releasing true => 1
  | .finishing true => 1
  | .dying => 1
  | _ => 0

/-- The result a goroutine is about to send on `results`. -/
def held : Task → Multiset ScraperResult
  | .publishing r => {r}
  | _ => 0

/-- Whether the goroutine at an index has made its `Scrape` call. -/
def called : Option Task → Nat
  | some (.publishing _) => 1
  | some (.releasing _) => 1
  | some (.finishing _) => 1
  | some .dying => 1
  | some .exited => 1
  | _ => 0

/-- The result `runScraper` built for one logged `Scrape` call, if the call returned. -/
def outcome (m : Manager) (call : Nat × Ctx) : Option ScraperResult :=
  match m.scrapers[call.1]? with
  | some scraper =>
    match runScraper call.2 scraper with
    | .returned result => some result
    | _ => none
  | none => none

/-- The results `runScraper` built for the logged `Scrape` calls, in call order. -/
def outcomes (m : Manager) (log : List (Nat × Ctx)) : List ScraperResult :=
  log.filterMap (outcome m)

/-- The invariant of `RunAllScrapers`: how the program counters, the
semaphore, the wait group, the `results` channel and the observation logs
relate in every state of a run. -/
structure Inv (m : Manager) (s : State) : Prop where
  sem : tally holding s.tasks = s.semaphore
  cap : s.semaphore ≤ m.config.MaxConcurrentScrapers.toNat
  wg : tally live s.tasks = s.wg
  size : s.tasks.length ≤ m.scrapers.length
  atEntry : s.mainPc = .entry → s.tasks = [] ∧ s.waiter = .idle
  atSpawn : ∀ i, s.mainPc = .spawning i → s.tasks.length = i ∧ s.waiter = .idle
  atCollect : s.mainPc = .collecting ∨ s.mainPc = .returned →
    s.tasks.length = m.scrapers.length ∧ s.waiter ≠ .idle
  waited : s.waiter = .closing ∨ s.waiter = .finished → s.wg = 0
  closed : s.closed = true → s.waiter = .finished
  atReturn : s.mainPc = .returned →
    s.closed = true ∧ s.results = [] ∧ s.summary = some (s.totalEvents, s.totalErrors)
  channel : (↑s.received + ↑s.results + (s.tasks.map held).sum : Multiset ScraperResult)
    = ↑(outcomes m s.scrapeLog)
  calls : ∀ j : Nat, (s.scrapeLog.map Prod.fst).count j = called s.tasks[j]?
  returnedCalls : (outcomes m s.scrapeLog).length + tally panicking s.tasks = s.scrapeLog.length

/-- Whether a result carries at least one record: the test `len(result.Events) > 0`. -/
def nonEmpty (r : ScraperResult) : Bool := decide (0 < len r.Events)

/-- The number of records in the batches of an `IngestEvents` log whose call
returned nil. -/
def forwarded (log : List (Option (List Event) × Option String)) : Int :=
  (log.map (fun e => if e.2.isNone then (len e.1 : Int) else 0)).sum

/-- The number of calls in an `IngestEvents` log that returned an error. -/
def failures (log : List (Option (List Event) × Option String)) : Int :=
  (log.countP (fun e => e.2.isSome) : Nat)

/-- The invariant of the collection loop `for result := range results`. -/
structure Loop (lib : Lib) (m : Manager) (s : State) : Prop where
  args : s.ingestLog.map Prod.fst = (s.received.filter nonEmpty).map (fun r => r.Events)
  events : s.totalEvents = forwarded s.ingestLog
  errors : s.totalErrors = failures s.ingestLog
  replies : ∀ (k : Nat) (e : Option (List Event) × Option String),
    s.ingestLog[k]? = some e → e.2 = (m.ingestionClient.IngestEvents lib k e.1).1
  requests : s.requests.length ≤ s.ingestLog.length

/-- The number of results whose `Scrape` returned an error: the sum of `ErrorCount`. -/
def scrapeErrors (rs : List ScraperResult) : Int := (rs.map (fun r => r.ErrorCount)).sum

/-! ## Fixtures: the end-to-end scenarios -/

/-- A scraper whose `Scrape` returns the same values whatever the context. -/
def fixedScraper (name : String) (events : Option (List Event)) (err : Option String)
    (elapsed : Int) : Scraper :=
  { Name := name, Scrape := fun _ => .returned (events, err, elapsed) }

/-- A record that carries only a title. -/
def sampleEvent (title : String) : Event :=
  { Title := title, Description := "", Latitude := 0, Longitude := 0, Address := "",
    StartTime := 0, EndTime := none, Category := "Community Events", Source := "",
    SourceURL := "", ImageURL := "", Organizer := "", Capacity := 0, RawData := [] }

/-- A batch of `k` sample records. -/
def sampleBatch (title : String) (k : Nat) : Option (List Event) :=
  some (List.replicate k (sampleEvent title))

/-- Library functions that never fail; the body has one character per record. -/
def sampleLib : Lib :=
  { Marshal := fun events => .ok (String.mk (List.replicate (len events) 'e'))
    NewRequest := fun method url body => .ok { Method := method, URL := url, Header := [], Body := body } }

/-- A configuration with the defaults of `LoadConfig` and the given `MaxConcurrentScrapers`. -/
def sampleConfig (maxConcurrent : Int) : Config :=
  { Port := "8081", JavaAPIURL := "http://localhost:8080", ScraperIntervalMinutes := 30,
    UserAgent := "ZeroCostBot/1.0", RedditClientID := "", RedditClientSecret := "",
    EventbriteAPIKey := "", MeetupAPIKey := "", MaxConcurrentScrapers := maxConcurrent,
    RequestDelayMS := 1000 }

/-- The four scrapers of the end-to-end scenarios: 3 records, 0 records, an
error with 0 records, 5 records. -/
def scenarioScrapers : List Scraper :=
  [ fixedScraper "Scraper1" (sampleBatch "a" 3) none 10,
    fixedScraper "Scraper2" (some []) none 10,
    fixedScraper "Scraper3" none (some "scrape failed") 10,
    fixedScraper "Scraper4" (sampleBatch "d" 5) none 10 ]

/-- A Sink that accepts every batch. -/
def acceptAll : Nat → Request → Except String Response :=
  fun _ _ => .ok { StatusCode := 200, Body := "" }

/-- A Sink that rejects exactly the batches of five records. -/
def rejectFive : Nat → Request → Except String Response :=
  fun _ req =>
    if req.Body.length = 5 then .ok { StatusCode := 500, Body := "rejected" }
    else .ok { StatusCode := 201, Body := "" }

/-- The four scenario scrapers with a given Sink and configuration. -/
def scenarioWith (client : Client) (cfg : Config) : Manager :=
  { scrapers := scenarioScrapers, ingestionClient := client,
    rateLimiter := NewLimiter (Every (durationOfMillis cfg.RequestDelayMS)) 1, config := cfg }

/-- End-to-end scenario 1: `MaxConcurrentScrapers = 2`, the Sink accepts everything. -/
def scenario1 : Manager :=
  scenarioWith { apiURL := "http://localhost:8080", httpClient := acceptAll } (sampleConfig 2)

/-- End-to-end scenario 2: as scenario 1, but the Sink fails for the batch of Scraper4. -/
def scenario2 : Manager :=
  scenarioWith { apiURL := "http://localhost:8080", httpClient := rejectFive } (sampleConfig 2)

/-- One round of a round-robin schedule over `n` scrapers: every goroutine gets one move. -/
def round (n : Nat) : List Action :=
  .main :: ((List.range n).map Action.task ++ [.waiter])

/-- The round-robin schedule of `k` rounds. -/
def roundRobin (n k : Nat) : List Action :=
  (List.replicate k (round n)).flatten

/-- The sizes of the batches offered to `IngestEvents`, in call order. -/
def batchSizes (log : List (Option (List Event) × Option String)) : List Nat :=
  log.map (fun e => len e.1)

/-- The sizes of the record sequences carried by a list of results. -/
def resultSizes (rs : List ScraperResult) : List Nat :=
  rs.map (fun r => len r.Events)

/-- A run with one scraper that fails after gathering two records. -/
def failingRun : Manager :=
  { scrapers := [fixedScraper "Partial" (sampleBatch "p" 2) (some "connection reset") 10]
    ingestionClient := { apiURL := "http://localhost:8080", httpClient := acceptAll }
    rateLimiter := NewLimiter (Every (durationOfMillis 1000)) 1
    config := sampleConfig 4 }

/-- Two states of two runs that agree on everything the Sink cannot
influence: all goroutines, channels and logs of scrapes, the batches offered
to `IngestEvents`, and the replies to the batches outside `isA`. -/
structure Lockstep (isA : Option (List Event) → Bool) (s1 s2 : State) : Prop where
  ctx : s1.ctx = s2.ctx
  mainPc : s1.mainPc = s2.mainPc
  tasks : s1.tasks = s2.tasks
  waiter : s1.waiter = s2.waiter
  wg : s1.wg = s2.wg
  semaphore : s1.semaphore = s2.semaphore
  results : s1.results = s2.results
  closed : s1.closed = s2.closed
  crashed : s1.crashed = s2.crashed
  scrapeLog : s1.scrapeLog = s2.scrapeLog
  received : s1.received = s2.received
  batches : s1.ingestLog.map Prod.fst = s2.ingestLog.map Prod.fst
  others : s1.ingestLog.filter (fun e => !isA e.1) = s2.ingestLog.filter (fun e => !isA e.1)

/-- A run of three scrapers on two slots; the second scraper panics inside `Scrape`. -/
def panickyRun : Manager :=
  { scrapers :=
      [ fixedScraper "Steady" (sampleBatch "s" 1) none 10,
        { Name := "Panicky", Scrape := fun _ => .panicked },
        fixedScraper "Late" (sampleBatch "l" 1) none 10 ]
    ingestionClient := { apiURL := "http://localhost:8080", httpClient := acceptAll }
    rateLimiter := NewLimiter (Every (durationOfMillis 1000)) 1
    config := sampleConfig 2 }

/-- A run of one scraper, which panics inside `Scrape`. -/
def panicOnly : Manager :=
  { scrapers := [{ Name := "Panicky", Scrape := fun _ => .panicked }]
    ingestionClient := { apiURL := "http://localhost:8080", httpClient := acceptAll }
    rateLimiter := NewLimiter (Every (durationOfMillis 1000)) 1
    config := sampleConfig 4 }

/-- A schedule for one scraper in which, after the goroutine has run up to
and including its deferred `wg.Done()`, the closing goroutine and the
collection loop move before it does. -/
def returnFirst : List Action :=
  [.main, .main, .main, .task 0, .task 0, .task 0, .task 0, .waiter, .waiter, .main]

/-- A schedule for one scraper in which the goroutine moves once more right
after its deferred `wg.Done()`. -/
def crashFirst : List Action :=
  [.main, .main, .main, .task 0, .task 0, .task 0, .task 0, .task 0, .waiter, .waiter, .main]

/-! ## Termination measure and fair schedules -/

/-- How many moves a goroutine has left at most. -/
def rank : Task → Nat
  | .acquiring => 6
  | .running => 5
  | .publishing _ => 4
  | .releasing _ => 2
  | .finishing _ => 1
  | .dying => 0
  | .exited => 0

/-- A bound on the moves the caller of `RunAllScrapers` has left up to and
including the spawning of the goroutines, for `n` registered scrapers. -/
def mainRank (n : Nat) : MainPc → Nat
  | .entry => 7 * n + 5
  | .spawning i => 7 * (n - i) + 4
  | .collecting => 1
  | .returned => 0

/-- How many moves the closing goroutine has left at most. -/
def waiterRank : WaiterPc → Nat
  | .idle => 3
  | .waiting => 2
  | .closing => 1
  | .finished => 0

/-- A natural number that every enabled step makes smaller. -/
def measure (m : Manager) (s : State) : Nat :=
  mainRank m.scrapers.length s.mainPc + tally rank s.tasks + waiterRank s.waiter
    + s.results.length + (if s.ctx = .active then 1 else 0) + (if s.crashed then 0 else 1)

/-- Every `Scrape` call of every registered scraper returns: it neither
panics nor blocks forever, whatever the status of `ctx`. -/
def AllReturn (m : Manager) : Prop :=
  ∀ scraper ∈ m.scrapers, ∀ c : Ctx, ∃ r, scraper.Scrape c = .returned r

/-- A block of a schedule in which every goroutine of a run over `n` scrapers
gets at least one move. -/
def Covers (n : Nat) (block : List Action) : Prop :=
  Action.main ∈ block ∧ Action.waiter ∈ block ∧ ∀ i < n, Action.task i ∈ block

/-- The environment of a process started with `MAX_CONCURRENT_SCRAPERS=0`. -/
def zeroSlotsEnviron : String → String :=
  fun key => if key = "MAX_CONCURRENT_SCRAPERS" then "0" else ""

/-- The environment of a process started with `MAX_CONCURRENT_SCRAPERS=-1`. -/
def negativeSlotsEnviron : String → String :=
  fun key => if key = "MAX_CONCURRENT_SCRAPERS" then "-1" else ""

/-- The scenario scrapers in a process started with `MAX_CONCURRENT_SCRAPERS=0`. -/
def zeroSlots : Manager :=
  scenarioWith { apiURL := "http://localhost:8080", httpClient := acceptAll }
    (LoadConfig zeroSlotsEnviron)

/-- The scenario scrapers in a process started with `MAX_CONCURRENT_SCRAPERS=-1`. -/
def negativeSlots : Manager :=
  scenarioWith { apiURL := "http://localhost:8080", httpClient := acceptAll }
    (LoadConfig negativeSlotsEnviron)

/-! ## `internal/scrapers`: the `Scrape` methods of the four sources -/

/-- What a scraper sees of the outside world, threaded as a state of type
`W`: the status of the `ctx` it was given, and the operations whose result the
program does not determine.  Each operation yields its result and the next
state of the world. -/
structure World (W : Type) where
  /-- What `ctx.Done()` and `ctx.Err()` report in this state. -/
  ctx : W → Ctx
  /-- The blocking part of `rateLimiter.Wait(ctx)`, entered while `ctx` is not
  done: nil once a token is granted, an error if `ctx` ends first. -/
  acquire : W → Option String × W
  /-- The rest of `RedditScraper.scrapeSubreddit` after the limiter: the
  request to Reddit and the conversion of the posts. -/
  fetchSubreddit : String → W → Except String (List Event) × W
  /-- The rest of `EventbriteScraper.scrapeLocation` after the limiter. -/
  fetchLocation : Int → Int → String → W → Except String (List Event) × W
  /-- The rest of `UniversityScraper.scrapeUniversity` after the limiter. -/
  visitUniversity : String → String → Int → Int → W → Except String (List Event) × W

/-- Modelled from the spec: `rate.Limiter.Wait` belongs to the library
`golang.org/x/time/rate`, whose source is not part of the repository.  By the
RateLimiter contract (section 4.1) the call blocks until a token is available
or `ctx` is cancelled or expired, "in which case it returns a cancellation
signal and performs no side effect"; a `ctx` that is already done is reported
at once. -/
def Wait {W : Type} (world : World W) (w : W) : Option String × W :=
  match (world.ctx w).Err with
  | some err => (some err, w)
  | none => world.acquire w

/-- The field `subreddits` set by `NewRedditScraper`. -/
def RedditScraper.subreddits : List String :=
  ["freefood", "freebies", "FREE", "randomactsofpizza"]

/-- The method `RedditScraper.scrapeSubreddit`. -/
def RedditScraper.scrapeSubreddit {W : Type} (world : World W) (subreddit : String) (w : W) :
    Except String (List Event) × W :=
  match Wait world w with
  | (some err, w1) => (.error err, w1)
  | (none, w1) => world.fetchSubreddit subreddit w1

/-- The loop `for _, subreddit := range s.subreddits` of `RedditScraper.Scrape`
with the return that follows it; `events` is the slice gathered so far. -/
def RedditScraper.scrapeLoop {W : Type} (world : World W) :
    List String → List Event → W → (Option (List Event) × Option String) × W
  | [], events, w => ((some events, none), w)
  | subreddit :: rest, events, w =>
    -- select { case <-ctx.Done(): return events, ctx.Err(); default: ... }
    if (world.ctx w).Done then ((some events, (world.ctx w).Err), w)
    else
      match RedditScraper.scrapeSubreddit world subreddit w with
      | (.error _, w1) => RedditScraper.scrapeLoop world rest events w1
      | (.ok subredditEvents, w1) =>
        RedditScraper.scrapeLoop world rest (events ++ subredditEvents) w1

/-- The method `RedditScraper.Scrape`: the returned slice and `error`, and the
world after the call. -/
def RedditScraper.Scrape {W : Type} (world : World W) (w : W) :
    (Option (List Event) × Option String) × W :=
  RedditScraper.scrapeLoop world RedditScraper.subreddits [] w

/-- The local `locations` of `EventbriteScraper.Scrape`, in units of 1e-4 degree. -/
def EventbriteScraper.locations : List (Int × Int × String) :=
  [(377749, -1224194, "San Francisco"), (407128, -740060, "New York"),
   (340522, -1182437, "Los Angeles")]

/-- The method `EventbriteScraper.scrapeLocation`. -/
def EventbriteScraper.scrapeLocation {W : Type} (world : World W) (lat lng : Int)
    (locationName : String) (w : W) : Except String (List Event) × W :=
  match Wait world w with
  | (some err, w1) => (.error err, w1)
  | (none, w1) => world.fetchLocation lat lng locationName w1

/-- The loop `for _, loc := range locations` of `EventbriteScraper.Scrape`
with the return that follows it. -/
def EventbriteScraper.scrapeLoop {W : Type} (world : World W) :
    List (Int × Int × String) → List Event → W → (Option (List Event) × Option String) × W
  | [], events, w => ((some events, none), w)
  | loc :: rest, events, w =>
    if (world.ctx w).Done then ((some events, (world.ctx w).Err), w)
    else
      match EventbriteScraper.scrapeLocation world loc.1 loc.2.1 loc.2.2 w with
      | (.error _, w1) => EventbriteScraper.scrapeLoop world rest events w1
      | (.ok locationEvents, w1) =>
        EventbriteScraper.scrapeLoop world rest (events ++ locationEvents) w1

/-- The method `EventbriteScraper.Scrape`. -/
def EventbriteScraper.Scrape {W : Type} (config : Config) (world : World W) (w : W) :
    (Option (List Event) × Option String) × W :=
  if config.EventbriteAPIKey = "" then ((none, none), w)
  else
    match Wait world w with
    | (some err, w1) => ((none, some err), w1)
    | (none, w1) => EventbriteScraper.scrapeLoop world EventbriteScraper.locations [] w1

/-- The method `MeetupScraper.Scrape`. -/
def MeetupScraper.Scrape {W : Type} (config : Config) (w : W) :
    (Option (List Event) × Option String) × W :=
  if config.MeetupAPIKey = "" then ((none, none), w)
  else ((some [], none), w)

/-- The local `universities` of `UniversityScraper.Scrape`: name, url, and
coordinates in units of 1e-4 degree. -/
def UniversityScraper.universities : List (String × String × Int × Int) :=
  [("UC Berkeley", "https://events.berkeley.edu/", 378715, -1222730),
   ("Stanford", "https://events.stanford.edu/", 374275, -1221697)]

/-- The method `UniversityScraper.scrapeUniversity`. -/
def UniversityScraper.scrapeUniversity {W : Type} (world : World W) (name url : String)
    (lat lng : Int) (w : W) : Except String (List Event) × W :=
  match Wait world w with
  | (some err, w1) => (.error err, w1)
  | (none, w1) => world.visitUniversity name url lat lng w1

/-- The loop `for _, uni := range universities` of `UniversityScraper.Scrape`
with the return that follows it. -/
def UniversityScraper.scrapeLoop {W : Type} (world : World W) :
    List (String × String × Int × Int) → List Event → W →
      (Option (List Event) × Option String) × W
  | [], events, w => ((some events, none), w)
  | uni :: rest, events, w =>
    if (world.ctx w).Done then ((some events, (world.ctx w).Err), w)
    else
      match UniversityScraper.scrapeUniversity world uni.1 uni.2.1 uni.2.2.1 uni.2.2.2 w with
      | (.error _, w1) => UniversityScraper.scrapeLoop world rest events w1
      | (.ok uniEvents, w1) => UniversityScraper.scrapeLoop world rest (events ++ uniEvents) w1

/-- The method `UniversityScraper.Scrape`. -/
def UniversityScraper.Scrape {W : Type} (world : World W) (w : W) :
    (Option (List Event) × Option String) × W :=
  UniversityScraper.scrapeLoop world UniversityScraper.universities [] w

/-- A world in which `ctx` has been cancelled and every request fails. -/
def cancelledWorld : World Unit :=
  { ctx := fun _ => .canceled
    acquire := fun w => (some "context canceled", w)
    fetchSubreddit := fun _ w => (.error "context canceled", w)
    fetchLocation := fun _ _ _ w => (.error "context canceled", w)
    visitUniversity := fun _ _ _ _ w => (.error "context canceled", w) }

/-- A configuration in which both API keys are set. -/
def keyedConfig : Config :=
  { sampleConfig 4 with EventbriteAPIKey := "eb-key", MeetupAPIKey := "mu-key" }

/-! ## Categories -/

/-- The function `strings.Contains`. -/
def Contains (s substr : String) : Bool :=
  s.data.tails.any (fun t => substr.data.isPrefixOf t)

/-- The local `categoryMap` of `EventbriteScraper.mapCategory`, in the order
in which the literal lists its entries. -/
def EventbriteScraper.categoryMap : List (String × String) :=
  [ ("food", "Free Food"),
    ("music", "Entertainment"),
    ("arts", "Entertainment"),
    ("film", "Entertainment"),
    ("workshop", "Workshops"),
    ("education", "Workshops"),
    ("community", "Community Events"),
    ("sports", "Sports"),
    ("health", "Health & Wellness"),
    ("business", "Workshops"),
    ("charity", "Community Events") ]

/-- The loop `for keyword, category := range categoryMap` of `mapCategory`
with the return that follows it, for the entries still to be visited. -/
def EventbriteScraper.mapCategoryIn (categoryLower : String) : List (String × String) → String
  | [] => "Community Events"
  | (keyword, category) :: rest =>
    if Contains categoryLower keyword then category
    else EventbriteScraper.mapCategoryIn categoryLower rest

/-- The method `EventbriteScraper.mapCategory`.  `ToLower` is
`strings.ToLower`.  `order` is the order in which the `range` of this call
visits `categoryMap`: Go leaves the iteration order of a map unspecified, so
it may be any arrangement of the entries and may differ from call to call. -/
def EventbriteScraper.mapCategory (ToLower : String → String) (order : List (String × String))
    (ebCategory : String) : String :=
  let categoryLower := ToLower ebCategory
  EventbriteScraper.mapCategoryIn categoryLower order

/-- The method `RedditScraper.categorizePost`.  `ToLower` is `strings.ToLower`. -/
def RedditScraper.categorizePost (ToLower : String → String) (title body : String) : String :=
  let text := ToLower (title ++ " " ++ body)
  if Contains text "pizza" || Contains text "food" ||
      Contains text "meal" || Contains text "lunch" ||
      Contains text "dinner" || Contains text "breakfast" then
    "Free Food"
  else if Contains text "concert" || Contains text "music" ||
      Contains text "show" || Contains text "performance" then
    "Entertainment"
  else if Contains text "workshop" || Contains text "class" ||
      Contains text "tutorial" || Contains text "seminar" then
    "Workshops"
  else if Contains text "giveaway" || Contains text "free stuff" then
    "Giveaways"
  else "Community Events"

/-- The keywords `categorizePost` looks for. -/
def RedditScraper.categoryKeywords : List String :=
  [ "pizza", "food", "meal", "lunch", "dinner", "breakfast", "concert", "music", "show",
    "performance", "workshop", "class", "tutorial", "seminar", "giveaway", "free stuff" ]

/-- A stand-in for `strings.ToLower` that lowers the letters `A` to `Z`. -/
def asciiLower (s : String) : String := String.mk (s.data.map Char.toLower)

/-- An arrangement of `categoryMap` that visits `music` before `food`. -/
def musicFirst : List (String × String) :=
  [ ("music", "Entertainment"),
    ("food", "Free Food"),
    ("arts", "Entertainment"),
    ("film", "Entertainment"),
    ("workshop", "Workshops"),
    ("education", "Workshops"),
    ("community", "Community Events"),
    ("sports", "Sports"),
    ("health", "Health & Wellness"),
    ("business", "Workshops"),
    ("charity", "Community Events") ]

/-! ## `NewManager` -/

/-- The `Scraper` interface value of a scraper whose `Scrape` method is
`scrape`: a call made while `ctx` has status `c` runs the method in the world
state `enter c`; `elapsed` is the time `runScraper` measures around it. -/
def methodScraper {W : Type} (name : String)
    (scrape : W → (Option (List Event) × Option String) × W) (enter : Ctx → W) (elapsed : Int) :
    Scraper :=
  { Name := name
    Scrape := fun c => .returned ((scrape (enter c)).1.1, (scrape (enter c)).1.2, elapsed) }

/-- The function `NewRedditScraper`, as the interface value `NewManager` registers. -/
def NewRedditScraper {W : Type} (world : World W) (enter : Ctx → W) (elapsed : Int) : Scraper :=
  methodScraper "Reddit" (RedditScraper.Scrape world) enter elapsed

/-- The function `NewEventbriteScraper`, as the interface value `NewManager` registers. -/
def NewEventbriteScraper {W : Type} (cfg : Config) (world : World W) (enter : Ctx → W)
    (elapsed : Int) : Scraper :=
  methodScraper "Eventbrite" (EventbriteScraper.Scrape cfg world) enter elapsed

/-- The function `NewMeetupScraper`, as the interface value `NewManager` registers. -/
def NewMeetupScraper {W : Type} (cfg : Config) (enter : Ctx → W) (elapsed : Int) : Scraper :=
  methodScraper "Meetup" (MeetupScraper.Scrape cfg) enter elapsed

/-- The function `NewUniversityScraper`, as the interface value `NewManager` registers. -/
def NewUniversityScraper {W : Type} (world : World W) (enter : Ctx → W) (elapsed : Int) :
    Scraper :=
  methodScraper "University Pages" (UniversityScraper.Scrape world) enter elapsed

/-- The function `NewManager`.  The scrapers reach the shared limiter and the
network through `world`. -/
def NewManager {W : Type} (world : World W) (enter : Ctx → W) (elapsed : Int)
    (ingestionClient : Client) (cfg : Config) : Manager :=
  let limiter := NewLimiter (Every (durationOfMillis cfg.RequestDelayMS)) 1
  { scrapers :=
      [ NewRedditScraper world enter elapsed,
        NewEventbriteScraper cfg world enter elapsed,
        NewMeetupScraper cfg enter elapsed,
        NewUniversityScraper world enter elapsed ]
    ingestionClient := ingestionClient
    rateLimiter := limiter
    config := cfg }

/-- A world that counts the operations performed in it: every use of the
limiter or of the network adds one to the state. -/
def countingWorld (status : Ctx) : World Nat :=
  { ctx := fun _ => status
    acquire := fun w => (none, w + 1)
    fetchSubreddit := fun _ w => (.ok [], w + 1)
    fetchLocation := fun _ _ _ w => (.ok [], w + 1)
    visitUniversity := fun _ _ _ _ w => (.ok [], w + 1) }

/-- The manager of a process started without any API key, in the counting world. -/
def unkeyedManager : Manager :=
  NewManager (countingWorld .active) (fun _ => 0) 10
    { apiURL := "http://localhost:8080", httpClient := acceptAll } (sampleConfig 4)

/-- A configuration whose `RequestDelayMS`, in nanoseconds, does not fit in an `int64`. -/
def overflowConfig : Config :=
  { sampleConfig 4 with RequestDelayMS := 18446744073710 }

/-- The result `runScraper` builds for a scraper that skipped: nil records, no error. -/
def skipped (name : String) (duration : Int) : ScraperResult :=
  { Source := name, Events := none, ErrorCount := 0, Duration := duration }

/-- The manager of a process started with `REQUEST_DELAY_MS=18446744073710`. -/
def overflowManager : Manager :=
  NewManager (countingWorld .active) (fun _ => 0) 10
    { apiURL := "http://localhost:8080", httpClient := acceptAll } overflowConfig

/-- The manager of a process started with the default configuration. -/
def defaultManager : Manager :=
  NewManager (countingWorld .active) (fun _ => 0) 10
    { apiURL := "http://localhost:8080", httpClient := acceptAll } (LoadConfig (fun _ => ""))


/-! ## The transition function, case by case -/

@[simp] theorem collect_ctx (lib : Lib) (m : Manager) (s : State) (r : ScraperResult) :
    (collect lib m s r).ctx = s.ctx := by
  unfold collect; dsimp only; split <;> [split; skip] <;> rfl

@[simp] theorem collect_mainPc (lib : Lib) (m : Manager) (s : State) (r : ScraperResult) :
    (collect lib m s r).mainPc = s.mainPc := by
  unfold collect; dsimp only; split <;> [split; skip] <;> rfl

@[simp] theorem collect_tasks (lib : Lib) (m : Manager) (s : State) (r : ScraperResult) :
    (collect lib m s r).tasks = s.tasks := by
  unfold collect; dsimp only; split <;> [split; skip] <;> rfl

@[simp] theorem collect_waiter (lib : Lib) (m : Manager) (s : State) (r : ScraperResult) :
    (collect lib m s r).waiter = s.waiter := by
  unfold collect; dsimp only; split <;> [split; skip] <;> rfl

@[simp] theorem collect_wg (lib : Lib) (m : Manager) (s : State) (r : ScraperResult) :
    (collect lib m s r).wg = s.wg := by
  unfold collect; dsimp only; split <;> [split; skip] <;> rfl

@[simp] theorem collect_semaphore (lib : Lib) (m : Manager) (s : State) (r : ScraperResult) :
    (collect lib m s r).semaphore = s.semaphore := by
  unfold collect; dsimp only; split <;> [split; skip] <;> rfl

@[simp] theorem collect_results (lib : Lib) (m : Manager) (s : State) (r : ScraperResult) :
    (collect lib m s r).results = s.results := by
  unfold collect; dsimp only; split <;> [split; skip] <;> rfl

@[simp] theorem collect_closed (lib : Lib) (m : Manager) (s : State) (r : ScraperResult) :
    (collect lib m s r).closed = s.closed := by
  unfold collect; dsimp only; split <;> [split; skip] <;> rfl

@[simp] theorem collect_crashed (lib : Lib) (m : Manager) (s : State) (r : ScraperResult) :
    (collect lib m s r).crashed = s.crashed := by
  unfold collect; dsimp only; split <;> [split; skip] <;> rfl

@[simp] theorem collect_scrapeLog (lib : Lib) (m : Manager) (s : State) (r : ScraperResult) :
    (collect lib m s r).scrapeLog = s.scrapeLog := by
  unfold collect; dsimp only; split <;> [split; skip] <;> rfl

@[simp] theorem collect_summary (lib : Lib) (m : Manager) (s : State) (r : ScraperResult) :
    (collect lib m s r).summary = s.summary := by
  unfold collect; dsimp only; split <;> [split; skip] <;> rfl

@[simp] theorem collect_received (lib : Lib) (m : Manager) (s : State) (r : ScraperResult) :
    (collect lib m s r).received = s.received ++ [r] := by
  unfold collect; dsimp only; split <;> [split; skip] <;> rfl

/-- Case analysis of an enabled step: to show `motive s'` for the successor
of `s`, show it for each of the eighteen moves of the program. -/
theorem step_elim (lib : Lib) (m : Manager) (motive : State → Prop) (s s' : State) (a : Action)
    (h : step lib m s a = some s')
    (entryPanic : s.crashed = false → a = .main → s.mainPc = .entry →
      m.config.MaxConcurrentScrapers < 0 → motive { s with crashed := true })
    (entryOk : s.crashed = false → a = .main → s.mainPc = .entry →
      ¬ m.config.MaxConcurrentScrapers < 0 → motive { s with mainPc := .spawning 0 })
    (spawn : ∀ i, s.crashed = false → a = .main → s.mainPc = .spawning i → i < m.scrapers.length →
      motive { s with wg := s.wg + 1, tasks := s.tasks ++ [.acquiring], mainPc := .spawning (i + 1) })
    (spawned : ∀ i, s.crashed = false → a = .main → s.mainPc = .spawning i →
      ¬ i < m.scrapers.length → motive { s with waiter := .waiting, mainPc := .collecting })
    (receive : ∀ result rest, s.crashed = false → a = .main → s.mainPc = .collecting →
      s.results = result :: rest → motive (collect lib m { s with results := rest } result))
    (finish : s.crashed = false → a = .main → s.mainPc = .collecting → s.results = [] →
      s.closed = true →
      motive { s with mainPc := .returned, summary := some (s.totalEvents, s.totalErrors) })
    (acquire : ∀ i scraper, s.crashed = false → a = .task i → s.tasks[i]? = some .acquiring →
      m.scrapers[i]? = some scraper → s.semaphore < m.config.MaxConcurrentScrapers.toNat →
      motive { s with semaphore := s.semaphore + 1, tasks := s.tasks.set i .running })
    (scraped : ∀ i scraper result, s.crashed = false → a = .task i → s.tasks[i]? = some .running →
      m.scrapers[i]? = some scraper → runScraper s.ctx scraper = .returned result →
      motive { s with scrapeLog := s.scrapeLog ++ [(i, s.ctx)],
                      tasks := s.tasks.set i (.publishing result) })
    (scrapePanic : ∀ i scraper, s.crashed = false → a = .task i → s.tasks[i]? = some .running →
      m.scrapers[i]? = some scraper → runScraper s.ctx scraper = .panicked →
      motive { s with scrapeLog := s.scrapeLog ++ [(i, s.ctx)],
                      tasks := s.tasks.set i (.releasing true) })
    (sendClosed : ∀ i result, s.crashed = false → a = .task i →
      s.tasks[i]? = some (.publishing result) → s.closed = true →
      motive { s with tasks := s.tasks.set i (.releasing true) })
    (send : ∀ i result, s.crashed = false → a = .task i →
      s.tasks[i]? = some (.publishing result) → s.closed = false →
      s.results.length < m.scrapers.length →
      motive { s with results := s.results ++ [result], tasks := s.tasks.set i (.releasing false) })
    (release : ∀ i p, s.crashed = false → a = .task i → s.tasks[i]? = some (.releasing p) →
      s.semaphore ≠ 0 →
      motive { s with semaphore := s.semaphore - 1, tasks := s.tasks.set i (.finishing p) })
    (done : ∀ i p, s.crashed = false → a = .task i → s.tasks[i]? = some (.finishing p) →
      motive { s with wg := s.wg - 1, tasks := s.tasks.set i (if p then .dying else .exited) })
    (die : ∀ i, s.crashed = false → a = .task i → s.tasks[i]? = some .dying →
      motive { s with crashed := true })
    (waited : s.crashed = false → a = .waiter → s.waiter = .waiting → s.wg = 0 →
      motive { s with waiter := .closing })
    (close : s.crashed = false → a = .waiter → s.waiter = .closing →
      motive { s with closed := true, waiter := .finished })
    (cancel : s.crashed = false → a = .cancel → s.ctx = .active → motive { s with ctx := .canceled })
    (expire : s.crashed = false → a = .expire → s.ctx = .active →
      motive { s with ctx := .deadlineExceeded }) :
    motive s' := by
  unfold step at h
  split at h
  · simp at h
  · rename_i hc
    have hc : s.crashed = false := by simpa using hc
    cases a with
    | main =>
      simp only [stepMain] at h
      split at h
      · rename_i hpc
        split at h <;> cases h
        · exact entryPanic hc rfl hpc ‹_›
        · exact entryOk hc rfl hpc ‹_›
      · rename_i i hpc
        split at h <;> cases h
        · exact spawn i hc rfl hpc ‹_›
        · exact spawned i hc rfl hpc ‹_›
      · rename_i hpc
        split at h
        · rename_i result rest hres
          cases h
          exact receive result rest hc rfl hpc hres
        · rename_i hres
          split at h <;> cases h
          exact finish hc rfl hpc hres ‹_›
      · cases h
    | task i =>
      simp only [stepTask] at h
      split at h
      · rename_i t scraper ht hs
        split at h
        · split at h <;> cases h
          exact acquire i scraper hc rfl ht hs ‹_›
        · split at h <;> cases h
          · exact scraped i scraper _ hc rfl ht hs ‹_›
          · exact scrapePanic i scraper hc rfl ht hs ‹_›
        · split at h
          · cases h
            exact sendClosed i _ hc rfl ht ‹_›
          · split at h <;> cases h
            exact send i _ hc rfl ht (by simpa using ‹¬ s.closed = true›) ‹_›
        · split at h <;> cases h
          exact release i _ hc rfl ht ‹_›
        · cases h
          exact done i _ hc rfl ht
        · cases h
          exact die i hc rfl ht
        · cases h
      · cases h
    | waiter =>
      simp only [stepWaiter] at h
      split at h
      · cases h
      · rename_i hw
        split at h <;> cases h
        exact waited hc rfl hw ‹_›
      · rename_i hw
        cases h
        exact close hc rfl hw
      · cases h
    | cancel =>
      dsimp only at h
      split at h <;> cases h
      exact cancel hc rfl ‹_›
    | expire =>
      dsimp only at h
      split at h <;> cases h
      exact expire hc rfl ‹_›
/-! ## Counting goroutines -/

theorem sum_map_set {α M : Type} [AddCommMonoid M] (f : α → M) :
    ∀ (l : List α) (i : Nat) (a b : α), l[i]? = some a →
      ((l.set i b).map f).sum + f a = (l.map f).sum + f b := by
  intro l
  induction l with
  | nil => intro i a b h; simp at h
  | cons x xs ih =>
    intro i a b h
    cases i with
    | zero =>
      simp at h
      subst h
      simp [add_comm, add_left_comm]
    | succ j =>
      simp at h
      have := ih j a b h
      simp only [List.set_cons_succ, List.map_cons, List.sum_cons]
      rw [add_assoc, this, add_assoc]

theorem tally_set (f : Task → Nat) (ts : List Task) (i : Nat) (t u : Task)
    (h : ts[i]? = some t) : tally f (ts.set i u) + f t = tally f ts + f u :=
  sum_map_set f ts i t u h

theorem tally_snoc (f : Task → Nat) (ts : List Task) (t : Task) :
    tally f (ts ++ [t]) = tally f ts + f t := by
  simp [tally]

theorem tally_ge (f : Task → Nat) : ∀ (ts : List Task) (i : Nat) (t : Task),
    ts[i]? = some t → f t ≤ tally f ts := by
  intro ts
  induction ts with
  | nil => intro i t h; simp at h
  | cons x xs ih =>
    intro i t h
    cases i with
    | zero => simp at h; subst h; simp [tally]
    | succ j =>
      simp at h
      have := ih j t h
      simp only [tally, List.map_cons, List.sum_cons] at this ⊢
      omega

theorem tally_pos (f : Task → Nat) : ∀ (ts : List Task), 0 < tally f ts →
    ∃ (i : Nat) (t : Task), ts[i]? = some t ∧ 0 < f t := by
  intro ts
  induction ts with
  | nil => intro h; simp [tally] at h
  | cons x xs ih =>
    intro h
    by_cases hx : 0 < f x
    · exact ⟨0, x, by simp, hx⟩
    · have : 0 < tally f xs := by
        simp only [tally, List.map_cons, List.sum_cons] at h ⊢
        omega
      obtain ⟨i, t, hi, ht⟩ := ih this
      exact ⟨i + 1, t, by simpa using hi, ht⟩

theorem tally_le_length (f : Task → Nat) (hf : ∀ t, f t ≤ 1) : ∀ (ts : List Task),
    tally f ts ≤ ts.length := by
  intro ts
  induction ts with
  | nil => simp [tally]
  | cons x xs ih =>
    have := hf x
    simp only [tally, List.map_cons, List.sum_cons, List.length_cons] at ih ⊢
    omega

/-! ## Invariants of the run -/

/-- The slots of `semaphore` in use are exactly those of the goroutines
between their acquire and their release, and never exceed the capacity. -/
theorem sem_step (lib : Lib) (m : Manager) (s s' : State) (a : Action)
    (h : step lib m s a = some s')
    (hI : tally holding s.tasks = s.semaphore ∧
      s.semaphore ≤ m.config.MaxConcurrentScrapers.toNat) :
    tally holding s'.tasks = s'.semaphore ∧
      s'.semaphore ≤ m.config.MaxConcurrentScrapers.toNat := by
  obtain ⟨hA, hB⟩ := hI
  apply step_elim lib m (fun t => tally holding t.tasks = t.semaphore ∧
      t.semaphore ≤ m.config.MaxConcurrentScrapers.toNat) s s' a h
  case spawn => intros; simp [tally_snoc, holding, hA, hB]
  case acquire =>
    intro i _ _ _ ht _ _
    have := tally_set holding s.tasks i _ .running ht
    simp [holding] at this ⊢
    omega
  case scraped =>
    intro i _ r _ _ ht _ _
    have := tally_set holding s.tasks i _ (.publishing r) ht
    simp [holding] at this ⊢
    omega
  case scrapePanic =>
    intro i _ _ _ ht _ _
    have := tally_set holding s.tasks i _ (.releasing true) ht
    simp [holding] at this ⊢
    omega
  case sendClosed =>
    intro i _ _ _ ht _
    have := tally_set holding s.tasks i _ (.releasing true) ht
    simp [holding] at this ⊢
    omega
  case send =>
    intro i _ _ _ ht _ _
    have := tally_set holding s.tasks i _ (.releasing false) ht
    simp [holding] at this ⊢
    omega
  case release =>
    intro i p _ _ ht _
    have := tally_set holding s.tasks i _ (.finishing p) ht
    simp [holding] at this ⊢
    omega
  case done =>
    intro i p _ _ ht
    have := tally_set holding s.tasks i _ (if p then .dying else .exited) ht
    cases p <;> simp [holding] at this ⊢ <;> omega
  all_goals intros; simp [hA, hB]
theorem inv_init (m : Manager) (ctx : Ctx) : Inv m (State.init ctx) := by
  constructor <;> simp [State.init, tally, outcomes, called]

theorem wg_step (lib : Lib) (m : Manager) (s s' : State) (a : Action)
    (h : step lib m s a = some s') (hI : Inv m s) : tally live s'.tasks = s'.wg := by
  have hW := hI.wg
  apply step_elim lib m (fun t => tally live t.tasks = t.wg) s s' a h
  case spawn => intros; simp [tally_snoc, live, hW]
  case acquire =>
    intro i _ _ _ ht _ _
    have := tally_set live s.tasks i _ .running ht
    simp [live] at this ⊢
    omega
  case scraped =>
    intro i _ r _ _ ht _ _
    have := tally_set live s.tasks i _ (.publishing r) ht
    simp [live] at this ⊢
    omega
  case scrapePanic =>
    intro i _ _ _ ht _ _
    have := tally_set live s.tasks i _ (.releasing true) ht
    simp [live] at this ⊢
    omega
  case sendClosed =>
    intro i _ _ _ ht _
    have := tally_set live s.tasks i _ (.releasing true) ht
    simp [live] at this ⊢
    omega
  case send =>
    intro i _ _ _ ht _ _
    have := tally_set live s.tasks i _ (.releasing false) ht
    simp [live] at this ⊢
    omega
  case release =>
    intro i p _ _ ht _
    have := tally_set live s.tasks i _ (.finishing p) ht
    simp [live] at this ⊢
    omega
  case done =>
    intro i p _ _ ht
    have := tally_set live s.tasks i _ (if p then .dying else .exited) ht
    cases p <;> simp [live] at this ⊢ <;> omega
  all_goals intros; simp [hW]

theorem shape_step (lib : Lib) (m : Manager) (s s' : State) (a : Action)
    (h : step lib m s a = some s') (hI : Inv m s) :
    s'.tasks.length ≤ m.scrapers.length ∧
    (s'.mainPc = .entry → s'.tasks = [] ∧ s'.waiter = .idle) ∧
    (∀ i, s'.mainPc = .spawning i → s'.tasks.length = i ∧ s'.waiter = .idle) ∧
    (s'.mainPc = .collecting ∨ s'.mainPc = .returned →
      s'.tasks.length = m.scrapers.length ∧ s'.waiter ≠ .idle) := by
  obtain ⟨_, _, _, h1, h2, h3, h4, _, _, _, _, _, _⟩ := hI
  apply step_elim lib m (fun t => t.tasks.length ≤ m.scrapers.length ∧
    (t.mainPc = .entry → t.tasks = [] ∧ t.waiter = .idle) ∧
    (∀ i, t.mainPc = .spawning i → t.tasks.length = i ∧ t.waiter = .idle) ∧
    (t.mainPc = .collecting ∨ t.mainPc = .returned →
      t.tasks.length = m.scrapers.length ∧ t.waiter ≠ .idle)) s s' a h
  case entryPanic => intro _ _ hpc _; simp only []; exact ⟨h1, h2, h3, h4⟩
  case entryOk =>
    intro _ _ hpc _
    have := h2 hpc
    simp [this]
  case spawn =>
    intro i _ _ hpc hi
    have := h3 i hpc
    simp [this]
    omega
  case spawned =>
    intro i _ _ hpc hi
    have := h3 i hpc
    simp
    omega
  case receive =>
    intro r rest _ _ hpc _
    have := h4 (Or.inl hpc)
    simp [hpc, this, h1]
  case finish =>
    intro _ _ hpc _ _
    have := h4 (Or.inl hpc)
    simp [this]
  case waited =>
    intro _ _ hw _
    refine ⟨h1, ?_, ?_, ?_⟩
    · intro hpc; have := h2 hpc; simp [hw] at this
    · intro i hpc; have := h3 i hpc; simp [hw] at this
    · intro hpc; exact ⟨(h4 hpc).1, by simp⟩
  case close =>
    intro _ _ hw
    refine ⟨h1, ?_, ?_, ?_⟩
    · intro hpc; have := h2 hpc; simp [hw] at this
    · intro i hpc; have := h3 i hpc; simp [hw] at this
    · intro hpc; exact ⟨(h4 hpc).1, by simp⟩
  case cancel => intros; exact ⟨h1, h2, h3, h4⟩
  case expire => intros; exact ⟨h1, h2, h3, h4⟩
  all_goals
    intros
    refine ⟨by simpa using h1, ?_, ?_, ?_⟩
    · intro hpc
      have := h2 hpc
      simp_all
    · intro i hpc
      have := h3 i hpc
      simp_all
    · intro hpc
      have := h4 hpc
      simp_all
theorem waiter_step (lib : Lib) (m : Manager) (s s' : State) (a : Action)
    (h : step lib m s a = some s') (hI : Inv m s) :
    (s'.waiter = .closing ∨ s'.waiter = .finished → s'.wg = 0) ∧
    (s'.closed = true → s'.waiter = .finished) := by
  have h5 := hI.waited
  have h6 := hI.closed
  have h3 := hI.atSpawn
  apply step_elim lib m (fun t => (t.waiter = .closing ∨ t.waiter = .finished → t.wg = 0) ∧
    (t.closed = true → t.waiter = .finished)) s s' a h
  case spawn =>
    intro i _ _ hpc _
    have := (h3 i hpc).2
    refine ⟨?_, ?_⟩
    · intro hw; simp [this] at hw
    · intro hc; have := h6 hc; simp_all
  case spawned =>
    intro i _ _ hpc _
    have := (h3 i hpc).2
    refine ⟨?_, ?_⟩
    · intro hw; simp at hw
    · intro hc; have := h6 hc; simp_all
  case receive =>
    intros
    simpa using ⟨h5, h6⟩
  case done =>
    intro i p _ _ _
    refine ⟨?_, h6⟩
    intro hw
    have := h5 hw
    simp [this]
  case waited =>
    intro _ _ hw hwg
    refine ⟨fun _ => hwg, ?_⟩
    intro hc
    have := h6 hc
    simp [hw] at this
  case close =>
    intro _ _ hw
    exact ⟨fun _ => h5 (Or.inl hw), fun _ => rfl⟩
  all_goals intros; exact ⟨h5, h6⟩

/-- Once `results` is closed every goroutine has called `wg.Done()`: it has
exited, or it is a panicking goroutine about to terminate the process. -/
theorem closed_no_task (m : Manager) (s : State) (hI : Inv m s) (hc : s.closed = true)
    (i : Nat) (t : Task) (ht : s.tasks[i]? = some t) : live t = 0 := by
  have h1 := hI.waited (Or.inr (hI.closed hc))
  have h2 := tally_ge live s.tasks i t ht
  rw [hI.wg, h1] at h2
  omega

theorem return_step (lib : Lib) (m : Manager) (s s' : State) (a : Action)
    (h : step lib m s a = some s') (hI : Inv m s) :
    s'.mainPc = .returned →
      s'.closed = true ∧ s'.results = [] ∧
        s'.summary = some (s'.totalEvents, s'.totalErrors) := by
  have h7 := hI.atReturn
  apply step_elim lib m (fun t => t.mainPc = .returned →
      t.closed = true ∧ t.results = [] ∧
        t.summary = some (t.totalEvents, t.totalErrors)) s s' a h
  case entryPanic => intro _ _ hpc _ hr; simp [hpc] at hr
  case entryOk => intro _ _ hpc _ hr; simp at hr
  case spawn => intro i _ _ hpc _ hr; simp at hr
  case spawned => intro i _ _ hpc _ hr; simp at hr
  case receive => intro r rest _ _ hpc _ hr; simp [hpc] at hr
  case finish => intro _ _ hpc hres hcl _; simp [hres, hcl]
  case acquire => intro i _ _ _ _ _ _ hr; exact h7 hr
  case scraped => intro i _ _ _ _ _ _ _ hr; exact h7 hr
  case scrapePanic => intro i _ _ _ _ _ _ hr; exact h7 hr
  case sendClosed => intro i _ _ _ _ _ hr; exact h7 hr
  case send =>
    intro i _ _ _ _ hcl _ hr
    have := (h7 hr).1
    simp [hcl] at this
  case release => intro i _ _ _ _ _ hr; exact h7 hr
  case done => intro i _ _ _ _ hr; exact h7 hr
  case die => intro i _ _ _ hr; exact h7 hr
  case waited =>
    intro _ _ hw _ hr
    have := hI.closed (h7 hr).1
    simp [hw] at this
  case close =>
    intro _ _ hw hr
    have := hI.closed (h7 hr).1
    simp [hw] at this
  case cancel => intro _ _ _ hr; exact h7 hr
  case expire => intro _ _ _ hr; exact h7 hr
theorem outcomes_snoc (m : Manager) (log : List (Nat × Ctx)) (c : Nat × Ctx) :
    outcomes m (log ++ [c]) = outcomes m log ++ (outcome m c).toList := by
  simp only [outcomes, List.filterMap_append]
  congr 1

theorem outcome_returned (m : Manager) (i : Nat) (c : Ctx) (scraper : Scraper)
    (r : ScraperResult) (hs : m.scrapers[i]? = some scraper)
    (hr : runScraper c scraper = .returned r) : outcome m (i, c) = some r := by
  simp [outcome, hs, hr]

theorem outcome_panicked (m : Manager) (i : Nat) (c : Ctx) (scraper : Scraper)
    (hs : m.scrapers[i]? = some scraper)
    (hr : runScraper c scraper = .panicked) : outcome m (i, c) = none := by
  simp [outcome, hs, hr]

theorem channel_step (lib : Lib) (m : Manager) (s s' : State) (a : Action)
    (h : step lib m s a = some s') (hI : Inv m s) :
    (↑s'.received + ↑s'.results + (s'.tasks.map held).sum : Multiset ScraperResult)
      = ↑(outcomes m s'.scrapeLog) := by
  have hC := hI.channel
  have hex := closed_no_task m s hI
  apply step_elim lib m (fun t =>
    (↑t.received + ↑t.results + (t.tasks.map held).sum : Multiset ScraperResult)
      = ↑(outcomes m t.scrapeLog)) s s' a h
  case spawn => intros; simpa [held] using hC
  case receive =>
    intro r rest _ _ _ hres
    rw [hres] at hC
    simp only [collect_received, collect_results, collect_tasks, collect_scrapeLog]
    have e : (↑(r :: rest) : Multiset ScraperResult) = ↑[r] + ↑rest := by
      rw [Multiset.coe_add]; rfl
    rw [← hC, e, ← Multiset.coe_add]
    simp only [add_assoc]
  case acquire =>
    intro i _ _ _ ht _ _
    have key := sum_map_set held s.tasks i _ .running ht
    simp only [held, add_zero] at key
    dsimp only
    rw [key]
    exact hC
  case scraped =>
    intro i scraper r _ _ ht hs hr
    have key := sum_map_set held s.tasks i _ (.publishing r) ht
    simp only [held, add_zero] at key
    simp only [outcomes_snoc, outcome_returned m i s.ctx scraper r hs hr, Option.toList]
    rw [key, ← Multiset.coe_add, ← hC, Multiset.coe_singleton]
    simp only [add_assoc]
  case scrapePanic =>
    intro i scraper _ _ ht hs hr
    have key := sum_map_set held s.tasks i _ (.releasing true) ht
    simp only [held, add_zero] at key
    simp only [outcomes_snoc, outcome_panicked m i s.ctx scraper hs hr, Option.toList,
      List.append_nil]
    rw [key]
    exact hC
  case sendClosed =>
    intro i r _ _ ht hc
    have := hex hc i _ ht
    simp [live] at this
  case send =>
    intro i r _ _ ht _ _
    have key := sum_map_set held s.tasks i _ (.releasing false) ht
    simp only [held, add_zero] at key
    rw [← hC, ← key, ← Multiset.coe_add, Multiset.coe_singleton]
    simp only [add_assoc, add_comm, add_left_comm]
  case release =>
    intro i p _ _ ht _
    have key := sum_map_set held s.tasks i _ (.finishing p) ht
    simp only [held, add_zero] at key
    dsimp only
    rw [key]
    exact hC
  case done =>
    intro i p _ _ ht
    have key := sum_map_set held s.tasks i _ (if p then .dying else .exited) ht
    have hz : held (if p then Task.dying else Task.exited) = 0 := by cases p <;> rfl
    rw [hz] at key
    simp only [held, add_zero] at key
    dsimp only
    rw [key]
    exact hC
  all_goals intros; exact hC
theorem called_set (ts : List Task) (i : Nat) (old new : Task) (ht : ts[i]? = some old)
    (j : Nat) : called (ts.set i new)[j]? = if j = i then called (some new) else called ts[j]? := by
  have hi : i < ts.length := by
    by_contra hlt
    have : ts[i]? = none := List.getElem?_eq_none (by omega)
    simp [this] at ht
  by_cases hj : j = i
  · subst hj
    simp [List.getElem?_set, hi]
  · have : ¬ i = j := fun e => hj e.symm
    simp [List.getElem?_set, hj, this]

theorem calls_step (lib : Lib) (m : Manager) (s s' : State) (a : Action)
    (h : step lib m s a = some s') (hI : Inv m s) :
    ∀ j : Nat, (s'.scrapeLog.map Prod.fst).count j = called s'.tasks[j]? := by
  have hC := hI.calls
  apply step_elim lib m (fun t =>
    ∀ j : Nat, (t.scrapeLog.map Prod.fst).count j = called t.tasks[j]?) s s' a h
  case spawn =>
    intro i _ _ _ _ j
    dsimp only
    rw [hC j]
    by_cases hj : j < s.tasks.length
    · simp [List.getElem?_append_left hj]
    · have e1 : s.tasks[j]? = none := List.getElem?_eq_none (by omega)
      by_cases hj2 : j = s.tasks.length
      · subst hj2
        simp [called]
      · have : (s.tasks ++ [Task.acquiring])[j]? = none :=
          List.getElem?_eq_none (by simp; omega)
        rw [this, e1]
  case acquire =>
    intro i _ _ _ ht _ _ j
    dsimp only
    rw [called_set s.tasks i _ _ ht j, hC j]
    split
    · subst_vars; simp [ht, called]
    · rfl
  case scraped =>
    intro i _ r _ _ ht _ _ j
    dsimp only
    rw [called_set s.tasks i _ _ ht j, List.map_append, List.count_append, hC j]
    split
    · subst_vars; simp [ht, called]
    · have : ¬ i = j := fun e => ‹¬ j = i› e.symm
      simp [List.count_singleton, this]
  case scrapePanic =>
    intro i _ _ _ ht _ _ j
    dsimp only
    rw [called_set s.tasks i _ _ ht j, List.map_append, List.count_append, hC j]
    split
    · subst_vars; simp [ht, called]
    · have : ¬ i = j := fun e => ‹¬ j = i› e.symm
      simp [List.count_singleton, this]
  case sendClosed =>
    intro i _ _ _ ht _ j
    dsimp only
    rw [called_set s.tasks i _ _ ht j, hC j]
    split
    · subst_vars; simp [ht, called]
    · rfl
  case send =>
    intro i _ _ _ ht _ _ j
    dsimp only
    rw [called_set s.tasks i _ _ ht j, hC j]
    split
    · subst_vars; simp [ht, called]
    · rfl
  case release =>
    intro i _ _ _ ht _ j
    dsimp only
    rw [called_set s.tasks i _ _ ht j, hC j]
    split
    · subst_vars; simp [ht, called]
    · rfl
  case done =>
    intro i p _ _ ht j
    dsimp only
    rw [called_set s.tasks i _ _ ht j, hC j]
    split
    · subst_vars; cases p <;> simp [ht, called]
    · rfl
  case receive => intros; simpa using hC _
  all_goals intros; exact hC _

theorem returnedCalls_step (lib : Lib) (m : Manager) (s s' : State) (a : Action)
    (h : step lib m s a = some s') (hI : Inv m s) :
    (outcomes m s'.scrapeLog).length + tally panicking s'.tasks = s'.scrapeLog.length := by
  have hex := closed_no_task m s hI
  have hR := hI.returnedCalls
  apply step_elim lib m (fun t =>
      (outcomes m t.scrapeLog).length + tally panicking t.tasks = t.scrapeLog.length) s s' a h
  case spawn =>
    intro i _ _ _ _
    simpa [tally_snoc, panicking] using hR
  case receive =>
    intro r rest _ _ _ _
    simpa using hR
  case acquire =>
    intro i _ _ _ ht _ _
    have key := tally_set panicking s.tasks i _ .running ht
    simp [panicking] at key ⊢
    omega
  case scraped =>
    intro i scraper r _ _ ht hs hr
    have key := tally_set panicking s.tasks i _ (.publishing r) ht
    simp [panicking, outcomes_snoc, outcome_returned m i s.ctx scraper r hs hr] at key ⊢
    omega
  case scrapePanic =>
    intro i scraper _ _ ht hs hr
    have key := tally_set panicking s.tasks i _ (.releasing true) ht
    simp [panicking, outcomes_snoc, outcome_panicked m i s.ctx scraper hs hr] at key ⊢
    omega
  case sendClosed =>
    intro i r _ _ ht hc
    have := hex hc i _ ht
    simp [live] at this
  case send =>
    intro i r _ _ ht _ _
    have key := tally_set panicking s.tasks i _ (.releasing false) ht
    simp [panicking] at key ⊢
    omega
  case release =>
    intro i p _ _ ht _
    have key := tally_set panicking s.tasks i (.releasing p) (.finishing p) ht
    cases p <;> simp [panicking] at key ⊢ <;> omega
  case done =>
    intro i p _ _ ht
    have key := tally_set panicking s.tasks i _ (if p then .dying else .exited) ht
    cases p <;> simp [panicking] at key ⊢ <;> omega
  all_goals
    intros
    exact hR
theorem inv_step (lib : Lib) (m : Manager) (s s' : State) (a : Action)
    (h : step lib m s a = some s') (hI : Inv m s) : Inv m s' := by
  have h1 := sem_step lib m s s' a h ⟨hI.sem, hI.cap⟩
  have h2 := shape_step lib m s s' a h hI
  have h3 := waiter_step lib m s s' a h hI
  exact
    { sem := h1.1
      cap := h1.2
      wg := wg_step lib m s s' a h hI
      size := h2.1
      atEntry := h2.2.1
      atSpawn := h2.2.2.1
      atCollect := h2.2.2.2
      waited := h3.1
      closed := h3.2
      atReturn := return_step lib m s s' a h hI
      channel := channel_step lib m s s' a h hI
      calls := calls_step lib m s s' a h hI
      returnedCalls := returnedCalls_step lib m s s' a h hI }

@[simp] theorem run_nil (lib : Lib) (m : Manager) (s : State) : run lib m s [] = s := rfl

@[simp] theorem run_cons (lib : Lib) (m : Manager) (s : State) (a : Action)
    (rest : List Action) :
    run lib m s (a :: rest) = run lib m ((step lib m s a).getD s) rest := rfl

theorem run_append (lib : Lib) (m : Manager) (s : State) (xs ys : List Action) :
    run lib m s (xs ++ ys) = run lib m (run lib m s xs) ys := by
  simp [run, List.foldl_append]

theorem inv_stepD (lib : Lib) (m : Manager) (s : State) (a : Action) (hI : Inv m s) :
    Inv m ((step lib m s a).getD s) := by
  cases h : step lib m s a with
  | none => simpa using hI
  | some t => simpa using inv_step lib m s t a h hI

theorem inv_run (lib : Lib) (m : Manager) (schedule : List Action) :
    ∀ s : State, Inv m s → Inv m (run lib m s schedule) := by
  induction schedule with
  | nil => intro s hI; exact hI
  | cons a rest ih =>
    intro s hI
    exact ih _ (inv_stepD lib m s a hI)

theorem inv_RunAllScrapers (lib : Lib) (m : Manager) (ctx : Ctx) (schedule : List Action) :
    Inv m (RunAllScrapers lib m ctx schedule) :=
  inv_run lib m schedule _ (inv_init m ctx)
/-! ## The collection loop -/

theorem IngestEvents_requests_le (lib : Lib) (c : Client) (n : Nat)
    (events : Option (List Event)) : (c.IngestEvents lib n events).2.length ≤ 1 := by
  unfold Client.IngestEvents
  split
  · simp
  · dsimp only
    split
    · simp
    · split
      · simp
      · split
        · simp
        · split <;> simp

theorem forwarded_snoc (log : List (Option (List Event) × Option String))
    (e : Option (List Event) × Option String) :
    forwarded (log ++ [e]) = forwarded log + (if e.2.isNone then (len e.1 : Int) else 0) := by
  simp [forwarded]

theorem failures_snoc (log : List (Option (List Event) × Option String))
    (e : Option (List Event) × Option String) :
    failures (log ++ [e]) = failures log + (if e.2.isSome then 1 else 0) := by
  simp only [failures, List.countP_append, List.countP_cons, List.countP_nil]
  split <;> simp

theorem loop_collect (lib : Lib) (m : Manager) (s : State) (r : ScraperResult)
    (hL : Loop lib m s) : Loop lib m (collect lib m s r) := by
  obtain ⟨h1, h2, h3, h4, h5⟩ := hL
  unfold collect
  dsimp only
  by_cases hr : len r.Events > 0
  · have hne : nonEmpty r = true := by simp [nonEmpty, hr]
    have hq := IngestEvents_requests_le lib m.ingestionClient s.ingestLog.length r.Events
    have hrep : ∀ (k : Nat) (e : Option (List Event) × Option String),
        (s.ingestLog ++ [(r.Events,
          (m.ingestionClient.IngestEvents lib s.ingestLog.length r.Events).1)])[k]? = some e →
        e.2 = (m.ingestionClient.IngestEvents lib k e.1).1 := by
      intro k e hk
      by_cases hlt : k < s.ingestLog.length
      · rw [List.getElem?_append_left hlt] at hk
        exact h4 k e hk
      · by_cases heq : k = s.ingestLog.length
        · subst heq
          simp at hk
          subst hk
          rfl
        · have : (s.ingestLog ++ [(r.Events,
              (m.ingestionClient.IngestEvents lib s.ingestLog.length r.Events).1)])[k]? = none :=
            List.getElem?_eq_none (by simp; omega)
          rw [this] at hk
          cases hk
    rw [if_pos hr]
    cases he : (m.ingestionClient.IngestEvents lib s.ingestLog.length r.Events).1 with
    | none =>
      rw [he] at hrep
      constructor
      · simp [List.filter_append, hne, h1]
      · simp [forwarded_snoc, h2]
      · simp [failures_snoc, h3]
      · exact hrep
      · simp only [List.length_append, List.length_singleton]; omega
    | some err =>
      rw [he] at hrep
      constructor
      · simp [List.filter_append, hne, h1]
      · simp [forwarded_snoc, h2]
      · simp [failures_snoc, h3]
      · exact hrep
      · simp only [List.length_append, List.length_singleton]; omega
  · have hne : nonEmpty r = false := by simp [nonEmpty, hr]
    rw [if_neg hr]
    constructor
    · simp [List.filter_append, hne, h1]
    · exact h2
    · exact h3
    · exact h4
    · exact h5

theorem loop_init (lib : Lib) (m : Manager) (ctx : Ctx) : Loop lib m (State.init ctx) := by
  constructor <;> simp [State.init, forwarded, failures]

theorem loop_step (lib : Lib) (m : Manager) (s s' : State) (a : Action)
    (h : step lib m s a = some s') (hL : Loop lib m s) : Loop lib m s' := by
  apply step_elim lib m (fun t => Loop lib m t) s s' a h
  case receive =>
    intro r rest _ _ _ _
    exact loop_collect lib m _ r ⟨hL.args, hL.events, hL.errors, hL.replies, hL.requests⟩
  all_goals intros; exact ⟨hL.args, hL.events, hL.errors, hL.replies, hL.requests⟩

theorem loop_stepD (lib : Lib) (m : Manager) (s : State) (a : Action) (hL : Loop lib m s) :
    Loop lib m ((step lib m s a).getD s) := by
  cases h : step lib m s a with
  | none => simpa using hL
  | some t => simpa using loop_step lib m s t a h hL

theorem loop_run (lib : Lib) (m : Manager) (schedule : List Action) :
    ∀ s : State, Loop lib m s → Loop lib m (run lib m s schedule) := by
  induction schedule with
  | nil => intro s hL; exact hL
  | cons a rest ih =>
    intro s hL
    exact ih _ (loop_stepD lib m s a hL)

theorem loop_RunAllScrapers (lib : Lib) (m : Manager) (ctx : Ctx) (schedule : List Action) :
    Loop lib m (RunAllScrapers lib m ctx schedule) :=
  loop_run lib m schedule _ (loop_init lib m ctx)
/-! ## What holds once `RunAllScrapers` has returned -/

theorem held_sum_exited : ∀ ts : List Task,
    (∀ (i : Nat) (t : Task), ts[i]? = some t → live t = 0) → (ts.map held).sum = 0 := by
  intro ts
  induction ts with
  | nil => intro _; simp
  | cons x xs ih =>
    intro h
    have hx : live x = 0 := h 0 x (by simp)
    have := ih (fun i t ht => h (i + 1) t (by simpa using ht))
    cases x <;> simp [live] at hx <;> simp [held, this]

/-- A goroutine that has called `wg.Done()` has made its `Scrape` call. -/
theorem called_of_done (t : Task) (h : live t = 0) : called (some t) = 1 := by
  cases t <;> simp [live] at h <;> rfl

/-- In a returned run the collection loop has received exactly the results
built by the logged `Scrape` calls. -/
theorem returned_received (m : Manager) (s : State) (hI : Inv m s)
    (hr : s.mainPc = .returned) : s.received.Perm (outcomes m s.scrapeLog) := by
  obtain ⟨hc, hres, _⟩ := hI.atReturn hr
  have h0 := held_sum_exited s.tasks (closed_no_task m s hI hc)
  have := hI.channel
  rw [h0, hres] at this
  simp only [Multiset.coe_nil, add_zero] at this
  exact Multiset.coe_eq_coe.mp this

/-- In a returned run `Scrape` has been called exactly once on every registered scraper. -/
theorem returned_calls (m : Manager) (s : State) (hI : Inv m s)
    (hr : s.mainPc = .returned) :
    (s.scrapeLog.map Prod.fst).Perm (List.range m.scrapers.length) := by
  obtain ⟨hc, _, _⟩ := hI.atReturn hr
  have hex := closed_no_task m s hI hc
  have hlen := (hI.atCollect (Or.inr hr)).1
  rw [List.perm_iff_count]
  intro j
  rw [hI.calls j, List.count_eq_of_nodup (List.nodup_range _)]
  by_cases hj : j < s.tasks.length
  · have hget : s.tasks[j]? = some s.tasks[j] := List.getElem?_eq_getElem hj
    have := hex j _ hget
    rw [hget, called_of_done _ this]
    simp [← hlen, hj]
  · have : s.tasks[j]? = none := List.getElem?_eq_none (by omega)
    rw [this]
    simp [called, ← hlen, hj]

/-- In a returned run every `Scrape` call has either returned, and then it
has a result, or panicked, and then its goroutine is about to terminate the
process. -/
theorem returned_outcomes_count (m : Manager) (s : State) (hI : Inv m s)
    (hr : s.mainPc = .returned) :
    (outcomes m s.scrapeLog).length + tally panicking s.tasks = m.scrapers.length := by
  have h1 := hI.returnedCalls
  have h2 := (returned_calls m s hI hr).length_eq
  simp at h2
  omega

/-- In a returned run the batches offered to `IngestEvents` are exactly the
non-empty record sequences carried by the results of the `Scrape` calls. -/
theorem returned_batches (lib : Lib) (m : Manager) (s : State) (hI : Inv m s)
    (hL : Loop lib m s) (hr : s.mainPc = .returned) :
    (s.ingestLog.map Prod.fst).Perm
      (((outcomes m s.scrapeLog).filter nonEmpty).map (fun r => r.Events)) := by
  rw [hL.args]
  exact ((returned_received m s hI hr).filter _).map _

theorem returned_batchSizes (lib : Lib) (m : Manager) (s : State) (hI : Inv m s)
    (hL : Loop lib m s) (hr : s.mainPc = .returned) :
    (batchSizes s.ingestLog).Perm
      ((resultSizes (outcomes m s.scrapeLog)).filter (fun n => decide (0 < n))) := by
  have h := (returned_batches lib m s hI hL hr).map len
  have e1 : batchSizes s.ingestLog = (s.ingestLog.map Prod.fst).map len := by
    simp [batchSizes, List.map_map, Function.comp_def]
  have e2 : (resultSizes (outcomes m s.scrapeLog)).filter (fun n => decide (0 < n))
      = (((outcomes m s.scrapeLog).filter nonEmpty).map (fun r => r.Events)).map len := by
    simp only [resultSizes, List.filter_map, List.map_map]
    rfl
  rw [e1, e2]
  exact h

theorem loop_replies_mem (lib : Lib) (m : Manager) (s : State) (hL : Loop lib m s)
    (e : Option (List Event) × Option String) (he : e ∈ s.ingestLog) :
    ∃ k : Nat, e.2 = (m.ingestionClient.IngestEvents lib k e.1).1 := by
  obtain ⟨k, hk⟩ := List.mem_iff_getElem?.mp he
  exact ⟨k, hL.replies k e hk⟩

theorem forwarded_eq_sum (log : List (Option (List Event) × Option String)) (g : Nat → Int)
    (h : ∀ e ∈ log, (if e.2.isNone then (len e.1 : Int) else 0) = g (len e.1)) :
    forwarded log = ((batchSizes log).map g).sum := by
  simp only [forwarded, batchSizes, List.map_map]
  congr 1
  exact List.map_congr_left h

theorem failures_eq_countP (log : List (Option (List Event) × Option String)) (q : Nat → Bool)
    (h : ∀ e ∈ log, e.2.isSome = q (len e.1)) :
    failures log = ((batchSizes log).countP q : Nat) := by
  simp only [failures, batchSizes, List.countP_map]
  congr 1
  apply List.countP_congr
  intro e he
  simp [h e he]
theorem returned_sizes_of (lib : Lib) (m : Manager) (s : State) (hI : Inv m s)
    (hL : Loop lib m s) (hr : s.mainPc = .returned)
    (hsz : (resultSizes (outcomes m s.scrapeLog)).Perm [3, 0, 0, 5]) :
    (batchSizes s.ingestLog).Perm [3, 5] := by
  have h1 := returned_batchSizes lib m s hI hL hr
  have h2 := hsz.filter (fun n => decide (0 < n))
  have h3 : List.filter (fun n => decide (0 < n)) [3, 0, 0, 5] = [3, 5] := by decide
  rw [h3] at h2
  exact h1.trans h2

theorem forwarded_accept_all (lib : Lib) (m : Manager) (s : State) (hL : Loop lib m s)
    (hsink : ∀ (k : Nat) (b : Option (List Event)),
      (m.ingestionClient.IngestEvents lib k b).1 = none) :
    forwarded s.ingestLog = ((batchSizes s.ingestLog).map (fun (n : Nat) => (n : Int))).sum ∧
      failures s.ingestLog = ((batchSizes s.ingestLog).countP (fun _ => false) : Nat) := by
  refine ⟨forwarded_eq_sum _ _ ?_, failures_eq_countP _ _ ?_⟩
  · intro e he
    obtain ⟨k, hk⟩ := loop_replies_mem lib m s hL e he
    rw [hk, hsink k e.1]
    rfl
  · intro e he
    obtain ⟨k, hk⟩ := loop_replies_mem lib m s hL e he
    rw [hk, hsink k e.1]
    rfl

theorem forwarded_reject_five (lib : Lib) (m : Manager) (s : State) (hL : Loop lib m s)
    (hsink : ∀ (k : Nat) (b : Option (List Event)),
      ((m.ingestionClient.IngestEvents lib k b).1 = none ↔ len b ≠ 5)) :
    forwarded s.ingestLog
        = ((batchSizes s.ingestLog).map (fun (n : Nat) => if n = 5 then (0 : Int) else (n : Int))).sum ∧
      failures s.ingestLog = ((batchSizes s.ingestLog).countP (fun n => decide (n = 5)) : Nat) := by
  refine ⟨forwarded_eq_sum _ _ ?_, failures_eq_countP _ _ ?_⟩
  · intro e he
    obtain ⟨k, hk⟩ := loop_replies_mem lib m s hL e he
    have := hsink k e.1
    rw [← hk] at this
    by_cases h5 : len e.1 = 5
    · have hne : ¬ e.2 = none := fun hn => (this.mp hn) h5
      cases h2 : e.2 with
      | none => exact (hne h2).elim
      | some x => simp [h5]
    · have : e.2 = none := this.mpr h5
      simp [this, h5]
  · intro e he
    obtain ⟨k, hk⟩ := loop_replies_mem lib m s hL e he
    have := hsink k e.1
    rw [← hk] at this
    by_cases h5 : len e.1 = 5
    · have hne : ¬ e.2 = none := fun hn => (this.mp hn) h5
      cases h2 : e.2 with
      | none => exact (hne h2).elim
      | some x => simp [h5]
    · have : e.2 = none := this.mpr h5
      simp [this, h5]

/-- C2: in every completed run of `RunAllScrapers` the forwarded-record total
that is reported equals the sum of the lengths of the batches whose
`IngestEvents` call returned nil (`forwarded` counts a failed batch as 0); the
batches offered are exactly the non-empty record sequences of the results, and
each logged reply is what `IngestEvents` answered.  For results of 3, 0, 0 and
5 records the total is 8 when the Sink accepts every batch and 3 when it fails
exactly for the 5-record batch. -/
theorem C2_forwarded_total (lib : Lib) (m : Manager) (ctx : Ctx) (schedule : List Action)
    (s : State) (hs : RunAllScrapers lib m ctx schedule = s) (hret : s.mainPc = .returned) :
    s.summary.map Prod.fst = some (forwarded s.ingestLog) ∧
    (s.ingestLog.map Prod.fst).Perm
      (((outcomes m s.scrapeLog).filter nonEmpty).map (fun r => r.Events)) ∧
    (∀ (k : Nat) (e : Option (List Event) × Option String), s.ingestLog[k]? = some e →
      e.2 = (m.ingestionClient.IngestEvents lib k e.1).1) ∧
    ((resultSizes (outcomes m s.scrapeLog)).Perm [3, 0, 0, 5] →
      (∀ (k : Nat) (b : Option (List Event)),
        (m.ingestionClient.IngestEvents lib k b).1 = none) →
      s.summary.map Prod.fst = some 8) ∧
    ((resultSizes (outcomes m s.scrapeLog)).Perm [3, 0, 0, 5] →
      (∀ (k : Nat) (b : Option (List Event)),
        ((m.ingestionClient.IngestEvents lib k b).1 = none ↔ len b ≠ 5)) →
      s.summary.map Prod.fst = some 3) := by
  subst hs
  have hI := inv_RunAllScrapers lib m ctx schedule
  have hL := loop_RunAllScrapers lib m ctx schedule
  have hsum : (RunAllScrapers lib m ctx schedule).summary.map Prod.fst
      = some (forwarded (RunAllScrapers lib m ctx schedule).ingestLog) := by
    rw [(hI.atReturn hret).2.2, ← hL.events]
    rfl
  refine ⟨hsum, returned_batches lib m _ hI hL hret, hL.replies, ?_, ?_⟩
  · intro hsz hsink
    have hp := returned_sizes_of lib m _ hI hL hret hsz
    rw [hsum, (forwarded_accept_all lib m _ hL hsink).1,
      ((hp.map (fun (n : Nat) => (n : Int))).sum_eq)]
    rfl
  · intro hsz hsink
    have hp := returned_sizes_of lib m _ hI hL hret hsz
    rw [hsum, (forwarded_reject_five lib m _ hL hsink).1,
      ((hp.map (fun (n : Nat) => if n = 5 then (0 : Int) else (n : Int))).sum_eq)]
    rfl
/-! ## The end-to-end scenarios -/

theorem acceptAll_replies (k : Nat) (b : Option (List Event)) :
    (scenario1.ingestionClient.IngestEvents sampleLib k b).1 = none := by
  simp only [Client.IngestEvents, sampleLib, scenario1, scenarioWith, acceptAll]
  split <;> simp

theorem rejectFive_replies (k : Nat) (b : Option (List Event)) :
    (scenario2.ingestionClient.IngestEvents sampleLib k b).1 = none ↔ len b ≠ 5 := by
  by_cases h0 : len b = 0
  · simp [Client.IngestEvents, h0]
  · by_cases h5 : len b = 5
    · simp [Client.IngestEvents, sampleLib, scenario2, scenarioWith, rejectFive, Request.Set, String.length, h5]
    · simp [Client.IngestEvents, sampleLib, scenario2, scenarioWith, rejectFive, Request.Set, String.length,
        h0, h5]

theorem scenario_outcome (client : Client) (cfg : Config) (i : Nat) (c : Ctx) :
    outcome (scenarioWith client cfg) (i, c)
      = outcome (scenarioWith client cfg)
          (i, .active) := by
  match i with
  | 0 => rfl
  | 1 => rfl
  | 2 => rfl
  | 3 => rfl
  | n + 4 => rfl

theorem outcomes_fixed (m : Manager)
    (hfix : ∀ (i : Nat) (c : Ctx), outcome m (i, c) = outcome m (i, .active))
    (log : List (Nat × Ctx)) :
    outcomes m log = (log.map Prod.fst).filterMap (fun i => outcome m (i, .active)) := by
  simp only [outcomes, List.filterMap_map]
  congr 1
  funext ic
  exact hfix ic.1 ic.2

/-- In a returned run of the four scenario scrapers the results are those of
the four scrapers, in some order. -/
theorem scenario_results (client : Client) (cfg : Config) (s : State)
    (hI : Inv (scenarioWith client cfg) s)
    (hr : s.mainPc = .returned) :
    (outcomes (scenarioWith client cfg)
      s.scrapeLog).Perm
      [ { Source := "Scraper1", Events := sampleBatch "a" 3, ErrorCount := 0, Duration := 10 },
        { Source := "Scraper2", Events := some [], ErrorCount := 0, Duration := 10 },
        { Source := "Scraper3", Events := none, ErrorCount := 1, Duration := 10 },
        { Source := "Scraper4", Events := sampleBatch "d" 5, ErrorCount := 0, Duration := 10 } ] := by
  rw [outcomes_fixed _ (scenario_outcome client cfg)]
  have h := (returned_calls _ s hI hr).filterMap
    (fun i => outcome (scenarioWith client cfg)
      (i, .active))
  exact h

theorem scenario_sizes (client : Client) (cfg : Config) (s : State)
    (hI : Inv (scenarioWith client cfg) s)
    (hr : s.mainPc = .returned) :
    (resultSizes (outcomes (scenarioWith client cfg) s.scrapeLog)).Perm [3, 0, 0, 5] := by
  have h := (scenario_results client cfg s hI hr).map (fun r : ScraperResult => len r.Events)
  exact h

theorem scenario_scrapeErrors (client : Client) (cfg : Config) (s : State)
    (hI : Inv (scenarioWith client cfg) s)
    (hr : s.mainPc = .returned) :
    scrapeErrors (outcomes (scenarioWith client cfg) s.scrapeLog) = 1 := by
  have := ((scenario_results client cfg s hI hr).map
    (fun r : ScraperResult => r.ErrorCount)).sum_eq
  simpa [scrapeErrors] using this
/-! ## C1 and C2: the totals reported at the end of a run -/

/-- C1 (defect in the code): in every completed run of `RunAllScrapers` the
error count that is reported equals the number of `IngestEvents` calls that
failed, and nothing else: the `ErrorCount` that `runScraper` sets for a failed
`Scrape` is never added to it.  For results of 3, 0, 0 and 5 records of which
one carries a scrape error, the reported count is therefore 0 when the Sink
accepts every batch (scrape errors plus delivery errors make 1) and 1 when the
Sink fails exactly for the 5-record batch (scrape errors plus delivery errors
make 2). -/
theorem C1_reported_error_count (lib : Lib) (m : Manager) (ctx : Ctx) (schedule : List Action)
    (s : State) (hs : RunAllScrapers lib m ctx schedule = s) (hret : s.mainPc = .returned) :
    s.summary.map Prod.snd = some (failures s.ingestLog) ∧
    ((resultSizes (outcomes m s.scrapeLog)).Perm [3, 0, 0, 5] →
      scrapeErrors (outcomes m s.scrapeLog) = 1 →
      (∀ (k : Nat) (b : Option (List Event)),
        (m.ingestionClient.IngestEvents lib k b).1 = none) →
      s.summary.map Prod.snd = some 0 ∧
        scrapeErrors (outcomes m s.scrapeLog) + failures s.ingestLog = 1) ∧
    ((resultSizes (outcomes m s.scrapeLog)).Perm [3, 0, 0, 5] →
      scrapeErrors (outcomes m s.scrapeLog) = 1 →
      (∀ (k : Nat) (b : Option (List Event)),
        ((m.ingestionClient.IngestEvents lib k b).1 = none ↔ len b ≠ 5)) →
      s.summary.map Prod.snd = some 1 ∧
        scrapeErrors (outcomes m s.scrapeLog) + failures s.ingestLog = 2) := by
  subst hs
  have hI := inv_RunAllScrapers lib m ctx schedule
  have hL := loop_RunAllScrapers lib m ctx schedule
  have hsum : (RunAllScrapers lib m ctx schedule).summary.map Prod.snd
      = some (failures (RunAllScrapers lib m ctx schedule).ingestLog) := by
    rw [(hI.atReturn hret).2.2, ← hL.errors]
    rfl
  refine ⟨hsum, ?_, ?_⟩
  · intro hsz herr hsink
    have hp := returned_sizes_of lib m _ hI hL hret hsz
    have hf : failures (RunAllScrapers lib m ctx schedule).ingestLog = 0 := by
      rw [(forwarded_accept_all lib m _ hL hsink).2, hp.countP_eq]
      rfl
    rw [hsum, hf, herr]
    exact ⟨rfl, rfl⟩
  · intro hsz herr hsink
    have hp := returned_sizes_of lib m _ hI hL hret hsz
    have hf : failures (RunAllScrapers lib m ctx schedule).ingestLog = 1 := by
      rw [(forwarded_reject_five lib m _ hL hsink).2, hp.countP_eq]
      rfl
    rw [hsum, hf, herr]
    exact ⟨rfl, rfl⟩

/-- Scenario 1 under a round-robin schedule: the run reports 8 events and 0
errors although one `Scrape` failed. -/
theorem C1_reported_error_count_witness :
    (RunAllScrapers sampleLib scenario1 .active (roundRobin 4 12)).mainPc = .returned ∧
    (RunAllScrapers sampleLib scenario1 .active (roundRobin 4 12)).summary = some (8, 0) ∧
    scrapeErrors (outcomes scenario1
      (RunAllScrapers sampleLib scenario1 .active (roundRobin 4 12)).scrapeLog) = 1 ∧
    (RunAllScrapers sampleLib scenario1 .active (roundRobin 4 12)).summary.map Prod.snd
      = some (failures (RunAllScrapers sampleLib scenario1 .active (roundRobin 4 12)).ingestLog) :=
  ⟨by decide, by decide, by decide,
    (C1_reported_error_count sampleLib scenario1 .active (roundRobin 4 12) _ rfl (by decide)).1⟩

/-- Scenario 2 under a round-robin schedule: the total is 3, by the general
statement applied to a Sink that fails exactly for the 5-record batch. -/
theorem C2_forwarded_total_witness :
    (RunAllScrapers sampleLib scenario2 .active (roundRobin 4 12)).mainPc = .returned ∧
    (RunAllScrapers sampleLib scenario2 .active (roundRobin 4 12)).summary.map Prod.fst
      = some 3 :=
  ⟨by decide,
    (C2_forwarded_total sampleLib scenario2 .active (roundRobin 4 12) _ rfl
      (by decide)).2.2.2.2
      (scenario_sizes _ _ _ (inv_RunAllScrapers sampleLib scenario2 .active (roundRobin 4 12))
        (by decide))
      rejectFive_replies⟩
/-! ## C3: partial records of a failed scrape -/

theorem runScraper_error (c : Ctx) (scraper : Scraper) (events : Option (List Event))
    (err : String) (d : Int) (h : scraper.Scrape c = .returned (events, some err, d)) :
    runScraper c scraper
      = .returned { Source := scraper.Name, Events := events, ErrorCount := 1, Duration := d } := by
  simp [runScraper, h]

/-- In a returned run every registered scraper has a logged `Scrape` call. -/
theorem returned_called (m : Manager) (s : State) (hI : Inv m s) (hr : s.mainPc = .returned)
    (i : Nat) (hi : i < m.scrapers.length) : ∃ c : Ctx, (i, c) ∈ s.scrapeLog := by
  have h1 : i ∈ s.scrapeLog.map Prod.fst :=
    (returned_calls m s hI hr).mem_iff.mpr (List.mem_range.mpr hi)
  obtain ⟨ic, hmem, hfst⟩ := List.mem_map.mp h1
  refine ⟨ic.2, ?_⟩
  have : ic = (i, ic.2) := by rw [← hfst]
  rw [← this]
  exact hmem

/-- In a returned run the non-empty record sequence of a logged call that
returned has been offered to `IngestEvents`. -/
theorem returned_offered (lib : Lib) (m : Manager) (s : State) (hI : Inv m s)
    (hL : Loop lib m s) (hr : s.mainPc = .returned) (i : Nat) (c : Ctx) (scraper : Scraper)
    (r : ScraperResult) (hlog : (i, c) ∈ s.scrapeLog) (hsc : m.scrapers[i]? = some scraper)
    (hrun : runScraper c scraper = .returned r) (hM : 0 < len r.Events) :
    r ∈ s.received ∧ r.Events ∈ s.ingestLog.map Prod.fst := by
  have h1 : r ∈ outcomes m s.scrapeLog :=
    List.mem_filterMap.mpr ⟨(i, c), hlog, outcome_returned m i c scraper r hsc hrun⟩
  have h2 : r ∈ s.received := (returned_received m s hI hr).mem_iff.mpr h1
  refine ⟨h2, ?_⟩
  rw [hL.args]
  exact List.mem_map.mpr ⟨r, List.mem_filter.mpr ⟨h2, by simp [nonEmpty, hM]⟩, rfl⟩

/-- C3: in a completed run every registered scraper has had its `Scrape`
called, and when that call returned a non-nil error together with `M > 0`
records, `runScraper` built a result that carries exactly those records, in
the returned order, with `ErrorCount = 1`; the collection loop received that
result and passed exactly those records to `IngestEvents`. -/
theorem C3_error_records_forwarded (lib : Lib) (m : Manager) (ctx : Ctx)
    (schedule : List Action) (s : State) (hs : RunAllScrapers lib m ctx schedule = s)
    (hret : s.mainPc = .returned) (i : Nat) (scraper : Scraper)
    (hsc : m.scrapers[i]? = some scraper) :
    ∃ c : Ctx, (i, c) ∈ s.scrapeLog ∧
      ∀ (events : Option (List Event)) (err : String) (d : Int),
        scraper.Scrape c = .returned (events, some err, d) → 0 < len events →
        runScraper c scraper
          = .returned { Source := scraper.Name, Events := events, ErrorCount := 1, Duration := d } ∧
        ({ Source := scraper.Name, Events := events, ErrorCount := 1, Duration := d }
          : ScraperResult) ∈ s.received ∧
        events ∈ s.ingestLog.map Prod.fst := by
  subst hs
  have hI := inv_RunAllScrapers lib m ctx schedule
  have hL := loop_RunAllScrapers lib m ctx schedule
  have hi : i < m.scrapers.length := by
    by_contra hlt
    have : m.scrapers[i]? = none := List.getElem?_eq_none (by omega)
    simp [this] at hsc
  obtain ⟨c, hc⟩ := returned_called m _ hI hret i hi
  refine ⟨c, hc, ?_⟩
  intro events err d hscrape hM
  have hrun := runScraper_error c scraper events err d hscrape
  have := returned_offered lib m _ hI hL hret i c scraper _ hc hsc hrun hM
  exact ⟨hrun, this.1, this.2⟩

/-- A scraper that fails after two records: both records reach `IngestEvents`. -/
theorem C3_error_records_forwarded_witness :
    (RunAllScrapers sampleLib failingRun .active (roundRobin 1 9)).mainPc = .returned ∧
    failingRun.scrapers[0]?
      = some (fixedScraper "Partial" (sampleBatch "p" 2) (some "connection reset") 10) ∧
    (∃ c : Ctx, (0, c) ∈ (RunAllScrapers sampleLib failingRun .active (roundRobin 1 9)).scrapeLog ∧
      ∀ (events : Option (List Event)) (err : String) (d : Int),
        (fixedScraper "Partial" (sampleBatch "p" 2) (some "connection reset") 10).Scrape c
          = .returned (events, some err, d) → 0 < len events →
        runScraper c (fixedScraper "Partial" (sampleBatch "p" 2) (some "connection reset") 10)
          = .returned { Source := "Partial", Events := events, ErrorCount := 1, Duration := d } ∧
        ({ Source := "Partial", Events := events, ErrorCount := 1, Duration := d }
          : ScraperResult) ∈
            (RunAllScrapers sampleLib failingRun .active (roundRobin 1 9)).received ∧
        events ∈ (RunAllScrapers sampleLib failingRun .active (roundRobin 1 9)).ingestLog.map
          Prod.fst) ∧
    (RunAllScrapers sampleLib failingRun .active (roundRobin 1 9)).ingestLog.map Prod.fst
      = [sampleBatch "p" 2] :=
  ⟨by decide, rfl,
    C3_error_records_forwarded sampleLib failingRun .active (roundRobin 1 9) _ rfl (by decide)
      0 _ rfl,
    by decide⟩
/-! ## C4: no empty batch reaches the Sink -/

theorem collect_empty (lib : Lib) (m : Manager) (s : State) (r : ScraperResult)
    (h : len r.Events = 0) : collect lib m s r = { s with received := s.received ++ [r] } := by
  unfold collect
  dsimp only
  rw [if_neg (by omega)]

theorem IngestEvents_empty (lib : Lib) (c : Client) (n : Nat) (events : Option (List Event))
    (h : len events = 0) : c.IngestEvents lib n events = (none, []) := by
  simp [Client.IngestEvents, h]

/-- C4: in every state of every run, each batch that has been passed to
`IngestEvents` holds at least one record and at most one HTTP request has been
issued per call; the loop body, given a result with zero records (a nil or an
empty slice, with any `ErrorCount`), only notes the result and calls nothing;
and `IngestEvents` itself, given a nil or an empty slice, returns nil without
issuing a request. -/
theorem C4_no_empty_batch (lib : Lib) (m : Manager) (ctx : Ctx) (schedule : List Action) :
    (∀ e ∈ (RunAllScrapers lib m ctx schedule).ingestLog, 0 < len e.1) ∧
    (RunAllScrapers lib m ctx schedule).requests.length
      ≤ (RunAllScrapers lib m ctx schedule).ingestLog.length ∧
    (∀ (s : State) (r : ScraperResult), r.Events = none ∨ r.Events = some [] →
      collect lib m s r = { s with received := s.received ++ [r] }) ∧
    (∀ (c : Client) (n : Nat),
      c.IngestEvents lib n none = (none, []) ∧ c.IngestEvents lib n (some []) = (none, [])) := by
  have hL := loop_RunAllScrapers lib m ctx schedule
  refine ⟨?_, hL.requests, ?_, ?_⟩
  · intro e he
    have h1 : e.1 ∈ (RunAllScrapers lib m ctx schedule).ingestLog.map Prod.fst :=
      List.mem_map.mpr ⟨e, he, rfl⟩
    rw [hL.args] at h1
    obtain ⟨r, hr, hre⟩ := List.mem_map.mp h1
    have := (List.mem_filter.mp hr).2
    rw [← hre]
    simpa [nonEmpty] using this
  · intro s r hr
    apply collect_empty
    rcases hr with h | h <;> simp [h, len]
  · intro c n
    exact ⟨IngestEvents_empty lib c n none rfl, IngestEvents_empty lib c n (some []) rfl⟩

/-- Scenario 1: two of the four results are empty and exactly two batches are
offered, of 3 and of 5 records. -/
theorem C4_no_empty_batch_witness :
    batchSizes (RunAllScrapers sampleLib scenario1 .active (roundRobin 4 12)).ingestLog = [3, 5] ∧
    resultSizes (RunAllScrapers sampleLib scenario1 .active (roundRobin 4 12)).received
      = [3, 0, 0, 5] ∧
    (∀ e ∈ (RunAllScrapers sampleLib scenario1 .active (roundRobin 4 12)).ingestLog,
      0 < len e.1) :=
  ⟨by decide, by decide,
    (C4_no_empty_batch sampleLib scenario1 .active (roundRobin 4 12)).1⟩
/-! ## C5: the Sink cannot influence what is offered to it -/

theorem lockstep_collect (lib : Lib) (m1 m2 : Manager) (isA : Option (List Event) → Bool)
    (hsink : ∀ (k : Nat) (b : Option (List Event)), isA b = false →
      (m1.ingestionClient.IngestEvents lib k b).1 = (m2.ingestionClient.IngestEvents lib k b).1)
    (s1 s2 : State) (r : ScraperResult) (hR : Lockstep isA s1 s2) :
    Lockstep isA (collect lib m1 s1 r) (collect lib m2 s2 r) := by
  have hlen : s1.ingestLog.length = s2.ingestLog.length := by
    have := congrArg List.length hR.batches
    simpa using this
  have base : Lockstep isA { s1 with received := s1.received ++ [r] }
      { s2 with received := s2.received ++ [r] } :=
    { hR with received := by simp [hR.received] }
  unfold collect
  dsimp only
  by_cases hr : len r.Events > 0
  · rw [if_pos hr, if_pos hr]
    have key : ∀ (e1 e2 : Option String),
        (isA r.Events = false → e1 = e2) →
        List.filter (fun e => !isA e.1) (s1.ingestLog ++ [(r.Events, e1)])
          = List.filter (fun e => !isA e.1) (s2.ingestLog ++ [(r.Events, e2)]) := by
      intro e1 e2 h12
      rw [List.filter_append, List.filter_append, hR.others]
      congr 1
      by_cases hA : isA r.Events = true
      · simp [List.filter, hA]
      · have hA' : isA r.Events = false := by simpa using hA
        simp [List.filter, hA', h12 hA']
    have hk := key (m1.ingestionClient.IngestEvents lib s1.ingestLog.length r.Events).1
      (m2.ingestionClient.IngestEvents lib s2.ingestLog.length r.Events).1
      (fun hA => by rw [hlen]; exact hsink _ _ hA)
    split <;> split <;>
      exact
        { ctx := hR.ctx, mainPc := hR.mainPc, tasks := hR.tasks, waiter := hR.waiter,
          wg := hR.wg, semaphore := hR.semaphore, results := hR.results, closed := hR.closed,
          crashed := hR.crashed, scrapeLog := hR.scrapeLog,
          received := by simp [hR.received],
          batches := by simp [hR.batches],
          others := hk }
  · rw [if_neg hr, if_neg hr]
    exact base
theorem step_task_scraper (lib : Lib) (m : Manager) (s t : State) (i : Nat)
    (h : step lib m s (.task i) = some t) : ∃ scraper, m.scrapers[i]? = some scraper := by
  cases hs : m.scrapers[i]? with
  | some scraper => exact ⟨scraper, rfl⟩
  | none =>
    simp only [step, stepTask, hs] at h
    split at h
    · cases h
    · split at h
      · simp_all
      · cases h

theorem lockstep_step (lib : Lib) (m1 m2 : Manager) (isA : Option (List Event) → Bool)
    (hscr : m1.scrapers = m2.scrapers) (hcfg : m1.config = m2.config)
    (hsink : ∀ (k : Nat) (b : Option (List Event)), isA b = false →
      (m1.ingestionClient.IngestEvents lib k b).1 = (m2.ingestionClient.IngestEvents lib k b).1)
    (s1 s2 t1 : State) (a : Action) (hR : Lockstep isA s1 s2)
    (h : step lib m1 s1 a = some t1) :
    ∃ t2, step lib m2 s2 a = some t2 ∧ Lockstep isA t1 t2 := by
  have e1 := hR.crashed.symm
  have e2 := hR.mainPc.symm
  have e3 := hR.tasks.symm
  have e4 := hR.waiter.symm
  have e5 := hR.wg.symm
  have e6 := hR.semaphore.symm
  have e7 := hR.results.symm
  have e8 := hR.closed.symm
  have e9 := hR.ctx.symm
  have e10 := hscr.symm
  have e11 := hcfg.symm
  apply step_elim lib m1 (fun t1 => ∃ t2, step lib m2 s2 a = some t2 ∧ Lockstep isA t1 t2)
    s1 t1 a h
  case entryPanic =>
    intro hc ha hpc hcap
    subst ha
    exact ⟨{ s2 with crashed := true }, by simp [step, stepMain, e1, e2, e11, hc, hpc, hcap],
      { hR with crashed := rfl }⟩
  case entryOk =>
    intro hc ha hpc hcap
    subst ha
    exact ⟨{ s2 with mainPc := .spawning 0 },
      by simp [step, stepMain, e1, e2, e11, hc, hpc, hcap], { hR with mainPc := rfl }⟩
  case spawn =>
    intro i hc ha hpc hi
    subst ha
    exact ⟨{ s2 with wg := s2.wg + 1, tasks := s2.tasks ++ [.acquiring],
                     mainPc := .spawning (i + 1) },
      by simp [step, stepMain, e1, e2, e10, hc, hpc, hi],
      { hR with mainPc := rfl, wg := by simp [hR.wg], tasks := by simp [hR.tasks] }⟩
  case spawned =>
    intro i hc ha hpc hi
    subst ha
    exact ⟨{ s2 with waiter := .waiting, mainPc := .collecting },
      by simp [step, stepMain, e1, e2, e10, hc, hpc, hi],
      { hR with mainPc := rfl, waiter := rfl }⟩
  case receive =>
    intro r rest hc ha hpc hres
    subst ha
    refine ⟨collect lib m2 { s2 with results := rest } r,
      by simp [step, stepMain, e1, e2, e7, hc, hpc, hres], ?_⟩
    exact lockstep_collect lib m1 m2 isA hsink _ _ r { hR with results := rfl }
  case finish =>
    intro hc ha hpc hres hcl
    subst ha
    exact ⟨{ s2 with mainPc := .returned, summary := some (s2.totalEvents, s2.totalErrors) },
      by simp [step, stepMain, e1, e2, e7, e8, hc, hpc, hres, hcl],
      { hR with mainPc := rfl }⟩
  case acquire =>
    intro i scraper hc ha ht hs hlt
    subst ha
    exact ⟨{ s2 with semaphore := s2.semaphore + 1, tasks := s2.tasks.set i .running },
      by simp [step, stepTask, e1, e3, e6, e10, e11, hc, ht, hs, hlt],
      { hR with semaphore := by simp [hR.semaphore], tasks := by simp [hR.tasks] }⟩
  case scraped =>
    intro i scraper r hc ha ht hs hrun
    subst ha
    exact ⟨{ s2 with scrapeLog := s2.scrapeLog ++ [(i, s2.ctx)],
                     tasks := s2.tasks.set i (.publishing r) },
      by simp [step, stepTask, e1, e3, e9, e10, hc, ht, hs, hrun],
      { hR with scrapeLog := by simp [hR.scrapeLog, hR.ctx], tasks := by simp [hR.tasks] }⟩
  case scrapePanic =>
    intro i scraper hc ha ht hs hrun
    subst ha
    exact ⟨{ s2 with scrapeLog := s2.scrapeLog ++ [(i, s2.ctx)],
                     tasks := s2.tasks.set i (.releasing true) },
      by simp [step, stepTask, e1, e3, e9, e10, hc, ht, hs, hrun],
      { hR with scrapeLog := by simp [hR.scrapeLog, hR.ctx], tasks := by simp [hR.tasks] }⟩
  case sendClosed =>
    intro i r hc ha ht hcl
    subst ha
    obtain ⟨scraper, hs⟩ := step_task_scraper lib m1 s1 t1 i h
    exact ⟨{ s2 with tasks := s2.tasks.set i (.releasing true) },
      by simp [step, stepTask, e1, e3, e8, e10, hc, ht, hs, hcl],
      { hR with tasks := by simp [hR.tasks] }⟩
  case send =>
    intro i r hc ha ht hcl hlen
    subst ha
    obtain ⟨scraper, hs⟩ := step_task_scraper lib m1 s1 t1 i h
    exact ⟨{ s2 with results := s2.results ++ [r], tasks := s2.tasks.set i (.releasing false) },
      by simp [step, stepTask, e1, e3, e7, e8, e10, hc, ht, hs, hcl, hlen],
      { hR with results := by simp [hR.results], tasks := by simp [hR.tasks] }⟩
  case release =>
    intro i p hc ha ht hsem
    subst ha
    obtain ⟨scraper, hs⟩ := step_task_scraper lib m1 s1 t1 i h
    exact ⟨{ s2 with semaphore := s2.semaphore - 1, tasks := s2.tasks.set i (.finishing p) },
      by simp [step, stepTask, e1, e3, e6, e10, hc, ht, hs, hsem],
      { hR with semaphore := by simp [hR.semaphore], tasks := by simp [hR.tasks] }⟩
  case done =>
    intro i p hc ha ht
    subst ha
    obtain ⟨scraper, hs⟩ := step_task_scraper lib m1 s1 t1 i h
    exact ⟨{ s2 with wg := s2.wg - 1, tasks := s2.tasks.set i (if p then .dying else .exited) },
      by simp [step, stepTask, e1, e3, e5, e10, hc, ht, hs],
      { hR with wg := by simp [hR.wg], tasks := by simp [hR.tasks] }⟩
  case die =>
    intro i hc ha ht
    subst ha
    obtain ⟨scraper, hs⟩ := step_task_scraper lib m1 s1 t1 i h
    exact ⟨{ s2 with crashed := true },
      by simp [step, stepTask, e1, e3, e10, hc, ht, hs],
      { hR with crashed := rfl }⟩
  case waited =>
    intro hc ha hw hwg
    subst ha
    exact ⟨{ s2 with waiter := .closing },
      by simp [step, stepWaiter, e1, e4, e5, hc, hw, hwg], { hR with waiter := rfl }⟩
  case close =>
    intro hc ha hw
    subst ha
    exact ⟨{ s2 with closed := true, waiter := .finished },
      by simp [step, stepWaiter, e1, e4, hc, hw], { hR with waiter := rfl, closed := rfl }⟩
  case cancel =>
    intro hc ha hctx
    subst ha
    exact ⟨{ s2 with ctx := .canceled },
      by simp [step, e1, e9, hc, hctx], { hR with ctx := rfl }⟩
  case expire =>
    intro hc ha hctx
    subst ha
    exact ⟨{ s2 with ctx := .deadlineExceeded },
      by simp [step, e1, e9, hc, hctx], { hR with ctx := rfl }⟩

theorem lockstep_symm (isA : Option (List Event) → Bool) (s1 s2 : State)
    (hR : Lockstep isA s1 s2) : Lockstep isA s2 s1 :=
  { ctx := hR.ctx.symm, mainPc := hR.mainPc.symm, tasks := hR.tasks.symm,
    waiter := hR.waiter.symm, wg := hR.wg.symm, semaphore := hR.semaphore.symm,
    results := hR.results.symm, closed := hR.closed.symm, crashed := hR.crashed.symm,
    scrapeLog := hR.scrapeLog.symm, received := hR.received.symm, batches := hR.batches.symm,
    others := hR.others.symm }

theorem lockstep_stepD (lib : Lib) (m1 m2 : Manager) (isA : Option (List Event) → Bool)
    (hscr : m1.scrapers = m2.scrapers) (hcfg : m1.config = m2.config)
    (hsink : ∀ (k : Nat) (b : Option (List Event)), isA b = false →
      (m1.ingestionClient.IngestEvents lib k b).1 = (m2.ingestionClient.IngestEvents lib k b).1)
    (s1 s2 : State) (a : Action) (hR : Lockstep isA s1 s2) :
    Lockstep isA ((step lib m1 s1 a).getD s1) ((step lib m2 s2 a).getD s2) := by
  cases h1 : step lib m1 s1 a with
  | some t1 =>
    obtain ⟨t2, h2, hR2⟩ := lockstep_step lib m1 m2 isA hscr hcfg hsink s1 s2 t1 a hR h1
    simpa [h2] using hR2
  | none =>
    cases h2 : step lib m2 s2 a with
    | none => simpa using hR
    | some t2 =>
      obtain ⟨t1, h3, _⟩ := lockstep_step lib m2 m1 isA hscr.symm hcfg.symm
        (fun k b hb => (hsink k b hb).symm) s2 s1 t2 a (lockstep_symm isA s1 s2 hR) h2
      rw [h1] at h3
      cases h3

theorem lockstep_run (lib : Lib) (m1 m2 : Manager) (isA : Option (List Event) → Bool)
    (hscr : m1.scrapers = m2.scrapers) (hcfg : m1.config = m2.config)
    (hsink : ∀ (k : Nat) (b : Option (List Event)), isA b = false →
      (m1.ingestionClient.IngestEvents lib k b).1 = (m2.ingestionClient.IngestEvents lib k b).1)
    (schedule : List Action) :
    ∀ s1 s2 : State, Lockstep isA s1 s2 →
      Lockstep isA (run lib m1 s1 schedule) (run lib m2 s2 schedule) := by
  induction schedule with
  | nil => intro s1 s2 hR; exact hR
  | cons a rest ih =>
    intro s1 s2 hR
    exact ih _ _ (lockstep_stepD lib m1 m2 isA hscr hcfg hsink s1 s2 a hR)

theorem lockstep_init (isA : Option (List Event) → Bool) (ctx : Ctx) :
    Lockstep isA (State.init ctx) (State.init ctx) := by
  constructor <;> rfl
theorem forwarded_split (p : Option (List Event) × Option String → Bool) :
    ∀ log : List (Option (List Event) × Option String),
      forwarded log = forwarded (log.filter (fun e => !p e)) + forwarded (log.filter p) := by
  intro log
  induction log with
  | nil => simp [forwarded]
  | cons e es ih =>
    simp only [forwarded, List.map_cons, List.sum_cons] at ih ⊢
    by_cases hp : p e = true
    · simp only [List.filter, hp, Bool.not_true, List.map_cons, List.sum_cons]
      rw [ih]
      ring
    · have hp' : p e = false := by simpa using hp
      simp only [List.filter, hp', Bool.not_false, List.map_cons, List.sum_cons]
      rw [ih]
      ring

/-- C5: take two runs of `RunAllScrapers` with the same scrapers,
configuration, context and schedule, whose Sinks answer alike on every batch
outside a set `isA` (the batches of source A).  In every state the two runs
have received the same results and offered the same batches to `IngestEvents`
in the same order; the calls for the batches outside `isA` got the same
replies, so each of them that was accepted in one run is accepted in the
other, and the forwarded total of each run is the records of those calls plus
the records of the accepted `isA` batches.  When the run has returned, the
batches offered are, one for one, the non-empty record sequences of the
results: a batch is offered once, whether or not it was accepted. -/
theorem C5_delivery_failures_isolated (lib : Lib) (m1 m2 : Manager) (ctx : Ctx)
    (schedule : List Action) (isA : Option (List Event) → Bool)
    (hscr : m1.scrapers = m2.scrapers) (hcfg : m1.config = m2.config)
    (hsink : ∀ (k : Nat) (b : Option (List Event)), isA b = false →
      (m1.ingestionClient.IngestEvents lib k b).1 = (m2.ingestionClient.IngestEvents lib k b).1)
    (s1 s2 : State) (hs1 : RunAllScrapers lib m1 ctx schedule = s1)
    (hs2 : RunAllScrapers lib m2 ctx schedule = s2) :
    s1.mainPc = s2.mainPc ∧ s1.received = s2.received ∧
    s1.ingestLog.map Prod.fst = s2.ingestLog.map Prod.fst ∧
    s1.ingestLog.filter (fun e => !isA e.1) = s2.ingestLog.filter (fun e => !isA e.1) ∧
    s1.totalEvents = forwarded (s1.ingestLog.filter (fun e => !isA e.1))
      + forwarded (s1.ingestLog.filter (fun e => isA e.1)) ∧
    s2.totalEvents = forwarded (s1.ingestLog.filter (fun e => !isA e.1))
      + forwarded (s2.ingestLog.filter (fun e => isA e.1)) ∧
    (s1.mainPc = .returned →
      (s1.ingestLog.map Prod.fst).Perm
        (((outcomes m1 s1.scrapeLog).filter nonEmpty).map (fun r => r.Events))) := by
  subst hs1 hs2
  have hR := lockstep_run lib m1 m2 isA hscr hcfg hsink schedule _ _ (lockstep_init isA ctx)
  have hI := inv_RunAllScrapers lib m1 ctx schedule
  have hL1 := loop_RunAllScrapers lib m1 ctx schedule
  have hL2 := loop_RunAllScrapers lib m2 ctx schedule
  refine ⟨hR.mainPc, hR.received, hR.batches, hR.others, ?_, ?_, ?_⟩
  · rw [hL1.events]
    exact forwarded_split (fun e => isA e.1) _
  · rw [hL2.events]
    have := hR.others
    simp only [RunAllScrapers] at this ⊢
    rw [this]
    exact forwarded_split (fun e => isA e.1) _
  · intro hret
    exact returned_batches lib m1 _ hI hL1 hret

/-- Scenario 1 against scenario 2: the Sinks differ only on 5-record batches;
both runs offer the batches of 3 and 5 records, and the totals are 8 and 3. -/
theorem C5_delivery_failures_isolated_witness :
    batchSizes (RunAllScrapers sampleLib scenario1 .active (roundRobin 4 12)).ingestLog = [3, 5] ∧
    batchSizes (RunAllScrapers sampleLib scenario2 .active (roundRobin 4 12)).ingestLog = [3, 5] ∧
    (RunAllScrapers sampleLib scenario1 .active (roundRobin 4 12)).totalEvents = 8 ∧
    (RunAllScrapers sampleLib scenario2 .active (roundRobin 4 12)).totalEvents = 3 ∧
    (RunAllScrapers sampleLib scenario1 .active (roundRobin 4 12)).ingestLog.map Prod.fst
      = (RunAllScrapers sampleLib scenario2 .active (roundRobin 4 12)).ingestLog.map Prod.fst :=
  ⟨by decide, by decide, by decide, by decide,
    (C5_delivery_failures_isolated sampleLib scenario1 scenario2 .active (roundRobin 4 12)
      (fun b => decide (len b = 5)) rfl rfl
      (fun k b hb => by
        rw [acceptAll_replies k b]
        exact ((rejectFive_replies k b).mpr (by simpa using hb)).symm)
      _ _ rfl rfl).2.2.1⟩
/-! ## C6: one batch per source -/

theorem countP_filter_map_nonEmpty (b : Option (List Event)) (hb : 0 < len b) :
    ∀ rs : List ScraperResult,
      ((rs.filter nonEmpty).map (fun r => r.Events)).countP (fun x => decide (x = b))
        = (rs.map (fun r => r.Events)).countP (fun x => decide (x = b)) := by
  intro rs
  induction rs with
  | nil => rfl
  | cons r rest ih =>
    by_cases hn : nonEmpty r = true
    · simp only [List.filter, hn, List.map_cons, List.countP_cons, ih]
    · have hn' : nonEmpty r = false := by simpa using hn
      have hne : ¬ r.Events = b := by
        intro h
        rw [nonEmpty, h] at hn'
        simp [hb] at hn'
      simp only [List.filter, hn', List.map_cons, List.countP_cons, ih]
      simp [hne]

theorem runScraper_returned (c : Ctx) (scraper : Scraper) (events : Option (List Event))
    (err : Option String) (d : Int) (h : scraper.Scrape c = .returned (events, err, d)) :
    ∃ r : ScraperResult, runScraper c scraper = .returned r ∧ r.Source = scraper.Name ∧
      r.Events = events ∧ r.Duration = d ∧ r.ErrorCount = if err.isSome then 1 else 0 := by
  cases err with
  | none =>
    exact ⟨{ Source := scraper.Name, Events := events, ErrorCount := 0, Duration := d },
      by simp [runScraper, h], rfl, rfl, rfl, rfl⟩
  | some e =>
    exact ⟨{ Source := scraper.Name, Events := events, ErrorCount := 1, Duration := d },
      by simp [runScraper, h], rfl, rfl, rfl, rfl⟩

/-- C6: in a completed run `Scrape` has been called exactly once on every
registered scraper, and every call has either returned, with one result built
by `runScraper`, or panicked (the deferred `wg.Done()` of a panicking
goroutine lets the run complete if the collection loop ends before the
runtime terminates the process); the results received are those built by
`runScraper` for the calls that returned; the arguments of the `IngestEvents`
calls are, one for one, the non-empty record sequences of these results, so
the number of calls is the number of results with at least one record; and
for a call of `Scrape` that returned a non-empty sequence `events`, that very
sequence is an argument of `IngestEvents`, as often as it occurs among the
results (once, unless another source returned the identical sequence). -/
theorem C6_one_batch_per_source (lib : Lib) (m : Manager) (ctx : Ctx) (schedule : List Action)
    (s : State) (hs : RunAllScrapers lib m ctx schedule = s) (hret : s.mainPc = .returned) :
    (s.scrapeLog.map Prod.fst).Perm (List.range m.scrapers.length) ∧
    (outcomes m s.scrapeLog).length + tally panicking s.tasks = m.scrapers.length ∧
    s.received.Perm (outcomes m s.scrapeLog) ∧
    (s.ingestLog.map Prod.fst).Perm
      (((outcomes m s.scrapeLog).filter nonEmpty).map (fun r => r.Events)) ∧
    s.ingestLog.length = (outcomes m s.scrapeLog).countP nonEmpty ∧
    (∀ (i : Nat) (c : Ctx) (scraper : Scraper) (events : Option (List Event))
      (err : Option String) (d : Int),
      (i, c) ∈ s.scrapeLog → m.scrapers[i]? = some scraper →
      scraper.Scrape c = .returned (events, err, d) → 0 < len events →
      events ∈ s.ingestLog.map Prod.fst ∧
      (s.ingestLog.map Prod.fst).countP (fun b => decide (b = events))
        = ((outcomes m s.scrapeLog).map (fun r => r.Events)).countP
            (fun b => decide (b = events))) := by
  subst hs
  have hI := inv_RunAllScrapers lib m ctx schedule
  have hL := loop_RunAllScrapers lib m ctx schedule
  have hb := returned_batches lib m _ hI hL hret
  refine ⟨returned_calls m _ hI hret, returned_outcomes_count m _ hI hret,
    returned_received m _ hI hret, hb, ?_, ?_⟩
  · have := hb.length_eq
    simp only [List.length_map] at this
    rw [this, List.countP_eq_length_filter]
  · intro i c scraper events err d hlog hsc hscrape hM
    obtain ⟨r, hrun, _, hev, _, _⟩ := runScraper_returned c scraper events err d hscrape
    have hoff := returned_offered lib m _ hI hL hret i c scraper r hlog hsc hrun
      (by rw [hev]; exact hM)
    refine ⟨by rw [← hev]; exact hoff.2, ?_⟩
    exact (hb.countP_eq _).trans (countP_filter_map_nonEmpty events hM _)

/-- Scenario 1: four scrapers, two of them with records, two `IngestEvents` calls. -/
theorem C6_one_batch_per_source_witness :
    (RunAllScrapers sampleLib scenario1 .active (roundRobin 4 12)).mainPc = .returned ∧
    (RunAllScrapers sampleLib scenario1 .active (roundRobin 4 12)).ingestLog.map Prod.fst
      = [sampleBatch "a" 3, sampleBatch "d" 5] ∧
    (RunAllScrapers sampleLib scenario1 .active (roundRobin 4 12)).ingestLog.length
      = (outcomes scenario1
          (RunAllScrapers sampleLib scenario1 .active (roundRobin 4 12)).scrapeLog).countP
            nonEmpty :=
  ⟨by decide, by decide,
    (C6_one_batch_per_source sampleLib scenario1 .active (roundRobin 4 12) _ rfl
      (by decide)).2.2.2.2.1⟩

/-- A panicking scraper does not keep `RunAllScrapers` from returning: once
the deferred `wg.Done()` of its goroutine has run, the closing goroutine and
the collection loop can finish before the runtime terminates the process.
The run then returns with one `Scrape` call logged, no result and the totals
0 and 0, and the process dies afterwards; when the runtime is faster, the
process dies with the collection loop still waiting. -/
theorem return_before_crash :
    (RunAllScrapers sampleLib panicOnly .active returnFirst).mainPc = .returned ∧
    (RunAllScrapers sampleLib panicOnly .active returnFirst).crashed = false ∧
    (RunAllScrapers sampleLib panicOnly .active returnFirst).summary = some (0, 0) ∧
    (RunAllScrapers sampleLib panicOnly .active returnFirst).scrapeLog = [(0, .active)] ∧
    outcomes panicOnly (RunAllScrapers sampleLib panicOnly .active returnFirst).scrapeLog = [] ∧
    (RunAllScrapers sampleLib panicOnly .active returnFirst).tasks = [.dying] ∧
    (RunAllScrapers sampleLib panicOnly .active (returnFirst ++ [.task 0])).mainPc = .returned ∧
    (RunAllScrapers sampleLib panicOnly .active (returnFirst ++ [.task 0])).crashed = true ∧
    (RunAllScrapers sampleLib panicOnly .active crashFirst).mainPc = .collecting ∧
    (RunAllScrapers sampleLib panicOnly .active crashFirst).crashed = true := by
  decide
/-! ## C7: cancellation and the start of scrapers -/

theorem ctx_step (lib : Lib) (m : Manager) (ctx : Ctx) (hd : ctx.Done = true) (s s' : State)
    (a : Action) (h : step lib m s a = some s')
    (hI : s.ctx = ctx ∧ ∀ e ∈ s.scrapeLog, e.2 = ctx) :
    s'.ctx = ctx ∧ ∀ e ∈ s'.scrapeLog, e.2 = ctx := by
  obtain ⟨h1, h2⟩ := hI
  have hna : s.ctx ≠ .active := by
    rw [h1]
    intro ha
    rw [ha] at hd
    simp [Ctx.Done, Ctx.Err] at hd
  apply step_elim lib m (fun t => t.ctx = ctx ∧ ∀ e ∈ t.scrapeLog, e.2 = ctx) s s' a h
  case scraped =>
    intros
    refine ⟨h1, ?_⟩
    intro e he
    rcases List.mem_append.mp he with h | h
    · exact h2 e h
    · simp at h; rw [h]; exact h1
  case scrapePanic =>
    intros
    refine ⟨h1, ?_⟩
    intro e he
    rcases List.mem_append.mp he with h | h
    · exact h2 e h
    · simp at h; rw [h]; exact h1
  case receive =>
    intros
    refine ⟨by simpa using h1, ?_⟩
    intro e he
    rw [collect_scrapeLog] at he
    exact h2 e he
  case cancel => intro _ _ hact; exact (hna hact).elim
  case expire => intro _ _ hact; exact (hna hact).elim
  all_goals intros; exact ⟨h1, h2⟩

theorem ctx_run (lib : Lib) (m : Manager) (ctx : Ctx) (hd : ctx.Done = true)
    (schedule : List Action) :
    ∀ s : State, (s.ctx = ctx ∧ ∀ e ∈ s.scrapeLog, e.2 = ctx) →
      (run lib m s schedule).ctx = ctx ∧ ∀ e ∈ (run lib m s schedule).scrapeLog, e.2 = ctx := by
  induction schedule with
  | nil => intro s hI; exact hI
  | cons a rest ih =>
    intro s hI
    have hnext : ((step lib m s a).getD s).ctx = ctx ∧
        ∀ e ∈ ((step lib m s a).getD s).scrapeLog, e.2 = ctx := by
      cases h : step lib m s a with
      | none => exact hI
      | some t => exact ctx_step lib m ctx hd s t a h hI
    exact ih _ hnext

/-- C7 fails as stated: with `ctx` cancelled before `RunAllScrapers` is
called, `Scrape` is still called on all four scenario scrapers; and when the
cancellation arrives after the goroutines are spawned and before any of them
is admitted, the first one is admitted and scraped all the same. -/
theorem C7_counterexample :
    Ctx.canceled.Done = true ∧
    (RunAllScrapers sampleLib scenario1 .canceled (roundRobin 4 12)).mainPc = .returned ∧
    (RunAllScrapers sampleLib scenario1 .canceled (roundRobin 4 12)).scrapeLog
      = [(0, .canceled), (1, .canceled), (2, .canceled), (3, .canceled)] ∧
    (RunAllScrapers sampleLib scenario1 .active
      [.main, .main, .main, .main, .main, .main, .cancel]).tasks
      = [.acquiring, .acquiring, .acquiring, .acquiring] ∧
    (RunAllScrapers sampleLib scenario1 .active
      [.main, .main, .main, .main, .main, .main, .cancel, .task 0, .task 0]).scrapeLog
      = [(0, .canceled)] := by
  decide

/-- C7, amended: `RunAllScrapers` never looks at `ctx`, it only hands it to
`Scrape`.  In every completed run `Scrape` has been called exactly once on
every registered scraper, whatever the status of `ctx`; and when `ctx` was
already cancelled (or past its deadline) on entry, every one of these calls
was made with that cancelled `ctx`. -/
theorem C7_scrapers_started_regardless_of_ctx (lib : Lib) (m : Manager) (ctx : Ctx)
    (schedule : List Action) (s : State) (hs : RunAllScrapers lib m ctx schedule = s)
    (hret : s.mainPc = .returned) :
    (s.scrapeLog.map Prod.fst).Perm (List.range m.scrapers.length) ∧
    (ctx.Done = true → ∀ e ∈ s.scrapeLog, e.2 = ctx) := by
  subst hs
  refine ⟨returned_calls m _ (inv_RunAllScrapers lib m ctx schedule) hret, ?_⟩
  intro hd
  exact (ctx_run lib m ctx hd schedule (State.init ctx) ⟨rfl, by simp [State.init]⟩).2

/-- Scenario 1 entered with an expired context: all four scrapers are called. -/
theorem C7_scrapers_started_regardless_of_ctx_witness :
    (RunAllScrapers sampleLib scenario1 .deadlineExceeded (roundRobin 4 12)).mainPc = .returned ∧
    ((RunAllScrapers sampleLib scenario1 .deadlineExceeded (roundRobin 4 12)).scrapeLog.map
      Prod.fst).Perm (List.range scenario1.scrapers.length) :=
  ⟨by decide,
    (C7_scrapers_started_regardless_of_ctx sampleLib scenario1 .deadlineExceeded
      (roundRobin 4 12) _ rfl (by decide)).1⟩
/-! ## C8: bounded concurrency -/

theorem tally_scraping_le_holding : ∀ ts : List Task, tally scraping ts ≤ tally holding ts := by
  intro ts
  induction ts with
  | nil => simp [tally]
  | cons t rest ih =>
    simp only [tally, List.map_cons, List.sum_cons] at ih ⊢
    cases t <;> simp [scraping, holding] <;> omega

theorem tally_holding_exited : ∀ ts : List Task,
    (∀ t ∈ ts, t = .exited) → tally holding ts = 0 := by
  intro ts
  induction ts with
  | nil => intro _; simp [tally]
  | cons x xs ih =>
    intro h
    have hx : x = .exited := h x (by simp)
    have := ih (fun t ht => h t (by simp [ht]))
    simp only [tally, List.map_cons, List.sum_cons] at this ⊢
    simp [hx, holding, this]

theorem set_index_cases (ts : List Task) (j i : Nat) (u t : Task)
    (h : (ts.set j u)[i]? = some t) : (i = j ∧ t = u) ∨ ts[i]? = some t := by
  by_cases hij : j = i
  · subst hij
    by_cases hlt : j < ts.length
    · left
      simp [List.getElem?_set, hlt] at h
      exact ⟨rfl, h.symm⟩
    · have : (ts.set j u)[j]? = none := List.getElem?_eq_none (by simp; omega)
      rw [this] at h
      cases h
  · right
    simpa [List.getElem?_set, hij] using h

/-- The only way into the deferred `wg.Done()` is through the deferred `<-semaphore`. -/
theorem release_before_done (lib : Lib) (m : Manager) (s s' : State) (a : Action)
    (h : step lib m s a = some s') (i : Nat) (p : Bool)
    (hafter : s'.tasks[i]? = some (.finishing p)) (hbefore : s.tasks[i]? ≠ some (.finishing p)) :
    s.tasks[i]? = some (.releasing p) ∧ s'.semaphore + 1 = s.semaphore := by
  revert hafter
  apply step_elim lib m (fun t => t.tasks[i]? = some (.finishing p) →
    s.tasks[i]? = some (.releasing p) ∧ t.semaphore + 1 = s.semaphore) s s' a h
  case spawn =>
    intro j _ _ _ _ hafter
    by_cases hlt : i < s.tasks.length
    · rw [List.getElem?_append_left hlt] at hafter
      exact (hbefore hafter).elim
    · by_cases heq : i = s.tasks.length
      · subst heq
        simp at hafter
      · have : (s.tasks ++ [Task.acquiring])[i]? = none :=
          List.getElem?_eq_none (by simp; omega)
        rw [this] at hafter
        cases hafter
  case receive => intro _ _ _ _ _ _ hafter; exact (hbefore (by simpa using hafter)).elim
  case acquire =>
    intro j _ _ _ _ _ _ hafter
    rcases set_index_cases _ _ _ _ _ hafter with ⟨_, h2⟩ | h2
    · cases h2
    · exact (hbefore h2).elim
  case scraped =>
    intro j _ _ _ _ _ _ _ hafter
    rcases set_index_cases _ _ _ _ _ hafter with ⟨_, h2⟩ | h2
    · cases h2
    · exact (hbefore h2).elim
  case scrapePanic =>
    intro j _ _ _ _ _ _ hafter
    rcases set_index_cases _ _ _ _ _ hafter with ⟨_, h2⟩ | h2
    · cases h2
    · exact (hbefore h2).elim
  case sendClosed =>
    intro j _ _ _ _ _ hafter
    rcases set_index_cases _ _ _ _ _ hafter with ⟨_, h2⟩ | h2
    · cases h2
    · exact (hbefore h2).elim
  case send =>
    intro j _ _ _ _ _ _ hafter
    rcases set_index_cases _ _ _ _ _ hafter with ⟨_, h2⟩ | h2
    · cases h2
    · exact (hbefore h2).elim
  case release =>
    intro j q _ _ ht hsem hafter
    rcases set_index_cases _ _ _ _ _ hafter with ⟨h1, h2⟩ | h2
    · cases h2
      subst h1
      exact ⟨ht, by simp only []; omega⟩
    · exact (hbefore h2).elim
  case done =>
    intro j q _ _ _ hafter
    rcases set_index_cases _ _ _ _ _ hafter with ⟨_, h2⟩ | h2
    · cases q <;> simp at h2
    · exact (hbefore h2).elim
  all_goals intros; exact (hbefore (by assumption)).elim

/-- The only way out of the goroutine is through the deferred `wg.Done()`. -/
theorem done_before_exit (lib : Lib) (m : Manager) (s s' : State) (a : Action)
    (h : step lib m s a = some s') (i : Nat)
    (hafter : s'.tasks[i]? = some .exited) (hbefore : s.tasks[i]? ≠ some .exited) :
    ∃ p, s.tasks[i]? = some (.finishing p) := by
  revert hafter
  apply step_elim lib m (fun t => t.tasks[i]? = some .exited →
    ∃ p, s.tasks[i]? = some (.finishing p)) s s' a h
  case spawn =>
    intro j _ _ _ _ hafter
    by_cases hlt : i < s.tasks.length
    · rw [List.getElem?_append_left hlt] at hafter
      exact (hbefore hafter).elim
    · by_cases heq : i = s.tasks.length
      · subst heq
        simp at hafter
      · have : (s.tasks ++ [Task.acquiring])[i]? = none :=
          List.getElem?_eq_none (by simp; omega)
        rw [this] at hafter
        cases hafter
  case receive => intro _ _ _ _ _ _ hafter; exact (hbefore (by simpa using hafter)).elim
  case acquire =>
    intro j _ _ _ _ _ _ hafter
    rcases set_index_cases _ _ _ _ _ hafter with ⟨_, h2⟩ | h2
    · cases h2
    · exact (hbefore h2).elim
  case scraped =>
    intro j _ _ _ _ _ _ _ hafter
    rcases set_index_cases _ _ _ _ _ hafter with ⟨_, h2⟩ | h2
    · cases h2
    · exact (hbefore h2).elim
  case scrapePanic =>
    intro j _ _ _ _ _ _ hafter
    rcases set_index_cases _ _ _ _ _ hafter with ⟨_, h2⟩ | h2
    · cases h2
    · exact (hbefore h2).elim
  case sendClosed =>
    intro j _ _ _ _ _ hafter
    rcases set_index_cases _ _ _ _ _ hafter with ⟨_, h2⟩ | h2
    · cases h2
    · exact (hbefore h2).elim
  case send =>
    intro j _ _ _ _ _ _ hafter
    rcases set_index_cases _ _ _ _ _ hafter with ⟨_, h2⟩ | h2
    · cases h2
    · exact (hbefore h2).elim
  case release =>
    intro j q _ _ _ _ hafter
    rcases set_index_cases _ _ _ _ _ hafter with ⟨_, h2⟩ | h2
    · cases h2
    · exact (hbefore h2).elim
  case done =>
    intro j q _ _ ht hafter
    rcases set_index_cases _ _ _ _ _ hafter with ⟨h1, _⟩ | h2
    · subst h1
      exact ⟨q, ht⟩
    · exact (hbefore h2).elim
  all_goals intros; exact (hbefore (by assumption)).elim
/-- C8: in every state of every run of `RunAllScrapers`, under every schedule,
the number of goroutines executing `Scrape` is at most
`MaxConcurrentScrapers` (for a negative value `make` panics and no goroutine
is ever spawned, so the bound is the value clamped at 0).  The slots of
`semaphore` in use are exactly those of the goroutines between their acquire
and their deferred release; a goroutine reaches its `wg.Done()` only through
that release, which frees one slot, whether it is returning or panicking, and
it exits only through `wg.Done()`; once all goroutines have exited no slot is
in use. -/
theorem C8_bounded_concurrency (lib : Lib) (m : Manager) (ctx : Ctx) (schedule : List Action) :
    tally scraping (RunAllScrapers lib m ctx schedule).tasks
      ≤ m.config.MaxConcurrentScrapers.toNat ∧
    ((tally scraping (RunAllScrapers lib m ctx schedule).tasks : Nat) : Int)
      ≤ max m.config.MaxConcurrentScrapers 0 ∧
    tally holding (RunAllScrapers lib m ctx schedule).tasks
      = (RunAllScrapers lib m ctx schedule).semaphore ∧
    (RunAllScrapers lib m ctx schedule).semaphore ≤ m.config.MaxConcurrentScrapers.toNat ∧
    ((∀ t ∈ (RunAllScrapers lib m ctx schedule).tasks, t = .exited) →
      (RunAllScrapers lib m ctx schedule).semaphore = 0) ∧
    (∀ (a : Action) (s' : State) (i : Nat) (p : Bool),
      step lib m (RunAllScrapers lib m ctx schedule) a = some s' →
      s'.tasks[i]? = some (.finishing p) →
      (RunAllScrapers lib m ctx schedule).tasks[i]? ≠ some (.finishing p) →
      (RunAllScrapers lib m ctx schedule).tasks[i]? = some (.releasing p) ∧
        s'.semaphore + 1 = (RunAllScrapers lib m ctx schedule).semaphore) ∧
    (∀ (a : Action) (s' : State) (i : Nat),
      step lib m (RunAllScrapers lib m ctx schedule) a = some s' →
      s'.tasks[i]? = some .exited →
      (RunAllScrapers lib m ctx schedule).tasks[i]? ≠ some .exited →
      ∃ p, (RunAllScrapers lib m ctx schedule).tasks[i]? = some (.finishing p)) := by
  have hI := inv_RunAllScrapers lib m ctx schedule
  have h1 : tally scraping (RunAllScrapers lib m ctx schedule).tasks
      ≤ m.config.MaxConcurrentScrapers.toNat := by
    have := tally_scraping_le_holding (RunAllScrapers lib m ctx schedule).tasks
    have := hI.sem
    have := hI.cap
    omega
  refine ⟨h1, ?_, hI.sem, hI.cap, ?_, ?_, ?_⟩
  · rw [← Int.toNat_eq_max]
    exact_mod_cast h1
  · intro hall
    rw [← hI.sem]
    exact tally_holding_exited _ hall
  · intro a s' i p hstep
    exact release_before_done lib m _ s' a hstep i p
  · intro a s' i hstep
    exact done_before_exit lib m _ s' a hstep i

/-- Three scrapers on two slots: the third waits while two slots are taken,
and is admitted after the panicking scraper has released its slot. -/
theorem C8_bounded_concurrency_witness :
    (RunAllScrapers sampleLib panickyRun .active (roundRobin 3 4)).tasks
      = [.releasing false, .releasing true, .acquiring] ∧
    (RunAllScrapers sampleLib panickyRun .active (roundRobin 3 4)).semaphore = 2 ∧
    (RunAllScrapers sampleLib panickyRun .active (roundRobin 3 5)).tasks
      = [.finishing false, .finishing true, .running] ∧
    (RunAllScrapers sampleLib panickyRun .active (roundRobin 3 5)).semaphore = 1 ∧
    tally scraping (RunAllScrapers sampleLib panickyRun .active (roundRobin 3 5)).tasks
      ≤ panickyRun.config.MaxConcurrentScrapers.toNat :=
  ⟨by decide, by decide, by decide, by decide,
    (C8_bounded_concurrency sampleLib panickyRun .active (roundRobin 3 5)).1⟩
/-! ## C9: `RunAllScrapers` returns -/

theorem measure_step (lib : Lib) (m : Manager) (s s' : State) (a : Action)
    (h : step lib m s a = some s') : measure m s' < measure m s := by
  apply step_elim lib m (fun t => measure m t < measure m s) s s' a h
  case entryPanic => intro hc _ _ _; simp [measure, hc]
  case entryOk => intro hc _ hpc _; simp [measure, hpc, mainRank]
  case spawn =>
    intro i hc _ hpc hi
    simp only [measure, hpc, mainRank, tally_snoc, rank]
    have : 7 * (m.scrapers.length - i) = 7 * (m.scrapers.length - (i + 1)) + 7 := by omega
    omega
  case spawned =>
    intro i hc _ hpc hi
    simp only [measure, hpc, mainRank, waiterRank]
    omega
  case receive =>
    intro r rest hc _ hpc hres
    simp only [measure, collect_mainPc, collect_tasks, collect_waiter, collect_results,
      collect_ctx, collect_crashed, hres, List.length_cons]
    omega
  case finish =>
    intro hc _ hpc _ _
    simp only [measure, hpc, mainRank]
    omega
  case acquire =>
    intro i _ _ _ ht _ _
    have := tally_set rank s.tasks i _ .running ht
    simp only [measure, rank] at this ⊢
    omega
  case scraped =>
    intro i _ r _ _ ht _ _
    have := tally_set rank s.tasks i _ (.publishing r) ht
    simp only [measure, rank] at this ⊢
    omega
  case scrapePanic =>
    intro i _ _ _ ht _ _
    have := tally_set rank s.tasks i _ (.releasing true) ht
    simp only [measure, rank] at this ⊢
    omega
  case sendClosed =>
    intro i _ _ _ ht _
    have := tally_set rank s.tasks i _ (.releasing true) ht
    simp only [measure, rank] at this ⊢
    omega
  case send =>
    intro i _ _ _ ht _ _
    have := tally_set rank s.tasks i _ (.releasing false) ht
    simp only [measure, rank, List.length_append, List.length_singleton] at this ⊢
    omega
  case release =>
    intro i p _ _ ht _
    have := tally_set rank s.tasks i _ (.finishing p) ht
    simp only [measure, rank] at this ⊢
    omega
  case done =>
    intro i p hc _ ht
    have := tally_set rank s.tasks i _ (if p then .dying else .exited) ht
    cases p <;> simp [measure, rank] at this ⊢ <;> omega
  case die => intro i hc _ _; simp [measure, hc]
  case waited =>
    intro _ _ hw _
    simp only [measure, hw, waiterRank]
    omega
  case close =>
    intro _ _ hw
    simp only [measure, hw, waiterRank]
    omega
  case cancel =>
    intro _ _ hctx
    simp only [measure, hctx]
    simp
  case expire =>
    intro _ _ hctx
    simp only [measure, hctx]
    simp

theorem measure_init (m : Manager) (ctx : Ctx) :
    measure m (State.init ctx) ≤ 7 * m.scrapers.length + 10 := by
  simp only [measure, State.init, mainRank, waiterRank, tally]
  split <;> simp

theorem run_measure_le (lib : Lib) (m : Manager) (acts : List Action) :
    ∀ s : State, measure m (run lib m s acts) ≤ measure m s := by
  induction acts with
  | nil => intro s; exact Nat.le_refl _
  | cons a rest ih =>
    intro s
    rw [run_cons]
    cases h : step lib m s a with
    | none => simpa using ih s
    | some t =>
      have := measure_step lib m s t a h
      have := ih t
      simp only [Option.getD_some]
      omega

theorem run_measure_lt (lib : Lib) (m : Manager) (acts : List Action) :
    ∀ (s : State) (a : Action) (t : State), a ∈ acts → step lib m s a = some t →
      measure m (run lib m s acts) < measure m s := by
  induction acts with
  | nil => intro s a t ha; simp at ha
  | cons b rest ih =>
    intro s a t ha hstep
    rw [run_cons]
    cases h : step lib m s b with
    | some u =>
      have := measure_step lib m s u b h
      have := run_measure_le lib m rest u
      simp only [Option.getD_some]
      omega
    | none =>
      have hne : a ≠ b := by
        intro e
        rw [e, h] at hstep
        cases hstep
      have hmem : a ∈ rest := by
        rcases List.mem_cons.mp ha with h1 | h1
        · exact (hne h1).elim
        · exact h1
      simpa using ih s a t hmem hstep
theorem index_lt_length (ts : List Task) (i : Nat) (t : Task) (h : ts[i]? = some t) :
    i < ts.length := by
  by_contra hlt
  have : ts[i]? = none := List.getElem?_eq_none (by omega)
  simp [this] at h

theorem runScraper_of_allReturn (m : Manager) (hall : AllReturn m) (i : Nat)
    (scraper : Scraper) (hs : m.scrapers[i]? = some scraper) (c : Ctx) :
    ∃ r, runScraper c scraper = .returned r := by
  have hmem : scraper ∈ m.scrapers := List.getElem?_mem hs
  obtain ⟨⟨events, err, d⟩, hr⟩ := hall scraper hmem c
  obtain ⟨r, hrun, _⟩ := runScraper_returned c scraper events err d hr
  exact ⟨r, hrun⟩

/-- When every `Scrape` returns and the capacity is not negative, nothing panics. -/
theorem calm_step (lib : Lib) (m : Manager) (hall : AllReturn m)
    (hcap : 0 ≤ m.config.MaxConcurrentScrapers) (s s' : State) (a : Action)
    (h : step lib m s a = some s') (hI : Inv m s)
    (hC : s.crashed = false ∧ tally panicking s.tasks = 0) :
    s'.crashed = false ∧ tally panicking s'.tasks = 0 := by
  obtain ⟨h1, h2⟩ := hC
  have hex := closed_no_task m s hI
  apply step_elim lib m (fun t => t.crashed = false ∧ tally panicking t.tasks = 0) s s' a h
  case entryPanic => intro _ _ _ hneg; omega
  case spawn => intros; simp [tally_snoc, panicking, h1, h2]
  case receive => intros; simp [h1, h2]
  case acquire =>
    intro i _ _ _ ht _ _
    have := tally_set panicking s.tasks i _ .running ht
    simp [panicking] at this ⊢
    exact ⟨h1, by omega⟩
  case scraped =>
    intro i _ r _ _ ht _ _
    have := tally_set panicking s.tasks i _ (.publishing r) ht
    simp [panicking] at this ⊢
    exact ⟨h1, by omega⟩
  case scrapePanic =>
    intro i scraper _ _ _ hs hrun
    obtain ⟨r, hr⟩ := runScraper_of_allReturn m hall i scraper hs s.ctx
    rw [hr] at hrun
    cases hrun
  case sendClosed =>
    intro i r _ _ ht hc
    have := hex hc i _ ht
    simp [live] at this
  case send =>
    intro i _ _ _ ht _ _
    have := tally_set panicking s.tasks i _ (.releasing false) ht
    simp [panicking] at this ⊢
    exact ⟨h1, by omega⟩
  case release =>
    intro i p _ _ ht _
    have hle := tally_ge panicking s.tasks i _ ht
    have := tally_set panicking s.tasks i _ (.finishing p) ht
    cases p
    · simp [panicking] at this ⊢
      exact ⟨h1, by omega⟩
    · simp [panicking] at hle
      omega
  case done =>
    intro i p _ _ ht
    have hle := tally_ge panicking s.tasks i _ ht
    have := tally_set panicking s.tasks i _ (if p then .dying else .exited) ht
    cases p
    · simp [panicking] at this ⊢
      exact ⟨h1, by omega⟩
    · simp [panicking] at hle
      omega
  case die =>
    intro i _ _ ht
    have hle := tally_ge panicking s.tasks i _ ht
    simp [panicking] at hle
    omega
  all_goals intros; exact ⟨h1, h2⟩

theorem finished_step (lib : Lib) (m : Manager) (s s' : State) (a : Action)
    (h : step lib m s a = some s') (hF : s.waiter = .finished → s.closed = true) :
    s'.waiter = .finished → s'.closed = true := by
  apply step_elim lib m (fun t => t.waiter = .finished → t.closed = true) s s' a h
  case spawned => intro _ _ _ _ _ hw; simp at hw
  case receive => intros; simp_all
  case waited => intro _ _ _ _ hw; simp at hw
  case close => intros; rfl
  all_goals intros; simp_all

/-- The facts about a state that the progress argument uses. -/
theorem calm_run (lib : Lib) (m : Manager) (hall : AllReturn m)
    (hcap : 0 ≤ m.config.MaxConcurrentScrapers) (schedule : List Action) :
    ∀ s : State, Inv m s →
      (s.crashed = false ∧ tally panicking s.tasks = 0) ∧ (s.waiter = .finished → s.closed = true) →
      (((run lib m s schedule).crashed = false ∧ tally panicking (run lib m s schedule).tasks = 0) ∧
        ((run lib m s schedule).waiter = .finished → (run lib m s schedule).closed = true)) := by
  induction schedule with
  | nil => intro s _ hC; exact hC
  | cons a rest ih =>
    intro s hI hC
    rw [run_cons]
    apply ih _ (inv_stepD lib m s a hI)
    cases h : step lib m s a with
    | none => exact hC
    | some t =>
      exact ⟨calm_step lib m hall hcap s t a h hI hC.1, finished_step lib m s t a h hC.2⟩
/-- A goroutine that holds a slot can move while `results` is open and empty. -/
theorem holder_moves (lib : Lib) (m : Manager) (hall : AllReturn m) (s : State) (hI : Inv m s)
    (hC : s.crashed = false) (hcl : s.closed = false) (hres : s.results = [])
    (j : Nat) (u : Task) (hj : s.tasks[j]? = some u) (hu : 0 < holding u) :
    j < m.scrapers.length ∧ (step lib m s (.task j)).isSome = true := by
  have hj' : j < m.scrapers.length := Nat.lt_of_lt_of_le (index_lt_length _ _ _ hj) hI.size
  have hs : m.scrapers[j]? = some m.scrapers[j] := List.getElem?_eq_getElem hj'
  cases u with
  | acquiring => simp [holding] at hu
  | running =>
    obtain ⟨r, hr⟩ := runScraper_of_allReturn m hall j _ hs s.ctx
    exact ⟨hj', by simp [step, stepTask, hC, hj, hs, hr]⟩
  | publishing r =>
    have hpos : 0 < m.scrapers.length := by omega
    exact ⟨hj', by simp [step, stepTask, hC, hj, hs, hcl, hres, hpos]⟩
  | releasing p =>
    have hle := tally_ge holding s.tasks j _ hj
    rw [hI.sem] at hle
    have hne : s.semaphore ≠ 0 := by
      simp [holding] at hle
      omega
    exact ⟨hj', by simp [step, stepTask, hC, hj, hs, hne]⟩
  | finishing p => simp [holding] at hu
  | dying => simp [holding] at hu
  | exited => simp [holding] at hu

/-- While some goroutine has not exited and `results` is open and empty, some goroutine can move. -/
theorem live_moves (lib : Lib) (m : Manager) (hall : AllReturn m)
    (hcap : 0 < m.config.MaxConcurrentScrapers) (s : State) (hI : Inv m s)
    (hC : s.crashed = false) (hcl : s.closed = false) (hres : s.results = [])
    (i : Nat) (t : Task) (hi : s.tasks[i]? = some t) (ht : 0 < live t) :
    ∃ j, j < m.scrapers.length ∧ (step lib m s (.task j)).isSome = true := by
  have hi' : i < m.scrapers.length := Nat.lt_of_lt_of_le (index_lt_length _ _ _ hi) hI.size
  have hs : m.scrapers[i]? = some m.scrapers[i] := List.getElem?_eq_getElem hi'
  cases t with
  | acquiring =>
    by_cases hlt : s.semaphore < m.config.MaxConcurrentScrapers.toNat
    · exact ⟨i, hi', by simp [step, stepTask, hC, hi, hs, hlt]⟩
    · have hpos : 0 < tally holding s.tasks := by
        rw [hI.sem]
        omega
      obtain ⟨j, u, hj, hu⟩ := tally_pos holding s.tasks hpos
      exact ⟨j, holder_moves lib m hall s hI hC hcl hres j u hj hu⟩
  | running =>
    exact ⟨i, holder_moves lib m hall s hI hC hcl hres i _ hi (by simp [holding])⟩
  | publishing r =>
    exact ⟨i, holder_moves lib m hall s hI hC hcl hres i _ hi (by simp [holding])⟩
  | releasing p =>
    exact ⟨i, holder_moves lib m hall s hI hC hcl hres i _ hi (by simp [holding])⟩
  | finishing p => exact ⟨i, hi', by simp [step, stepTask, hC, hi, hs]⟩
  | dying => simp [live] at ht
  | exited => simp [live] at ht

/-- Deadlock freedom: in a state of the run in which `RunAllScrapers` has not
returned, some goroutine of the program can move. -/
theorem progress (lib : Lib) (m : Manager) (hall : AllReturn m)
    (hcap : 0 < m.config.MaxConcurrentScrapers) (s : State) (hI : Inv m s)
    (hC : s.crashed = false) (hF : s.waiter = .finished → s.closed = true)
    (hnr : s.mainPc ≠ .returned) :
    ∃ a t, (a = .main ∨ a = .waiter ∨ ∃ i, i < m.scrapers.length ∧ a = .task i) ∧
      step lib m s a = some t := by
  suffices hsome : ∃ a, (a = .main ∨ a = .waiter ∨ ∃ i, i < m.scrapers.length ∧ a = .task i) ∧
      (step lib m s a).isSome = true by
    obtain ⟨a, ha, hs⟩ := hsome
    obtain ⟨t, ht⟩ := Option.isSome_iff_exists.mp hs
    exact ⟨a, t, ha, ht⟩
  cases hpc : s.mainPc with
  | entry =>
    have : ¬ m.config.MaxConcurrentScrapers < 0 := by omega
    exact ⟨.main, Or.inl rfl, by simp [step, stepMain, hC, hpc, this]⟩
  | spawning i =>
    by_cases hi : i < m.scrapers.length
    · exact ⟨.main, Or.inl rfl, by simp [step, stepMain, hC, hpc, hi]⟩
    · exact ⟨.main, Or.inl rfl, by simp [step, stepMain, hC, hpc, hi]⟩
  | returned => exact (hnr hpc).elim
  | collecting =>
    cases hres : s.results with
    | cons r rest => exact ⟨.main, Or.inl rfl, by simp [step, stepMain, hC, hpc, hres]⟩
    | nil =>
      by_cases hcl : s.closed = true
      · exact ⟨.main, Or.inl rfl, by simp [step, stepMain, hC, hpc, hres, hcl]⟩
      · have hcl' : s.closed = false := by simpa using hcl
        cases hw : s.waiter with
        | idle => exact ((hI.atCollect (Or.inl hpc)).2 hw).elim
        | finished => exact (hcl (hF hw)).elim
        | closing => exact ⟨.waiter, Or.inr (Or.inl rfl), by simp [step, stepWaiter, hC, hw]⟩
        | waiting =>
          by_cases hwg : s.wg = 0
          · exact ⟨.waiter, Or.inr (Or.inl rfl), by simp [step, stepWaiter, hC, hw, hwg]⟩
          · have hpos : 0 < tally live s.tasks := by
              rw [hI.wg]
              omega
            obtain ⟨i, t, hi, ht⟩ := tally_pos live s.tasks hpos
            obtain ⟨j, hj, hu⟩ := live_moves lib m hall hcap s hI hC hcl' hres i t hi ht
            exact ⟨.task j, Or.inr (Or.inr ⟨j, hj, rfl⟩), hu⟩
theorem returned_step (lib : Lib) (m : Manager) (s s' : State) (a : Action)
    (h : step lib m s a = some s') (hr : s.mainPc = .returned) : s'.mainPc = .returned := by
  apply step_elim lib m (fun t => t.mainPc = .returned) s s' a h
  case entryPanic => intro _ _ hpc _; rw [hr] at hpc; cases hpc
  case entryOk => intro _ _ hpc _; rw [hr] at hpc; cases hpc
  case spawn => intro _ _ _ hpc _; rw [hr] at hpc; cases hpc
  case spawned => intro _ _ _ hpc _; rw [hr] at hpc; cases hpc
  case receive => intro _ _ _ _ hpc _; rw [hr] at hpc; cases hpc
  case finish => intros; rfl
  all_goals intros; exact hr

theorem returned_run (lib : Lib) (m : Manager) (acts : List Action) :
    ∀ s : State, s.mainPc = .returned → (run lib m s acts).mainPc = .returned := by
  induction acts with
  | nil => intro s hr; exact hr
  | cons a rest ih =>
    intro s hr
    rw [run_cons]
    apply ih
    cases h : step lib m s a with
    | none => exact hr
    | some t => exact returned_step lib m s t a h hr

/-- Under a schedule made of blocks in which every goroutine gets a move,
`RunAllScrapers` has returned after as many blocks as the measure of the
starting state. -/
theorem fair_returns (lib : Lib) (m : Manager) (hall : AllReturn m)
    (hcap : 0 < m.config.MaxConcurrentScrapers) (blocks : List (List Action)) :
    ∀ s : State, Inv m s →
      (s.crashed = false ∧ tally panicking s.tasks = 0) ∧ (s.waiter = .finished → s.closed = true) →
      (∀ b ∈ blocks, Covers m.scrapers.length b) → measure m s ≤ blocks.length →
      (run lib m s blocks.flatten).mainPc = .returned := by
  induction blocks with
  | nil =>
    intro s _ hC _ hle
    simp only [measure, hC.1.1, List.length_nil] at hle
    simp at hle
  | cons b bs ih =>
    intro s hI hC hcov hle
    rw [List.flatten_cons, run_append]
    by_cases hr : s.mainPc = .returned
    · exact returned_run lib m _ _ (returned_run lib m _ _ hr)
    · obtain ⟨a, t, ha, hstep⟩ := progress lib m hall hcap s hI hC.1.1 hC.2 hr
      have hb := hcov b (by simp)
      have hmem : a ∈ b := by
        rcases ha with h1 | h1 | ⟨i, hi, h1⟩
        · rw [h1]; exact hb.1
        · rw [h1]; exact hb.2.1
        · rw [h1]; exact hb.2.2 i hi
      have hlt := run_measure_lt lib m b s a t hmem hstep
      apply ih _ (inv_run lib m b s hI) (calm_run lib m hall (by omega) b s hI hC)
        (fun c hc => hcov c (by simp [hc]))
      simp only [List.length_cons] at hle
      omega

/-- With no slot in the semaphore no goroutine gets past its acquire. -/
theorem blocked_step (lib : Lib) (m : Manager) (hcap : m.config.MaxConcurrentScrapers ≤ 0)
    (s s' : State) (a : Action) (h : step lib m s a = some s')
    (hZ : ∀ (i : Nat) (t : Task), s.tasks[i]? = some t → t = .acquiring) :
    ∀ (i : Nat) (t : Task), s'.tasks[i]? = some t → t = .acquiring := by
  have hz : m.config.MaxConcurrentScrapers.toNat = 0 := by omega
  apply step_elim lib m (fun u => ∀ (i : Nat) (t : Task), u.tasks[i]? = some t → t = .acquiring)
    s s' a h
  case spawn =>
    intro j _ _ _ _ i t ht
    by_cases hlt : i < s.tasks.length
    · rw [List.getElem?_append_left hlt] at ht
      exact hZ i t ht
    · by_cases heq : i = s.tasks.length
      · subst heq
        simp at ht
        exact ht.symm
      · have : (s.tasks ++ [Task.acquiring])[i]? = none :=
          List.getElem?_eq_none (by simp; omega)
        rw [this] at ht
        cases ht
  case receive => intro _ _ _ _ _ _ i t ht; exact hZ i t (by simpa using ht)
  case acquire => intro _ _ _ _ _ _ hlt; omega
  case scraped => intro i _ _ _ _ ht _ _; have := hZ i _ ht; cases this
  case scrapePanic => intro i _ _ _ ht _ _; have := hZ i _ ht; cases this
  case sendClosed => intro i _ _ _ ht _; have := hZ i _ ht; cases this
  case send => intro i _ _ _ ht _ _; have := hZ i _ ht; cases this
  case release => intro i _ _ _ ht _; have := hZ i _ ht; cases this
  case done => intro i _ _ _ ht; have := hZ i _ ht; cases this
  all_goals intros; exact hZ _ _ (by assumption)

theorem blocked_run (lib : Lib) (m : Manager) (hcap : m.config.MaxConcurrentScrapers ≤ 0)
    (acts : List Action) :
    ∀ s : State, (∀ (i : Nat) (t : Task), s.tasks[i]? = some t → t = .acquiring) →
      ∀ (i : Nat) (t : Task), (run lib m s acts).tasks[i]? = some t → t = .acquiring := by
  induction acts with
  | nil => intro s hZ; exact hZ
  | cons a rest ih =>
    intro s hZ
    rw [run_cons]
    apply ih
    cases h : step lib m s a with
    | none => exact hZ
    | some t => exact blocked_step lib m hcap s t a h hZ

/-- With a capacity of zero or less and at least one scraper, `RunAllScrapers` never returns. -/
theorem never_returns (lib : Lib) (m : Manager) (hcap : m.config.MaxConcurrentScrapers ≤ 0)
    (hne : 0 < m.scrapers.length) (ctx : Ctx) (schedule : List Action) :
    (RunAllScrapers lib m ctx schedule).mainPc ≠ .returned := by
  intro hr
  have hI := inv_RunAllScrapers lib m ctx schedule
  have hZ := blocked_run lib m hcap schedule (State.init ctx) (by simp [State.init])
  have hlen := (hI.atCollect (Or.inr hr)).1
  have h0 : (RunAllScrapers lib m ctx schedule).tasks[0]?
      = some (RunAllScrapers lib m ctx schedule).tasks[0] :=
    List.getElem?_eq_getElem (by omega)
  have h1 := closed_no_task m _ hI (hI.atReturn hr).1 0 _ h0
  have h2 := hZ 0 _ h0
  rw [h2] at h1
  simp [live] at h1
theorem scenario_allReturn (client : Client) (cfg : Config) :
    AllReturn (scenarioWith client cfg) := by
  intro scraper hmem c
  simp only [scenarioWith, scenarioScrapers, List.mem_cons, List.mem_singleton,
    List.not_mem_nil, or_false] at hmem
  rcases hmem with h | h | h | h <;> exact ⟨_, by rw [h]; rfl⟩

/-- C9 fails as stated: `getEnvAsInt` yields 0 for `MAX_CONCURRENT_SCRAPERS=0`
and -1 for `MAX_CONCURRENT_SCRAPERS=-1`.  With 0, although every `Scrape`
would return, all four goroutines stay blocked on the unbuffered semaphore:
after the spawning no goroutine of the program can move and
`RunAllScrapers` returns under no schedule.  With -1 the `make` of the
semaphore panics and `RunAllScrapers` returns under no schedule either. -/
theorem C9_counterexample :
    getEnvAsInt zeroSlotsEnviron "MAX_CONCURRENT_SCRAPERS" 4 = 0 ∧
    zeroSlots.config.MaxConcurrentScrapers = 0 ∧
    AllReturn zeroSlots ∧
    (RunAllScrapers sampleLib zeroSlots .active [.main, .main, .main, .main, .main, .main]).tasks
      = [.acquiring, .acquiring, .acquiring, .acquiring] ∧
    (RunAllScrapers sampleLib zeroSlots .active [.main, .main, .main, .main, .main, .main]).mainPc
      = .collecting ∧
    ([Action.main, .waiter, .task 0, .task 1, .task 2, .task 3].all (fun a =>
      step sampleLib zeroSlots
        (RunAllScrapers sampleLib zeroSlots .active [.main, .main, .main, .main, .main, .main]) a
        == none)) = true ∧
    (¬ ∃ schedule, (RunAllScrapers sampleLib zeroSlots .active schedule).mainPc = .returned) ∧
    getEnvAsInt negativeSlotsEnviron "MAX_CONCURRENT_SCRAPERS" 4 = -1 ∧
    (RunAllScrapers sampleLib negativeSlots .active [.main]).crashed = true ∧
    (¬ ∃ schedule,
      (RunAllScrapers sampleLib negativeSlots .active schedule).mainPc = .returned) := by
  refine ⟨by decide, by decide, scenario_allReturn _ _, by decide, by decide, by decide, ?_,
    by decide, by decide, ?_⟩
  · rintro ⟨schedule, h⟩
    exact never_returns sampleLib zeroSlots (by decide) (by decide) .active schedule h
  · rintro ⟨schedule, h⟩
    exact never_returns sampleLib negativeSlots (by decide) (by decide) .active schedule h

/-- C9, amended: when every `Scrape` call returns and `MaxConcurrentScrapers`
is at least 1, `RunAllScrapers` returns.  Under every schedule made of at
least `7 * n + 10` blocks in each of which every goroutine gets a move (`n` is
the number of registered scrapers) it has returned, having collected exactly
`n` results.  Under an arbitrary schedule: as long as it has not returned some
goroutine of the program can move; every move lowers a measure that starts
at most at `7 * n + 10`, so no run goes on forever; nothing panics; and once
it has returned the collection loop has received exactly `n` results. -/
theorem C9_returns_with_positive_capacity (lib : Lib) (m : Manager) (ctx : Ctx)
    (hall : AllReturn m) (hcap : 0 < m.config.MaxConcurrentScrapers) :
    (∀ blocks : List (List Action), (∀ b ∈ blocks, Covers m.scrapers.length b) →
      7 * m.scrapers.length + 10 ≤ blocks.length →
      (RunAllScrapers lib m ctx blocks.flatten).mainPc = .returned ∧
      (RunAllScrapers lib m ctx blocks.flatten).received.length = m.scrapers.length) ∧
    (∀ schedule : List Action,
      ((RunAllScrapers lib m ctx schedule).mainPc ≠ .returned →
        ∃ a t, (a = .main ∨ a = .waiter ∨ ∃ i, i < m.scrapers.length ∧ a = .task i) ∧
          step lib m (RunAllScrapers lib m ctx schedule) a = some t) ∧
      (∀ a t, step lib m (RunAllScrapers lib m ctx schedule) a = some t →
        measure m t < measure m (RunAllScrapers lib m ctx schedule)) ∧
      measure m (RunAllScrapers lib m ctx schedule) ≤ 7 * m.scrapers.length + 10 ∧
      (RunAllScrapers lib m ctx schedule).crashed = false ∧
      ((RunAllScrapers lib m ctx schedule).mainPc = .returned →
        (RunAllScrapers lib m ctx schedule).received.length = m.scrapers.length)) := by
  have hinit : ((State.init ctx).crashed = false ∧ tally panicking (State.init ctx).tasks = 0) ∧
      ((State.init ctx).waiter = .finished → (State.init ctx).closed = true) := by
    simp [State.init, tally]
  have hlen : ∀ schedule : List Action,
      (RunAllScrapers lib m ctx schedule).mainPc = .returned →
      (RunAllScrapers lib m ctx schedule).received.length = m.scrapers.length := by
    intro schedule hr
    have hI := inv_RunAllScrapers lib m ctx schedule
    have hC := calm_run lib m hall (by omega) schedule (State.init ctx) (inv_init m ctx) hinit
    have h0 : tally panicking (RunAllScrapers lib m ctx schedule).tasks = 0 := hC.1.2
    have h1 := returned_outcomes_count m _ hI hr
    rw [(returned_received m _ hI hr).length_eq]
    omega
  refine ⟨?_, ?_⟩
  · intro blocks hcov hlarge
    have hr := fair_returns lib m hall hcap blocks (State.init ctx) (inv_init m ctx) hinit hcov
      (Nat.le_trans (measure_init m ctx) hlarge)
    exact ⟨hr, hlen _ hr⟩
  · intro schedule
    have hI := inv_RunAllScrapers lib m ctx schedule
    have hC := calm_run lib m hall (by omega) schedule (State.init ctx) (inv_init m ctx) hinit
    refine ⟨?_, ?_, ?_, hC.1.1, hlen schedule⟩
    · intro hnr
      exact progress lib m hall hcap _ hI hC.1.1 hC.2 hnr
    · intro a t hstep
      exact measure_step lib m _ t a hstep
    · exact Nat.le_trans (run_measure_le lib m schedule (State.init ctx)) (measure_init m ctx)

/-- Scenario 1 under 38 round-robin rounds: the run has returned with four results. -/
theorem C9_returns_with_positive_capacity_witness :
    AllReturn scenario1 ∧ 0 < scenario1.config.MaxConcurrentScrapers ∧
    (∀ b ∈ List.replicate 38 (round 4), Covers scenario1.scrapers.length b) ∧
    7 * scenario1.scrapers.length + 10 ≤ (List.replicate 38 (round 4)).length ∧
    (RunAllScrapers sampleLib scenario1 .active (List.replicate 38 (round 4)).flatten).mainPc
      = .returned ∧
    (RunAllScrapers sampleLib scenario1 .active
      (List.replicate 38 (round 4)).flatten).received.length = scenario1.scrapers.length :=
  have hcov : ∀ b ∈ List.replicate 38 (round 4), Covers scenario1.scrapers.length b := by
    intro b hb
    rw [(List.mem_replicate.mp hb).2]
    exact ⟨by decide, by decide, by decide⟩
  ⟨scenario_allReturn _ _, by decide, hcov, by decide,
    (C9_returns_with_positive_capacity sampleLib scenario1 .active (scenario_allReturn _ _)
      (by decide)).1 (List.replicate 38 (round 4)) hcov (by decide)⟩
/-! ## C10: the scrapers and a cancelled context -/

theorem done_err (c : Ctx) (h : c.Done = true) : ∃ err, c.Err = some err := by
  cases c
  · simp [Ctx.Done, Ctx.Err] at h
  · exact ⟨_, rfl⟩
  · exact ⟨_, rfl⟩

/-- C10 fails as stated: `MeetupScraper.Scrape`, with its API key configured
and called with a cancelled context, returns an empty slice and a nil error. -/
theorem C10_counterexample :
    keyedConfig.MeetupAPIKey ≠ "" ∧ (cancelledWorld.ctx ()).Done = true ∧
    (MeetupScraper.Scrape keyedConfig ()).1 = (some [], none) := by
  decide

/-- C10, amended: called with a context that is already cancelled or past its
deadline, `RedditScraper.Scrape` and `UniversityScraper.Scrape` return the
empty slice gathered so far together with `ctx.Err()`, and
`EventbriteScraper.Scrape` with an API key returns nil records together with
the error of the rate limiter; all three errors are non-nil and no request is
made.  `MeetupScraper.Scrape`, a stub, never looks at `ctx`: with an API key
it returns an empty slice and a nil error in every world. -/
theorem C10_scrapers_on_cancelled_ctx {W : Type} (config : Config) (world : World W) (w : W)
    (hdone : (world.ctx w).Done = true) :
    RedditScraper.Scrape world w = ((some [], (world.ctx w).Err), w) ∧
    UniversityScraper.Scrape world w = ((some [], (world.ctx w).Err), w) ∧
    (config.EventbriteAPIKey ≠ "" →
      EventbriteScraper.Scrape config world w = ((none, (world.ctx w).Err), w)) ∧
    (world.ctx w).Err ≠ none ∧
    (config.MeetupAPIKey ≠ "" → MeetupScraper.Scrape config w = ((some [], none), w)) := by
  obtain ⟨err, herr⟩ := done_err _ hdone
  refine ⟨?_, ?_, ?_, ?_, ?_⟩
  · simp [RedditScraper.Scrape, RedditScraper.subreddits, RedditScraper.scrapeLoop, hdone]
  · simp [UniversityScraper.Scrape, UniversityScraper.universities,
      UniversityScraper.scrapeLoop, hdone]
  · intro hkey
    simp [EventbriteScraper.Scrape, hkey, Wait, herr]
  · rw [herr]
    simp
  · intro hkey
    simp [MeetupScraper.Scrape, hkey]

/-- The four scrapers in a world whose context is cancelled. -/
theorem C10_scrapers_on_cancelled_ctx_witness :
    (cancelledWorld.ctx ()).Done = true ∧
    RedditScraper.Scrape cancelledWorld () = ((some [], some "context canceled"), ()) ∧
    UniversityScraper.Scrape cancelledWorld () = ((some [], some "context canceled"), ()) ∧
    EventbriteScraper.Scrape keyedConfig cancelledWorld ()
      = ((none, some "context canceled"), ()) :=
  ⟨by decide,
    (C10_scrapers_on_cancelled_ctx keyedConfig cancelledWorld () (by decide)).1,
    (C10_scrapers_on_cancelled_ctx keyedConfig cancelledWorld () (by decide)).2.1,
    (C10_scrapers_on_cancelled_ctx keyedConfig cancelledWorld () (by decide)).2.2.1
      (by decide)⟩
/-! ## C14: the status codes `IngestEvents` accepts -/

/-- C14: take a non-empty record sequence that is marshalled, turned into a
request and answered without a transport failure.  Then `IngestEvents`
returns nil exactly when the status code of the response is 200 or 201; with
any other status code it returns the error
`ingestion failed with status <code>: <body>`, which carries the status code
and the response body; in both cases the one request has been issued.
`IngestEvent(e)` is `IngestEvents` of the one-element slice holding `e`. -/
theorem C14_ingest_status (lib : Lib) (c : Client) (n : Nat) (events : Option (List Event))
    (jsonData : String) (req0 : Request) (resp : Response)
    (hlen : 0 < len events) (hmarshal : lib.Marshal events = .ok jsonData)
    (hreq : lib.NewRequest "POST" (c.apiURL ++ "/api/v1/events/ingest") jsonData = .ok req0)
    (hdo : c.httpClient n
      ((req0.Set "Content-Type" "application/json").Set "User-Agent" "ZeroCost-Scraper/1.0")
        = .ok resp) :
    ((c.IngestEvents lib n events).1 = none ↔ resp.StatusCode = 200 ∨ resp.StatusCode = 201) ∧
    (¬ (resp.StatusCode = 200 ∨ resp.StatusCode = 201) →
      (c.IngestEvents lib n events).1
        = some ("ingestion failed with status " ++ toString resp.StatusCode ++ ": " ++ resp.Body)) ∧
    (c.IngestEvents lib n events).2
      = [(req0.Set "Content-Type" "application/json").Set "User-Agent" "ZeroCost-Scraper/1.0"] ∧
    (∀ e : Event, c.IngestEvent lib n e = c.IngestEvents lib n (some [e])) := by
  have hne : ¬ len events = 0 := by omega
  by_cases hst : resp.StatusCode = 200 ∨ resp.StatusCode = 201
  · have hcond : ¬ (resp.StatusCode ≠ 200 ∧ resp.StatusCode ≠ 201) := by
      rcases hst with h | h <;> simp [h]
    simp [Client.IngestEvents, hne, hmarshal, hreq, hdo, hcond, hst, Client.IngestEvent]
  · have hcond : resp.StatusCode ≠ 200 ∧ resp.StatusCode ≠ 201 := by
      constructor
      · intro h; exact hst (Or.inl h)
      · intro h; exact hst (Or.inr h)
    simp [Client.IngestEvents, hne, hmarshal, hreq, hdo, hcond, hst, Client.IngestEvent]

/-- A batch of five records answered with status 500 and a batch of three answered with 201. -/
theorem C14_ingest_status_witness :
    0 < len (sampleBatch "a" 5) ∧
    (scenario2.ingestionClient.IngestEvents sampleLib 0 (sampleBatch "a" 5)).1
      = some "ingestion failed with status 500: rejected" ∧
    (scenario2.ingestionClient.IngestEvents sampleLib 0 (sampleBatch "a" 3)).1 = none ∧
    ((scenario2.ingestionClient.IngestEvents sampleLib 0 (sampleBatch "a" 5)).1 = none ↔
      (500 : Int) = 200 ∨ (500 : Int) = 201) :=
  ⟨by decide, by decide, by decide,
    (C14_ingest_status sampleLib scenario2.ingestionClient 0 (sampleBatch "a" 5) "eeeee"
      { Method := "POST", URL := "http://localhost:8080/api/v1/events/ingest", Header := [],
        Body := "eeeee" }
      { StatusCode := 500, Body := "rejected" } (by decide) rfl rfl rfl).1⟩
/-! ## C13 and C15: the categories the scrapers assign -/

theorem mapCategoryIn_mem (text : String) : ∀ order : List (String × String),
    EventbriteScraper.mapCategoryIn text order = "Community Events" ∨
      EventbriteScraper.mapCategoryIn text order ∈ order.map Prod.snd := by
  intro order
  induction order with
  | nil => left; rfl
  | cons e rest ih =>
    obtain ⟨keyword, category⟩ := e
    simp only [EventbriteScraper.mapCategoryIn]
    split
    · right; simp
    · rcases ih with h | h
      · left; exact h
      · right; simp only [List.map_cons, List.mem_cons]; right; exact h

theorem mapCategoryIn_none (text : String) : ∀ order : List (String × String),
    (∀ e ∈ order, Contains text e.1 = false) →
      EventbriteScraper.mapCategoryIn text order = "Community Events" := by
  intro order
  induction order with
  | nil => intro _; rfl
  | cons e rest ih =>
    intro h
    obtain ⟨keyword, category⟩ := e
    have h1 : Contains text keyword = false := h (keyword, category) (by simp)
    simp only [EventbriteScraper.mapCategoryIn, h1]
    exact ih (fun e he => h e (by simp [he]))

/-- C13: whatever `strings.ToLower` does and in whatever order the keyword
table is visited, `EventbriteScraper.mapCategory` returns one of Free Food,
Entertainment, Workshops, Community Events, Sports and Health & Wellness, and
`RedditScraper.categorizePost` returns one of Free Food, Entertainment,
Workshops, Giveaways and Community Events; when the lowered input contains
none of the keywords, both return the catch-all Community Events. -/
theorem C13_categories_in_taxonomy (ToLower : String → String) (order : List (String × String))
    (horder : order.Perm EventbriteScraper.categoryMap) (ebCategory title body : String) :
    EventbriteScraper.mapCategory ToLower order ebCategory ∈
      ["Free Food", "Entertainment", "Workshops", "Community Events", "Sports",
        "Health & Wellness"] ∧
    RedditScraper.categorizePost ToLower title body ∈
      ["Free Food", "Entertainment", "Workshops", "Giveaways", "Community Events"] ∧
    ((∀ e ∈ EventbriteScraper.categoryMap, Contains (ToLower ebCategory) e.1 = false) →
      EventbriteScraper.mapCategory ToLower order ebCategory = "Community Events") ∧
    ((∀ keyword ∈ RedditScraper.categoryKeywords,
        Contains (ToLower (title ++ " " ++ body)) keyword = false) →
      RedditScraper.categorizePost ToLower title body = "Community Events") := by
  refine ⟨?_, ?_, ?_, ?_⟩
  · have hall : ∀ c ∈ EventbriteScraper.categoryMap.map Prod.snd,
        c ∈ ["Free Food", "Entertainment", "Workshops", "Community Events", "Sports",
          "Health & Wellness"] := by decide
    rcases mapCategoryIn_mem (ToLower ebCategory) order with h | h
    · simp only [EventbriteScraper.mapCategory, h]
      decide
    · exact hall _ ((horder.map Prod.snd).mem_iff.mp h)
  · simp only [RedditScraper.categorizePost]
    split
    · decide
    · split
      · decide
      · split
        · decide
        · split <;> decide
  · intro hnone
    exact mapCategoryIn_none _ order (fun e he => hnone e (horder.mem_iff.mp he))
  · intro hnone
    have h := fun kw hkw => hnone kw hkw
    simp only [RedditScraper.categoryKeywords, List.mem_cons, List.mem_singleton,
      List.not_mem_nil, or_false, forall_eq_or_imp, forall_eq] at h
    simp [RedditScraper.categorizePost, h]

/-- A category name with two keywords, visited with `music` first, and one with none. -/
theorem C13_categories_in_taxonomy_witness :
    musicFirst.Perm EventbriteScraper.categoryMap ∧
    EventbriteScraper.mapCategory asciiLower musicFirst "Food & Music" = "Entertainment" ∧
    EventbriteScraper.mapCategory asciiLower musicFirst "Science" = "Community Events" ∧
    RedditScraper.categorizePost asciiLower "Free Stuff" "come and take it" = "Giveaways" ∧
    EventbriteScraper.mapCategory asciiLower musicFirst "Food & Music" ∈
      ["Free Food", "Entertainment", "Workshops", "Community Events", "Sports",
        "Health & Wellness"] :=
  ⟨by decide, by decide, by decide, by decide,
    (C13_categories_in_taxonomy asciiLower musicFirst (by decide) "Food & Music" "" "").1⟩

/-- C15 (defect in the code): the category `mapCategory` returns depends on
the order in which the `range` visits the map, which Go leaves unspecified.
For the category name `Food & Music` a traversal that meets `food` first
returns Free Food and one that meets `music` first returns Entertainment; both
traversals are arrangements of the same table. -/
theorem C15_mapCategory_depends_on_order :
    musicFirst.Perm EventbriteScraper.categoryMap ∧
    EventbriteScraper.mapCategory asciiLower EventbriteScraper.categoryMap "Food & Music"
      = "Free Food" ∧
    EventbriteScraper.mapCategory asciiLower musicFirst "Food & Music" = "Entertainment" ∧
    EventbriteScraper.mapCategory asciiLower EventbriteScraper.categoryMap "Food & Music"
      ≠ EventbriteScraper.mapCategory asciiLower musicFirst "Food & Music" := by
  decide
/-! ## C11: a scraper without credentials skips -/

/-- C11: in every world and every state of it, so whatever the status of
`ctx`, `EventbriteScraper.Scrape` with an empty `EventbriteAPIKey` and
`MeetupScraper.Scrape` with an empty `MeetupAPIKey` return nil records and a
nil error and leave the world as it was: neither the rate limiter nor the
network is used.  For a scraper whose `Scrape` returns that, `runScraper`
builds a result with `ErrorCount = 0` and no records, and the loop body, given
this result, only notes it: no `IngestEvents` call, no request, no change of
the totals.  The Eventbrite and Meetup scrapers registered by `NewManager`
yield exactly this result when their keys are empty. -/
theorem C11_unconfigured_scrapers_skip {W : Type} (cfg : Config) (world : World W) (w : W) :
    (cfg.EventbriteAPIKey = "" → EventbriteScraper.Scrape cfg world w = ((none, none), w)) ∧
    (cfg.MeetupAPIKey = "" → MeetupScraper.Scrape cfg w = ((none, none), w)) ∧
    (∀ (scraper : Scraper) (c : Ctx) (d : Int), scraper.Scrape c = .returned (none, none, d) →
      runScraper c scraper = .returned (skipped scraper.Name d)) ∧
    (∀ (lib : Lib) (m : Manager) (s : State) (name : String) (d : Int),
      collect lib m s (skipped name d) = { s with received := s.received ++ [skipped name d] }) ∧
    (∀ (enter : Ctx → W) (elapsed : Int) (client : Client) (c : Ctx),
      (cfg.EventbriteAPIKey = "" →
        outcome (NewManager world enter elapsed client cfg) (1, c)
          = some (skipped "Eventbrite" elapsed)) ∧
      (cfg.MeetupAPIKey = "" →
        outcome (NewManager world enter elapsed client cfg) (2, c)
          = some (skipped "Meetup" elapsed))) := by
  refine ⟨?_, ?_, ?_, ?_, ?_⟩
  · intro hkey
    simp [EventbriteScraper.Scrape, hkey]
  · intro hkey
    simp [MeetupScraper.Scrape, hkey]
  · intro scraper c d h
    simp [runScraper, h, skipped]
  · intro lib m s name d
    exact collect_empty lib m s _ rfl
  · intro enter elapsed client c
    constructor
    · intro hkey
      simp [outcome, NewManager, NewEventbriteScraper, methodScraper, runScraper,
        EventbriteScraper.Scrape, hkey, skipped]
    · intro hkey
      simp [outcome, NewManager, NewMeetupScraper, methodScraper, runScraper,
        MeetupScraper.Scrape, hkey, skipped]

/-- Without API keys, in a world that counts every use of the limiter and of
the network and whose `ctx` is cancelled: nothing is counted; and a run of the
manager built by `NewManager` reports no event and no error and makes no
`IngestEvents` call. -/
theorem C11_unconfigured_scrapers_skip_witness :
    (sampleConfig 4).EventbriteAPIKey = "" ∧ (sampleConfig 4).MeetupAPIKey = "" ∧
    EventbriteScraper.Scrape (sampleConfig 4) (countingWorld .canceled) 0 = ((none, none), 0) ∧
    MeetupScraper.Scrape (sampleConfig 4) (0 : Nat) = ((none, none), 0) ∧
    (RunAllScrapers sampleLib unkeyedManager .active (roundRobin 4 12)).summary = some (0, 0) ∧
    (RunAllScrapers sampleLib unkeyedManager .active (roundRobin 4 12)).ingestLog = [] ∧
    resultSizes (RunAllScrapers sampleLib unkeyedManager .active (roundRobin 4 12)).received
      = [0, 0, 0, 0] :=
  ⟨by decide, by decide,
    (C11_unconfigured_scrapers_skip (sampleConfig 4) (countingWorld .canceled) 0).1 (by decide),
    (C11_unconfigured_scrapers_skip (sampleConfig 4) (countingWorld .canceled) 0).2.1
      (by decide),
    by decide, by decide, by decide⟩
/-! ## C12: the pace of the shared rate limiter -/

theorem wait_every (lim : Limiter) (now d : Int) (h : lim.limit = .every d) :
    lim.Wait now none
      = (none, now + max 0 (d - min (lim.burst * d) (lim.tokens + (now - lim.last))),
          { lim with tokens := min (lim.burst * d) (lim.tokens + (now - lim.last)) - d,
                     last := now }) := by
  simp [Limiter.Wait, h]

/-- After `K` back-to-back calls the clock has passed the debt of the bucket by `K` intervals. -/
theorem backToBack_bound : ∀ (K : Nat) (lim : Limiter) (now d : Int),
    lim.limit = .every d → 1 ≤ K →
      max (now - lim.burst * d) (lim.last - lim.tokens) + (K : Int) * d
        ≤ (lim.backToBack now K).1 := by
  intro K
  induction K with
  | zero => intro lim now d _ hK; omega
  | succ k ih =>
    intro lim now d hlim _
    have hw := wait_every lim now d hlim
    simp only [Limiter.backToBack, hw]
    have hmul : ((k + 1 : Nat) : Int) * d = (k : Int) * d + d := by push_cast; ring
    rw [hmul]
    generalize lim.burst * d = cap
    generalize hkd : (k : Int) * d = kd
    cases k with
    | zero =>
      simp only [Limiter.backToBack]
      simp at hkd
      omega
    | succ j =>
      have h2 := ih
        { lim with tokens := min cap (lim.tokens + (now - lim.last)) - d, last := now }
        (now + max 0 (d - min cap (lim.tokens + (now - lim.last)))) d hlim (by omega)
      simp only [] at h2
      rw [hkd] at h2
      generalize lim.burst * d = cap2 at h2
      omega

theorem wait_error_unchanged (lim : Limiter) (now : Int) (doneAt : Option Int)
    (h : (lim.Wait now doneAt).1 ≠ none) : (lim.Wait now doneAt).2.2 = lim := by
  unfold Limiter.Wait at h ⊢
  cases hl : lim.limit with
  | Inf =>
    simp only [hl] at h ⊢
    cases doneAt with
    | none => simp at h
    | some t =>
      simp only [] at h ⊢
      split
      · rfl
      · rename_i hn
        simp [hn] at h
  | every d =>
    simp only [hl] at h ⊢
    cases doneAt with
    | none => simp at h
    | some t =>
      simp only [] at h ⊢
      split
      · rfl
      · split
        · rfl
        · rename_i h1 h2
          simp [h1, h2] at h

theorem wait_cancelled (lim : Limiter) (now t : Int) (h : t ≤ now) :
    lim.Wait now (some t) = (some "context canceled", now, lim) := by
  unfold Limiter.Wait
  cases lim.limit <;> simp [h]
theorem durationOfMillis_fits (ms : Int) (hpos : 0 < ms) (hfit : ms * 1000000 < 2 ^ 63) :
    durationOfMillis ms = ms * 1000000 := by
  simp only [durationOfMillis, wrapInt64, Millisecond]
  have h1 : (0 : Int) ≤ ms * 1000000 + 2 ^ 63 := by omega
  have h2 : ms * 1000000 + 2 ^ 63 < (2 : Int) ^ 64 := by omega
  rw [Int.emod_eq_of_lt h1 h2]
  omega

/-- C12 fails as stated: `REQUEST_DELAY_MS=18446744073710` is accepted by
`strconv.Atoi`, but `time.Duration(18446744073710) * time.Millisecond` wraps
around to 448384 nanoseconds, so the limiter built by `NewManager` refills one
token every 448384 ns, and the second of two back-to-back `Wait` calls
returns after 448384 ns, far less than `(2 - 1) * 18446744073710` ms.  (With
`RequestDelayMS = 9223372036855` the product wraps to a negative duration and
with `RequestDelayMS = 0` it is zero: `rate.Every` then yields `Inf`.) -/
theorem C12_counterexample :
    Atoi "18446744073710" = some 18446744073710 ∧
    overflowManager.config.RequestDelayMS = 18446744073710 ∧
    overflowManager.rateLimiter.burst = 1 ∧
    overflowManager.rateLimiter.limit = .every 448384 ∧
    (overflowManager.rateLimiter.backToBack 0 2).1 = 448384 ∧
    ¬ ((0 : Int) + ((2 : Nat) - 1) * (overflowManager.config.RequestDelayMS * 1000000)
        ≤ (overflowManager.rateLimiter.backToBack 0 2).1) ∧
    Every (durationOfMillis 9223372036855) = .Inf ∧
    Every (durationOfMillis 0) = .Inf := by
  decide

/-- C12, amended: the limiter built by `NewManager` is
`rate.NewLimiter(rate.Every(d), 1)` with `d` the duration
`time.Duration(RequestDelayMS) * time.Millisecond`.  When `RequestDelayMS` is
positive and that duration fits in an `int64` (`RequestDelayMS * 1000000 <
2^63`), it is a token bucket of burst capacity 1 that refills one token per
`RequestDelayMS` milliseconds, and for every state `lim` this limiter can be
in, every instant `t0` and every `K >= 1`, the `K`-th of `K` back-to-back
`Wait` calls started at `t0` returns no earlier than
`t0 + (K - 1) * RequestDelayMS` ms.  A `Wait` whose context is already
cancelled returns an error at once, and a `Wait` that returns an error leaves
the limiter as it was: no token is consumed. -/
theorem C12_limiter_spacing {W : Type} (world : World W) (enter : Ctx → W) (elapsed : Int)
    (client : Client) (cfg : Config) (hpos : 0 < cfg.RequestDelayMS)
    (hfit : cfg.RequestDelayMS * 1000000 < 2 ^ 63) :
    (NewManager world enter elapsed client cfg).rateLimiter
      = NewLimiter (Every (durationOfMillis cfg.RequestDelayMS)) 1 ∧
    (NewManager world enter elapsed client cfg).rateLimiter.burst = 1 ∧
    (NewManager world enter elapsed client cfg).rateLimiter.limit
      = .every (cfg.RequestDelayMS * 1000000) ∧
    (∀ (lim : Limiter) (t0 : Int) (K : Nat),
      lim.limit = (NewManager world enter elapsed client cfg).rateLimiter.limit →
      lim.burst = (NewManager world enter elapsed client cfg).rateLimiter.burst → 1 ≤ K →
      t0 + ((K : Int) - 1) * (cfg.RequestDelayMS * 1000000) ≤ (lim.backToBack t0 K).1) ∧
    (∀ (lim : Limiter) (now t : Int), t ≤ now →
      lim.Wait now (some t) = (some "context canceled", now, lim)) ∧
    (∀ (lim : Limiter) (now : Int) (doneAt : Option Int),
      (lim.Wait now doneAt).1 ≠ none → (lim.Wait now doneAt).2.2 = lim) := by
  have hd := durationOfMillis_fits cfg.RequestDelayMS hpos hfit
  have hne : ¬ cfg.RequestDelayMS * 1000000 ≤ 0 := by omega
  have hlim : (NewManager world enter elapsed client cfg).rateLimiter
      = { limit := .every (cfg.RequestDelayMS * 1000000), burst := 1,
          tokens := 1 * (cfg.RequestDelayMS * 1000000), last := 0 } := by
    simp [NewManager, NewLimiter, Every, hd, hne]
  refine ⟨rfl, ?_, ?_, ?_, wait_cancelled, wait_error_unchanged⟩
  · rw [hlim]
  · rw [hlim]
  · intro lim t0 K hl hb hK
    rw [hlim] at hl hb
    simp only [] at hl hb
    have h := backToBack_bound K lim t0 (cfg.RequestDelayMS * 1000000) hl hK
    rw [hb] at h
    generalize (lim.backToBack t0 K).1 = ret at h ⊢
    have hmul : ((K : Int) - 1) * (cfg.RequestDelayMS * 1000000)
        = (K : Int) * (cfg.RequestDelayMS * 1000000) - 1 * (cfg.RequestDelayMS * 1000000) := by
      ring
    rw [hmul]
    generalize (K : Int) * (cfg.RequestDelayMS * 1000000) = kd at h ⊢
    omega

/-- The default configuration, `RequestDelayMS = 1000`: three back-to-back
`Wait` calls on the fresh limiter return at 0 s, 1 s and 2 s. -/
theorem C12_limiter_spacing_witness :
    (0 : Int) < defaultManager.config.RequestDelayMS ∧
    defaultManager.config.RequestDelayMS * 1000000 < 2 ^ 63 ∧
    (defaultManager.rateLimiter.backToBack 0 1).1 = 0 ∧
    (defaultManager.rateLimiter.backToBack 0 2).1 = 1000000000 ∧
    (defaultManager.rateLimiter.backToBack 0 3).1 = 2000000000 ∧
    (0 : Int) + ((3 : Nat) - 1) * ((LoadConfig (fun _ => "")).RequestDelayMS * 1000000)
      ≤ (defaultManager.rateLimiter.backToBack 0 3).1 :=
  ⟨by decide, by decide, by decide, by decide, by decide,
    (C12_limiter_spacing (countingWorld .active) (fun _ => 0) 10
      { apiURL := "http://localhost:8080", httpClient := acceptAll } (LoadConfig (fun _ => ""))
      (by decide) (by decide)).2.2.2.1 defaultManager.rateLimiter 0 3 rfl rfl (by decide)⟩

end ZeroCost
